import Mathlib

/-!
# RTS prototype: selection, placement validation and unit steering

A shallow embedding of the gameplay code of the prototype (`Unit.cpp`,
`UnitController.cpp`, `Building.cpp`, `RTS_PlayerController.cpp` and the
flow-field part of `prototype1Character.cpp`).

Conventions of the embedding.

* `float` values are idealised as rationals: `+`, `-`, `*`, `/` and the
  comparisons are exact.  The square root, the heading of a vector and the
  rotation interpolation are engine services; they are fields of `Engine` and
  every theorem holds for every choice of them.
* Actors are referred to by pointer in the source; here an actor carries an
  `Id` and a pointer is the `Id` it points to.
* Results of engine queries that depend on the scene (screen deprojection,
  line traces, the mouse position, the navigation projection) and the random
  draws are parameters of the world or of the call.
* The sample scene at the end of the definitions is a concrete engine and world
  on which the model is evaluated; its square root is exact on squares of
  rationals and rounds down otherwise.
-/

namespace RTS

/-! ## Engine math -/

/-- Engine vector `FVector`. -/
structure FVector where
  X : ℚ
  Y : ℚ
  Z : ℚ
deriving DecidableEq

/-- Engine vector `FVector2D` (screen coordinates). -/
structure FVector2D where
  X : ℚ
  Y : ℚ
deriving DecidableEq

/-- Engine rotator `FRotator`. -/
structure FRotator where
  Pitch : ℚ
  Yaw : ℚ
  Roll : ℚ
deriving DecidableEq

/-- Engine services whose results are not rational functions of their
arguments: `FMath::Sqrt`, `FVector::Rotation` and `FMath::RInterpTo`. -/
structure Engine where
  Sqrt : ℚ → ℚ
  Rotation : FVector → FRotator
  RInterpTo : FRotator → FRotator → ℚ → ℚ → FRotator

namespace FVector

/-- The constant `FVector::ZeroVector`. -/
def ZeroVector : FVector := ⟨0, 0, 0⟩

/-- Component-wise sum, `operator+`. -/
def add (a b : FVector) : FVector := ⟨a.X + b.X, a.Y + b.Y, a.Z + b.Z⟩

/-- Component-wise difference, `operator-`. -/
def sub (a b : FVector) : FVector := ⟨a.X - b.X, a.Y - b.Y, a.Z - b.Z⟩

/-- Scaling by a scalar, `operator*(float)`. -/
def scale (a : FVector) (k : ℚ) : FVector := ⟨a.X * k, a.Y * k, a.Z * k⟩

/-- Division by a scalar, `operator/=(float)`. -/
def divide (a : FVector) (k : ℚ) : FVector := ⟨a.X / k, a.Y / k, a.Z / k⟩

/-- Sum of the squared components, `SizeSquared`. -/
def SizeSquared (a : FVector) : ℚ := a.X * a.X + a.Y * a.Y + a.Z * a.Z

/-- Length of the vector, `Size`. -/
def Size (E : Engine) (a : FVector) : ℚ := E.Sqrt (SizeSquared a)

/-- Euclidean distance `FVector::Distance` (alias `FVector::Dist`), over all
three components. -/
def Distance (E : Engine) (a b : FVector) : ℚ := E.Sqrt (SizeSquared (sub a b))

/-- The engine tolerance `SMALL_NUMBER` (1e-8). -/
def SMALL_NUMBER : ℚ := 1 / 100000000

/-- The engine's `GetSafeNormal`: the vector itself when its squared length is
exactly one, the zero vector when the squared length is below the tolerance,
and the vector scaled by the inverse square root otherwise. -/
def GetSafeNormal (E : Engine) (a : FVector) : FVector :=
  let SquareSum := SizeSquared a
  if SquareSum = 1 then a
  else if SquareSum < SMALL_NUMBER then ZeroVector
  else scale a (1 / E.Sqrt SquareSum)

/-- The engine's in-place `Normalize`: scales when the squared length exceeds
the tolerance and leaves the vector as it is otherwise. -/
def Normalize (E : Engine) (a : FVector) : FVector :=
  let SquareSum := SizeSquared a
  if SquareSum > SMALL_NUMBER then scale a (1 / E.Sqrt SquareSum) else a

/-- Vector form of `FMath::Lerp(A, B, Alpha) = A + Alpha * (B - A)`. -/
def Lerp (a b : FVector) (Alpha : ℚ) : FVector := add a (scale (sub b a) Alpha)

end FVector

/-- Scalar `FMath::Clamp(X, Min, Max)`. -/
def Clamp (x lo hi : ℚ) : ℚ := if x < lo then lo else if x < hi then x else hi

/-- Scalar `FMath::Square`. -/
def Square (x : ℚ) : ℚ := x * x

/-- Material handle (`UMaterialInterface*`); `none` is the null pointer. -/
abbrev MaterialRef := Option Nat

/-! ## Units (`Unit.cpp`) -/

/-- State of an `AUnit` actor: the actor transform, the state of its
floating-pawn movement component, the material shown by its mesh and the
members declared by the class. -/
structure AUnit where
  Id : Nat
  Location : FVector
  Rotation : FRotator
  Velocity : FVector
  PendingInput : FVector
  MovementActive : Bool
  MeshMaterial : MaterialRef
  DefaultMaterial : MaterialRef
  SelectedMaterial : MaterialRef
  MovementSpeed : ℚ
  RotationSpeed : ℚ
  AcceptanceRadius : ℚ
  AvoidanceRadius : ℚ
  bIsMoving : Bool
  TargetDestination : FVector
  StuckTime : ℚ
  LastLocation : FVector
deriving DecidableEq

namespace AUnit

/-- The constructor `AUnit::AUnit` followed by the spawn at a location: the
defaults set by the constructor, for an actor with the given identity. -/
def construct (Id : Nat) (SpawnLocation : FVector) (Mesh Selected : MaterialRef) : AUnit :=
  { Id := Id
    Location := SpawnLocation
    Rotation := ⟨0, 0, 0⟩
    Velocity := FVector.ZeroVector
    PendingInput := FVector.ZeroVector
    MovementActive := true
    MeshMaterial := Mesh
    DefaultMaterial := none
    SelectedMaterial := Selected
    MovementSpeed := 400
    RotationSpeed := 8
    AcceptanceRadius := 50
    AvoidanceRadius := 150
    bIsMoving := false
    TargetDestination := FVector.ZeroVector
    StuckTime := 0
    LastLocation := FVector.ZeroVector }

/-- The method `AUnit::BeginPlay`: samples the location and stores the mesh
material as the default one when the mesh has a material. -/
def BeginPlay (u : AUnit) : AUnit :=
  let u1 := { u with LastLocation := u.Location }
  match u1.MeshMaterial with
  | some m => { u1 with DefaultMaterial := some m }
  | none => u1

/-- The method `AUnit::SetSelected`: shows the selected material, or the
default one, when that material is configured (the mesh exists from the
constructor on). -/
def SetSelected (u : AUnit) (bSelected : Bool) : AUnit :=
  if bSelected then
    match u.SelectedMaterial with
    | some m => { u with MeshMaterial := some m }
    | none => u
  else
    match u.DefaultMaterial with
    | some m => { u with MeshMaterial := some m }
    | none => u

/-- The method `AUnit::SetDestination`. -/
def SetDestination (u : AUnit) (NewDestination : FVector) : AUnit :=
  { u with
    TargetDestination := NewDestination
    bIsMoving := true
    StuckTime := 0
    MovementActive := true }

/-- The method `AUnit::HasReachedDestination`. -/
def HasReachedDestination (E : Engine) (u : AUnit) : Bool :=
  decide (FVector.Distance E u.Location u.TargetDestination ≤ u.AcceptanceRadius)

/-- The neighbour loop of `AUnit::UpdateMovement` over the actors returned by
`GetAllActorsOfClass`, carrying `AvoidanceVector` and `AvoidCount`. -/
def AvoidanceLoop (E : Engine) (self : AUnit) (CurrentLocation : FVector) :
    List AUnit → FVector × Nat → FVector × Nat
  | [], acc => acc
  | OtherActor :: rest, (AvoidanceVector, AvoidCount) =>
    if OtherActor.Id ≠ self.Id then
      let OtherLocation := OtherActor.Location
      let Distance := FVector.Distance E CurrentLocation OtherLocation
      if Distance < self.AvoidanceRadius then
        let AwayFromOther := FVector.GetSafeNormal E (FVector.sub CurrentLocation OtherLocation)
        let AvoidanceStrength := Square (1 - Distance / self.AvoidanceRadius)
        AvoidanceLoop E self CurrentLocation rest
          (FVector.add AvoidanceVector (FVector.scale AwayFromOther AvoidanceStrength),
            AvoidCount + 1)
      else AvoidanceLoop E self CurrentLocation rest (AvoidanceVector, AvoidCount)
    else AvoidanceLoop E self CurrentLocation rest (AvoidanceVector, AvoidCount)

/-- Value of `AvoidCount` after the neighbour loop. -/
def AvoidCount (E : Engine) (self : AUnit) (NearbyUnits : List AUnit) : Nat :=
  (AvoidanceLoop E self self.Location NearbyUnits (FVector.ZeroVector, 0)).2

/-- Value of `AvoidanceVector` after `AvoidanceVector /= AvoidCount`. -/
def AveragedAvoidance (E : Engine) (self : AUnit) (NearbyUnits : List AUnit) : FVector :=
  let r := AvoidanceLoop E self self.Location NearbyUnits (FVector.ZeroVector, 0)
  FVector.divide r.1 (r.2 : ℚ)

/-- The local `BlendFactor` of `AUnit::UpdateMovement`, computed in the branch
`AvoidCount > 0`. -/
def BlendFactor (E : Engine) (self : AUnit) (NearbyUnits : List AUnit) : ℚ :=
  Clamp (FVector.Size E (AveragedAvoidance E self NearbyUnits)) 0 (7 / 10)

/-- The local `FinalDirection` of `AUnit::UpdateMovement`. -/
def FinalDirection (E : Engine) (self : AUnit) (NearbyUnits : List AUnit)
    (DirectionToTarget : FVector) : FVector :=
  if AvoidCount E self NearbyUnits > 0 then
    FVector.GetSafeNormal E
      (FVector.Lerp DirectionToTarget (AveragedAvoidance E self NearbyUnits)
        (BlendFactor E self NearbyUnits))
  else DirectionToTarget

/-- The stuck check of `AUnit::UpdateMovement`: returns `DirectionToTarget` and
`StuckTime` as they are after the check. `RandX` and `RandY` are the two values
drawn by `FMath::RandRange(-0.3f, 0.3f)`. -/
def StuckCheck (E : Engine) (u : AUnit) (DeltaTime RandX RandY : ℚ)
    (DirectionToTarget : FVector) : FVector × ℚ :=
  let MovedDistance := FVector.Distance E u.Location u.LastLocation
  if MovedDistance < 1 ∧ u.bIsMoving = true then
    let StuckTime := u.StuckTime + DeltaTime
    if StuckTime > 1 then
      (FVector.Normalize E (FVector.add DirectionToTarget ⟨RandX, RandY, 0⟩), 0)
    else (DirectionToTarget, StuckTime)
  else (DirectionToTarget, 0)

/-- The method `AUnit::UpdateMovement`. `NearbyUnits` is the result of
`GetAllActorsOfClass` for `AUnit` (the unit itself included); stopping the
movement component sets its velocity to zero and `AddInputVector` accumulates
into the pending input. -/
def UpdateMovement (E : Engine) (NearbyUnits : List AUnit) (RandX RandY : ℚ)
    (DeltaTime : ℚ) (u : AUnit) : AUnit :=
  if HasReachedDestination E u then
    { u with bIsMoving := false, Velocity := FVector.ZeroVector }
  else
    let CurrentLocation := u.Location
    let DirectionToTarget :=
      FVector.GetSafeNormal E (FVector.sub u.TargetDestination CurrentLocation)
    let stuck := StuckCheck E u DeltaTime RandX RandY DirectionToTarget
    let Final := FinalDirection E u NearbyUnits stuck.1
    let TargetRotation := E.Rotation Final
    let NewRotation := E.RInterpTo u.Rotation TargetRotation DeltaTime u.RotationSpeed
    { u with
      StuckTime := stuck.2
      LastLocation := CurrentLocation
      PendingInput :=
        FVector.add u.PendingInput (FVector.scale (FVector.scale Final u.MovementSpeed) DeltaTime)
      Rotation := NewRotation }

/-- The method `AUnit::Tick`. -/
def Tick (E : Engine) (NearbyUnits : List AUnit) (RandX RandY : ℚ)
    (DeltaTime : ℚ) (u : AUnit) : AUnit :=
  if u.bIsMoving then UpdateMovement E NearbyUnits RandX RandY DeltaTime u else u

end AUnit

/-! ## The scene -/

/-- Engine enumeration `ECollisionChannel`. -/
inductive ECollisionChannel where
  | ECC_WorldStatic
  | ECC_WorldDynamic
  | ECC_Pawn
  | ECC_Visibility
  | ECC_Camera
  | ECC_PhysicsBody
  | ECC_Vehicle
  | ECC_Destructible
  | ECC_GameTraceChannel (n : Nat)
deriving DecidableEq

/-- Engine record `FHitResult`, restricted to what the code reads: whether the
trace was blocked, where, and the collision object type of the component hit. -/
structure FHitResult where
  bBlockingHit : Bool
  Location : FVector
  ObjectType : ECollisionChannel

/-- Enumeration `EBuildingPlacementState` of `Building.h`. -/
inductive EBuildingPlacementState where
  | Valid
  | InvalidTerrain
  | InvalidOverlap
  | TooFarFromPlayer
deriving DecidableEq

/-- State of an `ABuilding` actor. `MeshMaterial` and `CollisionEnabled` are
the material and the collision setting of `BuildingMesh`, which exists from the
constructor on; `CollisionEnabled` is `true` for `QueryAndPhysics` and `false`
for `NoCollision`. -/
structure ABuilding where
  Id : Nat
  Location : FVector
  MeshMaterial : MaterialRef
  CollisionEnabled : Bool
  PreviewMaterial : MaterialRef
  ValidPlacementMaterial : MaterialRef
  InvalidPlacementMaterial : MaterialRef
  OriginalMaterial : MaterialRef
  MinDistanceToOtherBuildings : ℚ
  PlacementSurfaceTypes : List ECollisionChannel
  bIsPlacementValid : Bool
deriving DecidableEq

/-- The player controller as seen by the selection code: the screen
deprojection `DeprojectScreenPositionToWorld`, giving a world position and a
world direction. -/
structure APlayerController where
  DeprojectScreenPositionToWorld : ℚ → ℚ → FVector × FVector

/-- The world `UWorld`: the live actors, the player controller with index 0 if
there is one, and the visibility line trace from a start to an end point that
ignores the listed actors. -/
structure UWorld where
  Units : List AUnit
  Buildings : List ABuilding
  NextId : Nat
  PlayerController : Option APlayerController
  LineTraceSingleByChannel : FVector → FVector → List Nat → FHitResult

namespace UWorld

/-- Applies a method to the unit a pointer refers to. -/
def updateUnit (W : UWorld) (Id : Nat) (f : AUnit → AUnit) : UWorld :=
  { W with Units := W.Units.map (fun u => if u.Id = Id then f u else u) }

/-- Applies a method to the building a pointer refers to. -/
def updateBuilding (W : UWorld) (Id : Nat) (f : ABuilding → ABuilding) : UWorld :=
  { W with Buildings := W.Buildings.map (fun b => if b.Id = Id then f b else b) }

/-- Dereferences a building pointer. -/
def findBuilding (W : UWorld) (Id : Nat) : Option ABuilding :=
  W.Buildings.find? (fun b => decide (b.Id = Id))

/-- The call `Destroy()` on a building: it is no longer among the live actors. -/
def destroyBuilding (W : UWorld) (Id : Nat) : UWorld :=
  { W with Buildings := W.Buildings.filter (fun b => decide (b.Id ≠ Id)) }

end UWorld

/-! ## Selection (`UnitController.cpp`) -/

/-- Selection state of `AUnitController`; `SelectedUnits` holds unit pointers. -/
structure AUnitController where
  bIsSelecting : Bool
  SelectionStart : FVector2D
  SelectionEnd : FVector2D
  SelectedUnits : List Nat
deriving DecidableEq

namespace AUnitController

/-- The two ground traces of `UpdateSelectedUnits` and `IsUnitInSelectionBox`:
`HitStart` and `HitEnd` for the two corners of the selection. -/
def GroundHits (W : UWorld) (PC : APlayerController) (C : AUnitController) :
    FHitResult × FHitResult :=
  let s := PC.DeprojectScreenPositionToWorld C.SelectionStart.X C.SelectionStart.Y
  let e := PC.DeprojectScreenPositionToWorld C.SelectionEnd.X C.SelectionEnd.Y
  (W.LineTraceSingleByChannel s.1 (FVector.add s.1 (FVector.scale s.2 10000)) [],
   W.LineTraceSingleByChannel e.1 (FVector.add e.1 (FVector.scale e.2 10000)) [])

/-- The corner `MinBound` computed from the two hits. -/
def MinBound (HitStart HitEnd : FHitResult) : FVector :=
  ⟨min HitStart.Location.X HitEnd.Location.X, min HitStart.Location.Y HitEnd.Location.Y, 0⟩

/-- The corner `MaxBound` computed from the two hits. -/
def MaxBound (HitStart HitEnd : FHitResult) : FVector :=
  ⟨max HitStart.Location.X HitEnd.Location.X, max HitStart.Location.Y HitEnd.Location.Y, 10000⟩

/-- The bounds test applied to a unit location. -/
def InBounds (Lo Hi UnitLocation : FVector) : Bool :=
  decide (UnitLocation.X ≥ Lo.X) && decide (UnitLocation.X ≤ Hi.X) &&
    decide (UnitLocation.Y ≥ Lo.Y) && decide (UnitLocation.Y ≤ Hi.Y)

/-- The first loop of `UpdateSelectedUnits`: `SetSelected(false)` on every unit
in `SelectedUnits`. -/
def DeselectAll (W : UWorld) : List Nat → UWorld
  | [] => W
  | Unit :: rest => DeselectAll (W.updateUnit Unit (fun u => u.SetSelected false)) rest

/-- The second loop of `UpdateSelectedUnits` over `FoundUnits`: returns the
pointers added to `SelectedUnits` and the units after `SetSelected(true)`. -/
def SelectLoop (Lo Hi : FVector) : List AUnit → List Nat × List AUnit
  | [] => ([], [])
  | Unit :: rest =>
    let r := SelectLoop Lo Hi rest
    if InBounds Lo Hi Unit.Location then (Unit.Id :: r.1, Unit.SetSelected true :: r.2)
    else (r.1, Unit :: r.2)

/-- The method `AUnitController::UpdateSelectedUnits`. -/
def UpdateSelectedUnits (W : UWorld) (C : AUnitController) : UWorld × AUnitController :=
  let W1 := DeselectAll W C.SelectedUnits
  let C1 := { C with SelectedUnits := [] }
  let FoundUnits := W1.Units
  match W1.PlayerController with
  | none => (W1, C1)
  | some PC =>
    let hits := GroundHits W1 PC C1
    if !hits.1.bBlockingHit || !hits.2.bBlockingHit then (W1, C1)
    else
      let r := SelectLoop (MinBound hits.1 hits.2) (MaxBound hits.1 hits.2) FoundUnits
      ({ W1 with Units := r.2 }, { C1 with SelectedUnits := r.1 })

/-- The method `AUnitController::StartSelection`. -/
def StartSelection (C : AUnitController) (ScreenPosition : FVector2D) : AUnitController :=
  { C with
    bIsSelecting := true
    SelectionStart := ScreenPosition
    SelectionEnd := ScreenPosition
    SelectedUnits := [] }

/-- The method `AUnitController::UpdateSelection`. -/
def UpdateSelection (W : UWorld) (C : AUnitController) (CurrentScreenPosition : FVector2D) :
    UWorld × AUnitController :=
  if C.bIsSelecting then UpdateSelectedUnits W { C with SelectionEnd := CurrentScreenPosition }
  else (W, C)

/-- The method `AUnitController::EndSelection`. -/
def EndSelection (W : UWorld) (C : AUnitController) : UWorld × AUnitController :=
  UpdateSelectedUnits W { C with bIsSelecting := false }

/-- The method `AUnitController::IsUnitInSelectionBox`, for a non-null unit. -/
def IsUnitInSelectionBox (W : UWorld) (C : AUnitController) (Unit : AUnit) : Bool :=
  match W.PlayerController with
  | none => false
  | some PC =>
    let hits := GroundHits W PC C
    if !hits.1.bBlockingHit || !hits.2.bBlockingHit then false
    else InBounds (MinBound hits.1 hits.2) (MaxBound hits.1 hits.2) Unit.Location

end AUnitController

/-! ## Buildings (`Building.cpp`) -/

/-- Class defaults of a building class (`TSubclassOf<ABuilding>`): the values
of the editable properties and the material of the mesh asset. -/
structure BuildingClassDefaults where
  MeshMaterial : MaterialRef
  PreviewMaterial : MaterialRef
  ValidPlacementMaterial : MaterialRef
  InvalidPlacementMaterial : MaterialRef
  MinDistanceToOtherBuildings : ℚ
  PlacementSurfaceTypes : List ECollisionChannel
deriving DecidableEq

namespace ABuilding

/-- The constructor `ABuilding::ABuilding` with the defaults it sets: collision
enabled, `bIsPlacementValid = false`, `MinDistanceToOtherBuildings = 200`. -/
def construct (Id : Nat) (Location : FVector) : ABuilding :=
  { Id := Id
    Location := Location
    MeshMaterial := none
    CollisionEnabled := true
    PreviewMaterial := none
    ValidPlacementMaterial := none
    InvalidPlacementMaterial := none
    OriginalMaterial := none
    MinDistanceToOtherBuildings := 200
    PlacementSurfaceTypes := []
    bIsPlacementValid := false }

/-- The method `ABuilding::BeginPlay`. -/
def BeginPlay (b : ABuilding) : ABuilding :=
  match b.MeshMaterial with
  | some m => { b with OriginalMaterial := some m }
  | none => b

/-- Spawn of an actor of a building class: the constructor, the editable
properties of the class, then `BeginPlay`. -/
def spawn (cls : BuildingClassDefaults) (Id : Nat) (Location : FVector) : ABuilding :=
  BeginPlay
    { construct Id Location with
      MeshMaterial := cls.MeshMaterial
      PreviewMaterial := cls.PreviewMaterial
      ValidPlacementMaterial := cls.ValidPlacementMaterial
      InvalidPlacementMaterial := cls.InvalidPlacementMaterial
      MinDistanceToOtherBuildings := cls.MinDistanceToOtherBuildings
      PlacementSurfaceTypes := cls.PlacementSurfaceTypes }

/-- The method `ABuilding::SetPreviewMode`. -/
def SetPreviewMode (b : ABuilding) (bEnable : Bool) : ABuilding :=
  if bEnable then
    let b1 := match b.PreviewMaterial with
      | some m => { b with MeshMaterial := some m }
      | none => b
    { b1 with CollisionEnabled := false }
  else
    let b1 := match b.OriginalMaterial with
      | some m => { b with MeshMaterial := some m }
      | none => b
    { b1 with CollisionEnabled := true }

/-- The method `ABuilding::OnPlaced`. -/
def OnPlaced (b : ABuilding) : ABuilding :=
  let b1 := match b.OriginalMaterial with
    | some m => { b with MeshMaterial := some m }
    | none => b
  { b1 with CollisionEnabled := true }

/-- The method `ABuilding::CanBePlaced`. -/
def CanBePlaced (b : ABuilding) : Bool := b.bIsPlacementValid

/-- The method `ABuilding::CheckSurfaceType`. -/
def CheckSurfaceType (W : UWorld) (self : ABuilding) (Location : FVector) : Bool :=
  if self.PlacementSurfaceTypes.length = 0 then true
  else
    let Start := FVector.add Location ⟨0, 0, 100⟩
    let End := FVector.add Location ⟨0, 0, -100⟩
    let HitResult := W.LineTraceSingleByChannel Start End [self.Id]
    if HitResult.bBlockingHit then
      self.PlacementSurfaceTypes.any (fun SurfaceType => decide (HitResult.ObjectType = SurfaceType))
    else false

/-- The loop of `ABuilding::CheckBuildingOverlap` over the live buildings. -/
def OverlapLoop (E : Engine) (self : ABuilding) (Location : FVector) : List ABuilding → Bool
  | [] => true
  | OtherBuilding :: rest =>
    if OtherBuilding.Id ≠ self.Id then
      let Distance := FVector.Distance E Location OtherBuilding.Location
      if Distance < self.MinDistanceToOtherBuildings then false
      else OverlapLoop E self Location rest
    else OverlapLoop E self Location rest

/-- The method `ABuilding::CheckBuildingOverlap`. -/
def CheckBuildingOverlap (E : Engine) (W : UWorld) (self : ABuilding) (Location : FVector) :
    Bool :=
  OverlapLoop E self Location W.Buildings

/-- The method `ABuilding::ValidatePlacement`. -/
def ValidatePlacement (E : Engine) (W : UWorld) (self : ABuilding) (Location : FVector) :
    EBuildingPlacementState :=
  if !CheckSurfaceType W self Location then EBuildingPlacementState.InvalidTerrain
  else if !CheckBuildingOverlap E W self Location then EBuildingPlacementState.InvalidOverlap
  else EBuildingPlacementState.Valid

/-- The method `ABuilding::UpdatePlacementValidation`. -/
def UpdatePlacementValidation (E : Engine) (W : UWorld) (self : ABuilding)
    (Location : FVector) : ABuilding :=
  let PlacementState := ValidatePlacement E W self Location
  let b1 := { self with bIsPlacementValid := decide (PlacementState = EBuildingPlacementState.Valid) }
  if b1.bIsPlacementValid = true ∧ b1.ValidPlacementMaterial.isSome = true then
    { b1 with MeshMaterial := b1.ValidPlacementMaterial }
  else if b1.bIsPlacementValid = false ∧ b1.InvalidPlacementMaterial.isSome = true then
    { b1 with MeshMaterial := b1.InvalidPlacementMaterial }
  else b1

end ABuilding

/-! ## Building placement (`RTS_PlayerController.cpp`) -/

/-- Building-placement state of `ARTS_PlayerController`. `CurrentBuilding` is a
building pointer and `BuildingClass` the configured class, if any. -/
structure ARTS_PlayerController where
  BuildingClass : Option BuildingClassDefaults
  GridSize : ℚ
  CurrentBuilding : Option Nat
  bIsBuildingMode : Bool
deriving DecidableEq

namespace UWorld

/-- The call `SpawnActor<ABuilding>` with the collision handling
`AlwaysSpawn`: the new actor joins the live actors and is returned. -/
def SpawnBuilding (W : UWorld) (cls : BuildingClassDefaults) (Location : FVector) :
    UWorld × Option Nat :=
  ({ W with Buildings := W.Buildings ++ [ABuilding.spawn cls W.NextId Location]
            NextId := W.NextId + 1 },
   some W.NextId)

end UWorld

namespace ARTS_PlayerController

/-- Scalar `FMath::RoundToFloat`, the floor of the argument plus one half. -/
def RoundToFloat (x : ℚ) : ℚ := ((Int.floor (x + 1 / 2) : ℤ) : ℚ)

/-- The grid snap of `UpdateBuildingPreview` and `TryPlaceBuilding`, applied to
`X` and to `Y`. -/
def SnapToGrid (GridSize : ℚ) (WorldLocation : FVector) : FVector :=
  { WorldLocation with
    X := RoundToFloat (WorldLocation.X / GridSize) * GridSize
    Y := RoundToFloat (WorldLocation.Y / GridSize) * GridSize }

/-- The method `ARTS_PlayerController::GetMousePositionInWorld`. `Mouse` is the
result of `DeprojectMousePositionToWorld` (position and direction), `none` when
it fails. -/
def GetMousePositionInWorld (W : UWorld) (Mouse : Option (FVector × FVector)) :
    Option FVector :=
  match Mouse with
  | none => none
  | some (WorldLocation, WorldDirection) =>
    let HitResult := W.LineTraceSingleByChannel WorldLocation
      (FVector.add WorldLocation (FVector.scale WorldDirection 10000)) []
    if HitResult.bBlockingHit then some HitResult.Location else none

/-- The method `ARTS_PlayerController::StartBuildingPlacement`. -/
def StartBuildingPlacement (W : UWorld) (C : ARTS_PlayerController) :
    UWorld × ARTS_PlayerController :=
  match C.BuildingClass with
  | none => (W, C)
  | some cls =>
    let W1 := match C.CurrentBuilding with
      | some Id => W.destroyBuilding Id
      | none => W
    let r := W1.SpawnBuilding cls FVector.ZeroVector
    let C1 := { C with CurrentBuilding := r.2 }
    match r.2 with
    | some Id =>
      (r.1.updateBuilding Id (fun b => b.SetPreviewMode true), { C1 with bIsBuildingMode := true })
    | none => (r.1, C1)

/-- The method `ARTS_PlayerController::UpdateBuildingPreview`. -/
def UpdateBuildingPreview (E : Engine) (W : UWorld) (C : ARTS_PlayerController)
    (Mouse : Option (FVector × FVector)) : UWorld :=
  match C.CurrentBuilding with
  | none => W
  | some Id =>
    match GetMousePositionInWorld W Mouse with
    | none => W
    | some Hit =>
      let WorldLocation := SnapToGrid C.GridSize Hit
      let W1 := W.updateBuilding Id (fun b => { b with Location := WorldLocation })
      W1.updateBuilding Id (fun b => b.UpdatePlacementValidation E W1 WorldLocation)

/-- The method `ARTS_PlayerController::TryPlaceBuilding`. -/
def TryPlaceBuilding (W : UWorld) (C : ARTS_PlayerController)
    (Mouse : Option (FVector × FVector)) : UWorld × ARTS_PlayerController :=
  match C.CurrentBuilding with
  | none => (W, C)
  | some Id =>
    if !C.bIsBuildingMode then (W, C)
    else
      match GetMousePositionInWorld W Mouse with
      | none => (W, C)
      | some Hit =>
        let WorldLocation := SnapToGrid C.GridSize Hit
        let W1 := W.updateBuilding Id (fun b => { b with Location := WorldLocation })
        match W1.findBuilding Id with
        | none => (W1, C)
        | some Current =>
          if Current.CanBePlaced then
            let W2 := W1.updateBuilding Id ABuilding.OnPlaced
            let PlacedBuilding := Id
            let r := StartBuildingPlacement W2 { C with CurrentBuilding := none }
            (r.1.updateBuilding PlacedBuilding (fun b => { b with CollisionEnabled := true }), r.2)
          else (W1, C)

/-- The method `ARTS_PlayerController::CancelBuildingPlacement`. -/
def CancelBuildingPlacement (W : UWorld) (C : ARTS_PlayerController) :
    UWorld × ARTS_PlayerController :=
  match C.CurrentBuilding with
  | some Id => (W.destroyBuilding Id, { C with CurrentBuilding := none, bIsBuildingMode := false })
  | none => (W, { C with bIsBuildingMode := false })

/-- The building part of `ARTS_PlayerController::Tick`. -/
def Tick (E : Engine) (W : UWorld) (C : ARTS_PlayerController)
    (Mouse : Option (FVector × FVector)) : UWorld :=
  if C.bIsBuildingMode && C.CurrentBuilding.isSome then UpdateBuildingPreview E W C Mouse
  else W

end ARTS_PlayerController

/-- A building with its location forgotten: what remains is its identity, its
visual and collision state, its configuration and its validity flag. -/
def ABuilding.forgetLocation (b : ABuilding) : ABuilding :=
  { b with Location := FVector.ZeroVector }

/-! ## The player character (`prototype1Character.cpp`) -/

/-- Modelled from the spec: the flow-field provider `AFlowFieldSystem`, whose
source is not part of the repository. Of its state the model keeps the goal of
the last regeneration and the number of regenerations it has been asked for;
the direction query is a parameter of the methods that use it. -/
structure AFlowFieldSystem where
  Goal : FVector
  UpdateCount : Nat
deriving DecidableEq

/-- Modelled from the spec: the provider's `UpdateFlowField(goal)`, the
regeneration of the field against a goal. -/
def AFlowFieldSystem.UpdateFlowField (f : AFlowFieldSystem) (TargetLocation : FVector) :
    AFlowFieldSystem :=
  { f with Goal := TargetLocation, UpdateCount := f.UpdateCount + 1 }

/-- State of an `Aprototype1Character`: the actor transform, the velocity and
the pending input of its character movement component (which exists from the
constructor on), and the members read by the flow-field code. -/
structure Aprototype1Character where
  Location : FVector
  Rotation : FRotator
  Velocity : FVector
  PendingInput : FVector
  bIsMoving : Bool
  bIsFirstPerson : Bool
  TargetLocation : FVector
  FlowFieldSystem : Option AFlowFieldSystem
  FlowFieldUpdateInterval : ℚ
  TimeSinceLastFlowFieldUpdate : ℚ
deriving DecidableEq

namespace Aprototype1Character

/-- The engine's `FVector::IsZero`. -/
def IsZero (v : FVector) : Bool := decide (v.X = 0) && decide (v.Y = 0) && decide (v.Z = 0)

/-- The method `Aprototype1Character::UpdateFlowField`. -/
def UpdateFlowField (c : Aprototype1Character) : Aprototype1Character :=
  match c.FlowFieldSystem with
  | some f => { c with FlowFieldSystem := some (f.UpdateFlowField c.TargetLocation) }
  | none => c

/-- The method `Aprototype1Character::FollowFlowField`. `GetFlowDirection` is
the provider's direction query; `AddMovementInput(FlowDirection, 1.0f)`
accumulates into the pending input. -/
def FollowFlowField (E : Engine) (GetFlowDirection : AFlowFieldSystem → FVector → FVector)
    (c : Aprototype1Character) : Aprototype1Character :=
  match c.FlowFieldSystem with
  | none => c
  | some f =>
    let FlowDirection := GetFlowDirection f c.Location
    if !IsZero FlowDirection then
      let c1 := { c with PendingInput := FVector.add c.PendingInput (FVector.scale FlowDirection 1) }
      if !IsZero FlowDirection then { c1 with Rotation := E.Rotation FlowDirection } else c1
    else c

/-- The block "update flow field periodically" of `Tick`: the timer grows by
`DeltaTime`; when it has reached the interval the field is refreshed and the
timer starts again from zero. -/
def RefreshStep (DeltaTime : ℚ) (c : Aprototype1Character) : Aprototype1Character :=
  let c1 := { c with TimeSinceLastFlowFieldUpdate := c.TimeSinceLastFlowFieldUpdate + DeltaTime }
  if c1.TimeSinceLastFlowFieldUpdate ≥ c1.FlowFieldUpdateInterval then
    { UpdateFlowField c1 with TimeSinceLastFlowFieldUpdate := 0 }
  else c1

/-- The block "stop moving if close to the target" of `Tick`. -/
def ArrivalStep (E : Engine) (c : Aprototype1Character) : Aprototype1Character :=
  let DistanceToTarget := FVector.Distance E c.Location c.TargetLocation
  if DistanceToTarget < 100 then
    { c with bIsMoving := false, Velocity := FVector.ZeroVector }
  else c

/-- The method `Aprototype1Character::Tick`. -/
def Tick (E : Engine) (GetFlowDirection : AFlowFieldSystem → FVector → FVector)
    (DeltaTime : ℚ) (c : Aprototype1Character) : Aprototype1Character :=
  if c.bIsMoving && !c.bIsFirstPerson then
    ArrivalStep E (FollowFlowField E GetFlowDirection (RefreshStep DeltaTime c))
  else c

/-- The method `Aprototype1Character::MoveToLocation`. `Nav` is the location
returned by `ProjectPointToNavigation`, `none` when there is no navigation
system or the projection fails. -/
def MoveToLocation (_Destination : FVector) (Nav : Option FVector)
    (c : Aprototype1Character) : Aprototype1Character :=
  match Nav with
  | some NavLocation => UpdateFlowField { c with TargetLocation := NavLocation, bIsMoving := true }
  | none => c

/-- A call made on the character from outside. -/
inductive Call where
  | MoveToLocation (Destination : FVector) (Nav : Option FVector)
  | Tick (DeltaTime : ℚ)

/-- Number of regenerations the character's provider has received. -/
def UpdateCalls (c : Aprototype1Character) : Nat :=
  match c.FlowFieldSystem with
  | some f => f.UpdateCount
  | none => 0

/-- The tick time accumulated between consecutive refreshes of the flow field
along a sequence of calls. A call refreshes when the provider's regeneration
count grows during it; refreshes made by `MoveToLocation` are counted only when
`countMoves` is set. `since` is the tick time accumulated since the last
counted refresh, `none` before the first one. -/
def RefreshGaps (E : Engine) (GetFlowDirection : AFlowFieldSystem → FVector → FVector)
    (countMoves : Bool) : Aprototype1Character → Option ℚ → List Call → List ℚ
  | _, _, [] => []
  | c, since, Call.Tick DeltaTime :: rest =>
    let c1 := Tick E GetFlowDirection DeltaTime c
    if UpdateCalls c < UpdateCalls c1 then
      match since with
      | some t => (t + DeltaTime) :: RefreshGaps E GetFlowDirection countMoves c1 (some 0) rest
      | none => RefreshGaps E GetFlowDirection countMoves c1 (some 0) rest
    else
      RefreshGaps E GetFlowDirection countMoves c1 (since.map (fun t => t + DeltaTime)) rest
  | c, since, Call.MoveToLocation Destination Nav :: rest =>
    let c1 := MoveToLocation Destination Nav c
    if countMoves = true ∧ UpdateCalls c < UpdateCalls c1 then
      match since with
      | some t => t :: RefreshGaps E GetFlowDirection countMoves c1 (some 0) rest
      | none => RefreshGaps E GetFlowDirection countMoves c1 (some 0) rest
    else RefreshGaps E GetFlowDirection countMoves c1 since rest

end Aprototype1Character

/-- A call made on the unit controller from outside. -/
inductive AUnitController.Call where
  | StartSelection (ScreenPosition : FVector2D)
  | UpdateSelection (CurrentScreenPosition : FVector2D)
  | EndSelection

/-- The world and the controller after a sequence of selection calls. -/
def AUnitController.Run : UWorld × AUnitController → List AUnitController.Call →
    UWorld × AUnitController
  | s, [] => s
  | s, AUnitController.Call.StartSelection p :: rest =>
    AUnitController.Run (s.1, s.2.StartSelection p) rest
  | s, AUnitController.Call.UpdateSelection p :: rest =>
    AUnitController.Run (AUnitController.UpdateSelection s.1 s.2 p) rest
  | s, AUnitController.Call.EndSelection :: rest =>
    AUnitController.Run (AUnitController.EndSelection s.1 s.2) rest

/-! ## A kinematic model of the movement component -/

/-- The kinematic model of a unit's movement: one `AUnit::Tick`, after which
the unit is displaced by the movement input added during the tick, that is by
`FinalDirection * MovementSpeed * DeltaTime`. -/
def AUnit.KinematicTick (E : Engine) (NearbyUnits : List AUnit) (RandX RandY : ℚ)
    (DeltaTime : ℚ) (u : AUnit) : AUnit :=
  let v := AUnit.Tick E NearbyUnits RandX RandY DeltaTime u
  { v with Location := FVector.add v.Location (FVector.sub v.PendingInput u.PendingInput) }

/-- A unit alone in the world after `n` ticks of fixed length under the
kinematic model; `Rand n` holds the two random values drawn in tick `n`. -/
def AUnit.RunAlone (E : Engine) (Rand : ℕ → ℚ × ℚ) (DeltaTime : ℚ) : ℕ → AUnit → AUnit
  | 0, u => u
  | n + 1, u =>
    AUnit.KinematicTick E [AUnit.RunAlone E Rand DeltaTime n u] (Rand n).1 (Rand n).2 DeltaTime
      (AUnit.RunAlone E Rand DeltaTime n u)

/-- The unit has stopped within its acceptance radius of the destination. -/
def AUnit.Arrived (E : Engine) (u : AUnit) : Prop :=
  u.bIsMoving = false
    ∧ FVector.Distance E u.Location u.TargetDestination ≤ u.AcceptanceRadius

/-- State of the scenario unit while it advances along the `X` axis in steps of
`s`: moving towards `(500, 0, 0)` with the constructor's radius and speed, on
the axis, not beyond 550, and either not yet displaced (with the stuck timer
not due) or displaced by `s` in the last tick. -/
def AUnit.OnAxis (DeltaTime s : ℚ) (u : AUnit) : Prop :=
  u.bIsMoving = true ∧ u.TargetDestination = ⟨500, 0, 0⟩ ∧ u.AcceptanceRadius = 50
    ∧ u.MovementSpeed = 400
    ∧ u.Location.Y = 0 ∧ u.Location.Z = 0 ∧ u.LastLocation.Y = 0 ∧ u.LastLocation.Z = 0
    ∧ u.Location.X ≤ 550
    ∧ ((u.LastLocation.X = u.Location.X ∧ u.StuckTime + DeltaTime ≤ 1)
      ∨ u.Location.X - u.LastLocation.X = s)

/-- State of the scenario unit while it advances in the horizontal plane:
moving towards `(500, 0, 0)` with the constructor's radius and speed, at
height zero, with a stuck timer that is not negative. -/
def AUnit.InPlane (u : AUnit) : Prop :=
  u.bIsMoving = true ∧ u.TargetDestination = ⟨500, 0, 0⟩ ∧ u.AcceptanceRadius = 50
    ∧ u.MovementSpeed = 400 ∧ u.Location.Z = 0 ∧ 0 ≤ u.StuckTime

/-! ## Operations on a unit -/

/-- An operation on a unit during its life: `BeginPlay`, a call of
`SetSelected` or of `SetDestination`, a tick (with the actor list, the two
random values and the frame time of that frame), or a displacement of the
actor by its movement component, which consumes the pending input. -/
inductive AUnit.Call where
  | BeginPlay
  | SetSelected (bSelected : Bool)
  | SetDestination (NewDestination : FVector)
  | Tick (NearbyUnits : List AUnit) (RandX RandY DeltaTime : ℚ)
  | Moved (NewLocation NewVelocity : FVector)

/-- The unit after one operation. -/
def AUnit.Apply (E : Engine) (u : AUnit) : AUnit.Call → AUnit
  | AUnit.Call.BeginPlay => u.BeginPlay
  | AUnit.Call.SetSelected b => u.SetSelected b
  | AUnit.Call.SetDestination p => u.SetDestination p
  | AUnit.Call.Tick NearbyUnits RandX RandY DeltaTime =>
    AUnit.Tick E NearbyUnits RandX RandY DeltaTime u
  | AUnit.Call.Moved NewLocation NewVelocity =>
    { u with
      Location := NewLocation
      Velocity := NewVelocity
      PendingInput := FVector.ZeroVector }

/-- The unit after a sequence of operations. -/
def AUnit.Run (E : Engine) : AUnit → List AUnit.Call → AUnit
  | u, [] => u
  | u, c :: rest => AUnit.Run E (AUnit.Apply E u c) rest

/-! ## Sequences of placement calls -/

/-- A call made on the building-placement code of the player controller;
`Mouse` is the mouse deprojection at the time of the call. -/
inductive ARTS_PlayerController.Call where
  | StartBuildingPlacement
  | UpdateBuildingPreview (Mouse : Option (FVector × FVector))
  | TryPlaceBuilding (Mouse : Option (FVector × FVector))
  | CancelBuildingPlacement

/-- The world and the controller after a sequence of placement calls. -/
def ARTS_PlayerController.Run (E : Engine) :
    UWorld × ARTS_PlayerController → List ARTS_PlayerController.Call →
      UWorld × ARTS_PlayerController
  | s, [] => s
  | s, ARTS_PlayerController.Call.StartBuildingPlacement :: rest =>
    ARTS_PlayerController.Run E (ARTS_PlayerController.StartBuildingPlacement s.1 s.2) rest
  | s, ARTS_PlayerController.Call.UpdateBuildingPreview Mouse :: rest =>
    ARTS_PlayerController.Run E
      (ARTS_PlayerController.UpdateBuildingPreview E s.1 s.2 Mouse, s.2) rest
  | s, ARTS_PlayerController.Call.TryPlaceBuilding Mouse :: rest =>
    ARTS_PlayerController.Run E (ARTS_PlayerController.TryPlaceBuilding s.1 s.2 Mouse) rest
  | s, ARTS_PlayerController.Call.CancelBuildingPlacement :: rest =>
    ARTS_PlayerController.Run E (ARTS_PlayerController.CancelBuildingPlacement s.1 s.2) rest

/-! ## Invocations of the flow-field refresh -/

/-- A character together with the number of invocations of
`Aprototype1Character::UpdateFlowField` made on it so far. The count is an
observer: no code reads it. -/
structure Aprototype1Character.Observed where
  Character : Aprototype1Character
  Invocations : Nat
deriving DecidableEq

namespace Aprototype1Character.Observed

/-- The method `Aprototype1Character::UpdateFlowField`, counted. -/
def UpdateFlowField (o : Observed) : Observed :=
  { Character := o.Character.UpdateFlowField, Invocations := o.Invocations + 1 }

/-- The block "update flow field periodically" of `Tick`, with the invocation
it makes counted. -/
def RefreshStep (DeltaTime : ℚ) (o : Observed) : Observed :=
  let c1 := { o.Character with
    TimeSinceLastFlowFieldUpdate := o.Character.TimeSinceLastFlowFieldUpdate + DeltaTime }
  if c1.TimeSinceLastFlowFieldUpdate ≥ c1.FlowFieldUpdateInterval then
    let o2 := UpdateFlowField { o with Character := c1 }
    { o2 with Character := { o2.Character with TimeSinceLastFlowFieldUpdate := 0 } }
  else { o with Character := c1 }

/-- The method `Aprototype1Character::Tick`, with the invocations of
`UpdateFlowField` counted. -/
def Tick (E : Engine) (GetFlowDirection : AFlowFieldSystem → FVector → FVector)
    (DeltaTime : ℚ) (o : Observed) : Observed :=
  if o.Character.bIsMoving && !o.Character.bIsFirstPerson then
    let o1 := RefreshStep DeltaTime o
    { o1 with
      Character := ArrivalStep E (FollowFlowField E GetFlowDirection o1.Character) }
  else o

/-- The method `Aprototype1Character::MoveToLocation`, with the invocations of
`UpdateFlowField` counted. -/
def MoveToLocation (_Destination : FVector) (Nav : Option FVector) (o : Observed) :
    Observed :=
  match Nav with
  | some NavLocation =>
    UpdateFlowField
      { o with Character := { o.Character with TargetLocation := NavLocation, bIsMoving := true } }
  | none => o

/-- The tick time accumulated between consecutive invocations of
`UpdateFlowField` made by `Tick` along a sequence of calls. `since` is the tick
time accumulated since the last such invocation, `none` before the first one. -/
def TickGaps (E : Engine) (GetFlowDirection : AFlowFieldSystem → FVector → FVector) :
    Observed → Option ℚ → List Call → List ℚ
  | _, _, [] => []
  | o, since, Call.Tick DeltaTime :: rest =>
    let o1 := Tick E GetFlowDirection DeltaTime o
    if o.Invocations < o1.Invocations then
      match since with
      | some t => (t + DeltaTime) :: TickGaps E GetFlowDirection o1 (some 0) rest
      | none => TickGaps E GetFlowDirection o1 (some 0) rest
    else TickGaps E GetFlowDirection o1 (since.map (fun t => t + DeltaTime)) rest
  | o, since, Call.MoveToLocation Destination Nav :: rest =>
    TickGaps E GetFlowDirection (MoveToLocation Destination Nav o) since rest

end Aprototype1Character.Observed

/-! ## Unit movement over a field with square roots

The vector arithmetic of the engine and the parts of `AUnit::UpdateMovement`
that compute the repulsion and the stuck perturbation, over an arbitrary
ordered field `F` with the square root `FMath::Sqrt` as a parameter. Over the
rationals these are the definitions above; over the real numbers the square
root is exact. -/

namespace Exact

/-- Engine vector `FVector` with components in `F`. -/
structure FVector (F : Type) where
  X : F
  Y : F
  Z : F

namespace FVector

/-- The constant `FVector::ZeroVector`. -/
def ZeroVector {F : Type} [LinearOrderedField F] : FVector F := ⟨0, 0, 0⟩

/-- Component-wise sum, `operator+`. -/
def add {F : Type} [LinearOrderedField F] (a b : FVector F) : FVector F :=
  ⟨a.X + b.X, a.Y + b.Y, a.Z + b.Z⟩

/-- Component-wise difference, `operator-`. -/
def sub {F : Type} [LinearOrderedField F] (a b : FVector F) : FVector F :=
  ⟨a.X - b.X, a.Y - b.Y, a.Z - b.Z⟩

/-- Scaling by a scalar, `operator*(float)`. -/
def scale {F : Type} [LinearOrderedField F] (a : FVector F) (k : F) : FVector F :=
  ⟨a.X * k, a.Y * k, a.Z * k⟩

/-- Division by a scalar, `operator/=(float)`. -/
def divide {F : Type} [LinearOrderedField F] (a : FVector F) (k : F) : FVector F :=
  ⟨a.X / k, a.Y / k, a.Z / k⟩

/-- Sum of the squared components, `SizeSquared`. -/
def SizeSquared {F : Type} [LinearOrderedField F] (a : FVector F) : F :=
  a.X * a.X + a.Y * a.Y + a.Z * a.Z

/-- Length of the vector, `Size`. -/
def Size {F : Type} [LinearOrderedField F] (Sqrt : F → F) (a : FVector F) : F :=
  Sqrt (SizeSquared a)

/-- Euclidean distance `FVector::Distance`, over all three components. -/
def Distance {F : Type} [LinearOrderedField F] (Sqrt : F → F) (a b : FVector F) : F :=
  Sqrt (SizeSquared (sub a b))

/-- The engine tolerance `SMALL_NUMBER` (1e-8). -/
def SMALL_NUMBER {F : Type} [LinearOrderedField F] : F := 1 / 100000000

/-- The engine's `GetSafeNormal`: the vector itself when its squared length is
exactly one, the zero vector when the squared length is below the tolerance,
and the vector scaled by the inverse square root otherwise. -/
def GetSafeNormal {F : Type} [LinearOrderedField F] (Sqrt : F → F) (a : FVector F) :
    FVector F :=
  let SquareSum := SizeSquared a
  if SquareSum = 1 then a
  else if SquareSum < SMALL_NUMBER then ZeroVector
  else scale a (1 / Sqrt SquareSum)

/-- The engine's in-place `Normalize`: scales when the squared length exceeds
the tolerance and leaves the vector as it is otherwise. -/
def Normalize {F : Type} [LinearOrderedField F] (Sqrt : F → F) (a : FVector F) : FVector F :=
  let SquareSum := SizeSquared a
  if SquareSum > SMALL_NUMBER then scale a (1 / Sqrt SquareSum) else a

end FVector

/-- Scalar `FMath::Clamp(X, Min, Max)`. -/
def Clamp {F : Type} [LinearOrderedField F] (x lo hi : F) : F :=
  if x < lo then lo else if x < hi then x else hi

/-- Scalar `FMath::Square`. -/
def Square {F : Type} [LinearOrderedField F] (x : F) : F := x * x

/-- The members of an `AUnit` that the movement code reads and writes, with
the actor location. -/
structure AUnit (F : Type) where
  Id : Nat
  Location : FVector F
  MovementSpeed : F
  RotationSpeed : F
  AcceptanceRadius : F
  AvoidanceRadius : F
  bIsMoving : Bool
  TargetDestination : FVector F
  StuckTime : F
  LastLocation : FVector F

namespace AUnit

/-- The constructor `AUnit::AUnit` followed by the spawn at a location. -/
def construct {F : Type} [LinearOrderedField F] (Id : Nat) (SpawnLocation : FVector F) :
    AUnit F :=
  { Id := Id
    Location := SpawnLocation
    MovementSpeed := 400
    RotationSpeed := 8
    AcceptanceRadius := 50
    AvoidanceRadius := 150
    bIsMoving := false
    TargetDestination := FVector.ZeroVector
    StuckTime := 0
    LastLocation := FVector.ZeroVector }

/-- The neighbour loop of `AUnit::UpdateMovement` over the actors returned by
`GetAllActorsOfClass`, carrying `AvoidanceVector` and `AvoidCount`. -/
def AvoidanceLoop {F : Type} [LinearOrderedField F] (Sqrt : F → F) (self : AUnit F)
    (CurrentLocation : FVector F) : List (AUnit F) → FVector F × Nat → FVector F × Nat
  | [], acc => acc
  | OtherActor :: rest, (AvoidanceVector, AvoidCount) =>
    if OtherActor.Id ≠ self.Id then
      let OtherLocation := OtherActor.Location
      let Distance := FVector.Distance Sqrt CurrentLocation OtherLocation
      if Distance < self.AvoidanceRadius then
        let AwayFromOther := FVector.GetSafeNormal Sqrt (FVector.sub CurrentLocation OtherLocation)
        let AvoidanceStrength := Square (1 - Distance / self.AvoidanceRadius)
        AvoidanceLoop Sqrt self CurrentLocation rest
          (FVector.add AvoidanceVector (FVector.scale AwayFromOther AvoidanceStrength),
            AvoidCount + 1)
      else AvoidanceLoop Sqrt self CurrentLocation rest (AvoidanceVector, AvoidCount)
    else AvoidanceLoop Sqrt self CurrentLocation rest (AvoidanceVector, AvoidCount)

/-- Value of `AvoidCount` after the neighbour loop. -/
def AvoidCount {F : Type} [LinearOrderedField F] (Sqrt : F → F) (self : AUnit F)
    (NearbyUnits : List (AUnit F)) : Nat :=
  (AvoidanceLoop Sqrt self self.Location NearbyUnits (FVector.ZeroVector, 0)).2

/-- Value of `AvoidanceVector` after `AvoidanceVector /= AvoidCount`. -/
def AveragedAvoidance {F : Type} [LinearOrderedField F] (Sqrt : F → F) (self : AUnit F)
    (NearbyUnits : List (AUnit F)) : FVector F :=
  let r := AvoidanceLoop Sqrt self self.Location NearbyUnits (FVector.ZeroVector, 0)
  FVector.divide r.1 (r.2 : F)

/-- The local `BlendFactor` of `AUnit::UpdateMovement`, computed in the branch
`AvoidCount > 0`. -/
def BlendFactor {F : Type} [LinearOrderedField F] (Sqrt : F → F) (self : AUnit F)
    (NearbyUnits : List (AUnit F)) : F :=
  Clamp (FVector.Size Sqrt (AveragedAvoidance Sqrt self NearbyUnits)) 0 (7 / 10)

/-- The stuck check of `AUnit::UpdateMovement`: returns `DirectionToTarget` and
`StuckTime` as they are after the check. `RandX` and `RandY` are the two values
drawn by `FMath::RandRange(-0.3f, 0.3f)`. -/
def StuckCheck {F : Type} [LinearOrderedField F] (Sqrt : F → F) (u : AUnit F)
    (DeltaTime RandX RandY : F) (DirectionToTarget : FVector F) : FVector F × F :=
  let MovedDistance := FVector.Distance Sqrt u.Location u.LastLocation
  if MovedDistance < 1 ∧ u.bIsMoving = true then
    let StuckTime := u.StuckTime + DeltaTime
    if StuckTime > 1 then
      (FVector.Normalize Sqrt (FVector.add DirectionToTarget ⟨RandX, RandY, 0⟩), 0)
    else (DirectionToTarget, StuckTime)
  else (DirectionToTarget, 0)

end AUnit

end Exact

/-- The rational vector as a vector over the field of rationals. -/
def FVector.toExact (a : FVector) : Exact.FVector ℚ := ⟨a.X, a.Y, a.Z⟩

/-- The movement members of a unit, over the field of rationals. -/
def AUnit.toExact (u : AUnit) : Exact.AUnit ℚ :=
  { Id := u.Id
    Location := u.Location.toExact
    MovementSpeed := u.MovementSpeed
    RotationSpeed := u.RotationSpeed
    AcceptanceRadius := u.AcceptanceRadius
    AvoidanceRadius := u.AvoidanceRadius
    bIsMoving := u.bIsMoving
    TargetDestination := u.TargetDestination.toExact
    StuckTime := u.StuckTime
    LastLocation := u.LastLocation.toExact }

/-! ## A sample scene

A concrete engine and a concrete world on which the model is evaluated: a
camera looking straight down, so that the screen point `(x, y)` projects to
the ground point `(x, y, 0)`, with open sky (no surface) left of `x = 0`. -/

/-- Newton iteration for the integer square root, for a bounded number of
rounds: the guess moves to the mean of itself and `n / guess` while that is
smaller. -/
def sampleSqrtIter (n : Nat) : Nat → Nat → Nat
  | 0, guess => guess
  | fuel + 1, guess =>
    let next := (guess + n / guess) / 2
    if next < guess then sampleSqrtIter n fuel next else guess

/-- Integer square root, rounded down. -/
def sampleNatSqrt (n : Nat) : Nat := if n ≤ 1 then n else sampleSqrtIter n n (n / 2)

/-- Square root on rationals that is exact on squares of rationals and rounds
down the numerator otherwise. -/
def sampleSqrt (q : ℚ) : ℚ :=
  ((sampleNatSqrt (q.num.toNat * q.den) : ℕ) : ℚ) / (q.den : ℚ)

/-- Heading of the sample engine: the zero rotator for the zero vector, as the
engine's `FVector::Rotation` gives, and otherwise a yaw in degrees that is exact
on the axes and the diagonals of the horizontal plane. -/
def sampleRotation (v : FVector) : FRotator :=
  if v.X = 0 ∧ v.Y = 0 then ⟨0, 0, 0⟩
  else if 0 ≤ v.X then ⟨0, 90 * (v.Y / (|v.X| + |v.Y|)), 0⟩
  else if 0 ≤ v.Y then ⟨0, 180 - 90 * (v.Y / (|v.X| + |v.Y|)), 0⟩
  else ⟨0, -180 - 90 * (v.Y / (|v.X| + |v.Y|)), 0⟩

/-- Rotation interpolation of the sample engine, the engine's `RInterpTo` for
angles that need no wrapping: no move when `DeltaTime` is zero or the target is
reached, a jump to the target when the speed is not positive, and otherwise a
move by the difference scaled by `Clamp(InterpSpeed * DeltaTime, 0, 1)`. -/
def sampleRInterpTo (Current Target : FRotator) (DeltaTime InterpSpeed : ℚ) : FRotator :=
  if DeltaTime = 0 ∨ Current = Target then Current
  else if InterpSpeed ≤ 0 then Target
  else
    let k := Clamp (InterpSpeed * DeltaTime) 0 1
    ⟨Current.Pitch + (Target.Pitch - Current.Pitch) * k,
     Current.Yaw + (Target.Yaw - Current.Yaw) * k,
     Current.Roll + (Target.Roll - Current.Roll) * k⟩

/-- Engine of the sample scene. -/
def sampleEngine : Engine :=
  { Sqrt := sampleSqrt
    Rotation := sampleRotation
    RInterpTo := sampleRInterpTo }

/-- Player controller of the sample scene. -/
def samplePC : APlayerController :=
  { DeprojectScreenPositionToWorld := fun x y => (⟨x, y, 1000⟩, ⟨0, 0, -1⟩) }

/-- Line trace of the sample scene: a ground plane of type `ECC_WorldStatic`
at height zero for `x ≥ 0`, nothing for `x < 0`. -/
def sampleTrace (Start _End : FVector) (_Ignored : List Nat) : FHitResult :=
  { bBlockingHit := decide (0 ≤ Start.X)
    Location := ⟨Start.X, Start.Y, 0⟩
    ObjectType := ECollisionChannel.ECC_WorldStatic }

/-- A unit of the sample scene, as constructed and after `BeginPlay`. -/
def sampleUnit (Id : Nat) (Location : FVector) : AUnit :=
  (AUnit.construct Id Location (some 0) (some 1)).BeginPlay

/-- World of the sample scene: three units and no building. -/
def sampleWorld : UWorld :=
  { Units := [sampleUnit 1 ⟨50, 50, 0⟩, sampleUnit 2 ⟨100, 300, 20⟩, sampleUnit 3 ⟨400, 50, 0⟩]
    Buildings := []
    NextId := 4
    PlayerController := some samplePC
    LineTraceSingleByChannel := sampleTrace }

/-- Building class of the sample scene: no surface restriction, the minimum
distance set by the constructor. -/
def sampleClass : BuildingClassDefaults :=
  { MeshMaterial := some 10
    PreviewMaterial := some 11
    ValidPlacementMaterial := some 12
    InvalidPlacementMaterial := some 13
    MinDistanceToOtherBuildings := 200
    PlacementSurfaceTypes := [] }

/-- Building class of the sample scene that accepts surfaces of type
`ECC_Pawn` only; the sample ground is `ECC_WorldStatic`. -/
def samplePickyClass : BuildingClassDefaults :=
  { sampleClass with PlacementSurfaceTypes := [ECollisionChannel.ECC_Pawn] }

/-- The sample world with one building, number 10, at the origin. -/
def sampleTown : UWorld :=
  { sampleWorld with
    Buildings := [ABuilding.spawn sampleClass 10 ⟨0, 0, 0⟩]
    NextId := 11 }

/-- Player controller state of the sample scene before any placement. -/
def sampleController : ARTS_PlayerController :=
  { BuildingClass := some sampleClass
    GridSize := 100
    CurrentBuilding := none
    bIsBuildingMode := false }

/-- The sample town right after `StartBuildingPlacement`: building 11 is the
placement candidate, in preview at the origin. -/
def samplePreview : UWorld × ARTS_PlayerController :=
  ARTS_PlayerController.StartBuildingPlacement sampleTown sampleController

/-- A mouse deprojection of the sample scene, above the ground point
`(130, 40, 0)`. -/
def sampleMouse : Option (FVector × FVector) := some (⟨130, 40, 1000⟩, ⟨0, 0, -1⟩)

/-- Flow-field provider of the sample scene: points along the `X` axis towards
the goal, and nowhere at the goal's `X`. -/
def sampleFlowDirection (f : AFlowFieldSystem) (Position : FVector) : FVector :=
  if Position.X < f.Goal.X then ⟨1, 0, 0⟩
  else if f.Goal.X < Position.X then ⟨-1, 0, 0⟩
  else FVector.ZeroVector

/-- Character of the sample scene, as constructed and after `BeginPlay`: at
the origin, not moving, third-person view, refresh interval one half. -/
def sampleCharacter : Aprototype1Character :=
  { Location := ⟨0, 0, 0⟩
    Rotation := ⟨0, 0, 0⟩
    Velocity := FVector.ZeroVector
    PendingInput := FVector.ZeroVector
    bIsMoving := false
    bIsFirstPerson := false
    TargetLocation := FVector.ZeroVector
    FlowFieldSystem := some ⟨FVector.ZeroVector, 0⟩
    FlowFieldUpdateInterval := 1 / 2
    TimeSinceLastFlowFieldUpdate := 0 }

/-- Unit controller of the sample scene before any selection. -/
def sampleUnitController : AUnitController :=
  { bIsSelecting := false
    SelectionStart := ⟨0, 0⟩
    SelectionEnd := ⟨0, 0⟩
    SelectedUnits := [] }

/-- A moving unit of the sample scene: unit 1 at the origin, facing along `Y`
(yaw 90), ordered to `(500, 0, 0)`. -/
def sampleMover : AUnit :=
  { sampleUnit 1 ⟨0, 0, 0⟩ with
    bIsMoving := true
    TargetDestination := ⟨500, 0, 0⟩
    Rotation := ⟨0, 90, 0⟩ }

/-- A unit standing in the way of `sampleMover`: unit 2 on the line to the
destination, 32.0775 units ahead. -/
def sampleBlocker : AUnit := sampleUnit 2 ⟨12831 / 400, 0, 0⟩

/-- The unit of the scenario: constructed at the origin, after `BeginPlay`,
ordered to `(500, 0, 0)`; the constructor gives it the acceptance radius 50 and
the movement speed 400. -/
def AUnit.scenarioUnit (Id : Nat) (Mesh Selected : MaterialRef) : AUnit :=
  ((AUnit.construct Id ⟨0, 0, 0⟩ Mesh Selected).BeginPlay).SetDestination ⟨500, 0, 0⟩

/-- A sequence of operations on a unit of the sample scene: `BeginPlay`, an
order to `(500, 0, 0)` and two ticks of 0.6 seconds with no displacement. -/
def sampleCalls : List AUnit.Call :=
  [AUnit.Call.BeginPlay, AUnit.Call.SetDestination ⟨500, 0, 0⟩,
    AUnit.Call.Tick [] 0 0 (3 / 5), AUnit.Call.Tick [] 0 0 (3 / 5)]

/-! ## Selection: theorems -/

namespace AUnitController

theorem DeselectAll_PlayerController (ids : List Nat) (W : UWorld) :
    (DeselectAll W ids).PlayerController = W.PlayerController := by
  induction ids generalizing W with
  | nil => rfl
  | cons i rest ih => simp [DeselectAll, ih, UWorld.updateUnit]

theorem DeselectAll_LineTrace (ids : List Nat) (W : UWorld) :
    (DeselectAll W ids).LineTraceSingleByChannel = W.LineTraceSingleByChannel := by
  induction ids generalizing W with
  | nil => rfl
  | cons i rest ih => simp [DeselectAll, ih, UWorld.updateUnit]

theorem SetSelected_Id (u : AUnit) (b : Bool) : (u.SetSelected b).Id = u.Id := by
  unfold AUnit.SetSelected
  split <;> split <;> rfl

theorem SetSelected_Location (u : AUnit) (b : Bool) :
    (u.SetSelected b).Location = u.Location := by
  unfold AUnit.SetSelected
  split <;> split <;> rfl

theorem DeselectAll_idLoc (ids : List Nat) (W : UWorld) :
    (DeselectAll W ids).Units.map (fun u => (u.Id, u.Location))
      = W.Units.map (fun u => (u.Id, u.Location)) := by
  induction ids generalizing W with
  | nil => rfl
  | cons i rest ih =>
    simp only [DeselectAll, ih, UWorld.updateUnit, List.map_map]
    apply List.map_congr_left
    intro u _
    simp only [Function.comp]
    split
    · rw [SetSelected_Id, SetSelected_Location]
    · rfl

theorem GroundHits_congr (W V : UWorld) (PC : APlayerController) (C D : AUnitController)
    (hT : W.LineTraceSingleByChannel = V.LineTraceSingleByChannel)
    (hs : C.SelectionStart = D.SelectionStart) (he : C.SelectionEnd = D.SelectionEnd) :
    GroundHits W PC C = GroundHits V PC D := by
  simp [GroundHits, hT, hs, he]

theorem SelectLoop_fst (Lo Hi : FVector) (us : List AUnit) :
    (SelectLoop Lo Hi us).1
      = ((us.map (fun u => (u.Id, u.Location))).filter (fun p => InBounds Lo Hi p.2)).map
          Prod.fst := by
  induction us with
  | nil => rfl
  | cons u rest ih =>
    simp only [SelectLoop, List.map_cons, List.filter_cons]
    split <;> simp [ih]

theorem UpdateSelectedUnits_miss (W : UWorld) (C : AUnitController) (PC : APlayerController)
    (hPC : W.PlayerController = some PC)
    (hmiss : (GroundHits W PC C).1.bBlockingHit = false
      ∨ (GroundHits W PC C).2.bBlockingHit = false) :
    UpdateSelectedUnits W C = (DeselectAll W C.SelectedUnits, { C with SelectedUnits := [] }) := by
  have hg : GroundHits (DeselectAll W C.SelectedUnits) PC { C with SelectedUnits := [] }
      = GroundHits W PC C :=
    GroundHits_congr _ _ _ _ _ (DeselectAll_LineTrace _ _) rfl rfl
  unfold UpdateSelectedUnits
  simp only [DeselectAll_PlayerController, hPC, hg]
  rcases hmiss with h | h <;> simp [h]

theorem UpdateSelectedUnits_hit (W : UWorld) (C : AUnitController) (PC : APlayerController)
    (hPC : W.PlayerController = some PC)
    (hs : (GroundHits W PC C).1.bBlockingHit = true)
    (he : (GroundHits W PC C).2.bBlockingHit = true) :
    (UpdateSelectedUnits W C).2.SelectedUnits
      = ((W.Units.map (fun u => (u.Id, u.Location))).filter
          (fun p => InBounds (MinBound (GroundHits W PC C).1 (GroundHits W PC C).2)
            (MaxBound (GroundHits W PC C).1 (GroundHits W PC C).2) p.2)).map Prod.fst := by
  have hg : GroundHits (DeselectAll W C.SelectedUnits) PC { C with SelectedUnits := [] }
      = GroundHits W PC C :=
    GroundHits_congr _ _ _ _ _ (DeselectAll_LineTrace _ _) rfl rfl
  unfold UpdateSelectedUnits
  simp only [DeselectAll_PlayerController, hPC, hg, hs, he, SelectLoop_fst, DeselectAll_idLoc]
  simp

/-- C1 (as stated, refuted): in the sample world with unit 1 selected and the
start corner over open sky, the start projection misses and `SelectedUnits`
after `UpdateSelectedUnits` differs from `SelectedUnits` before. -/
theorem UpdateSelectedUnits_miss_changes_membership :
    (GroundHits sampleWorld samplePC ⟨true, ⟨-5, 0⟩, ⟨100, 100⟩, [1]⟩).1.bBlockingHit = false
      ∧ (UpdateSelectedUnits sampleWorld ⟨true, ⟨-5, 0⟩, ⟨100, 100⟩, [1]⟩).2.SelectedUnits
          ≠ (⟨true, ⟨-5, 0⟩, ⟨100, 100⟩, [1]⟩ : AUnitController).SelectedUnits := by
  constructor
  · simp [GroundHits, sampleWorld, samplePC, sampleTrace]
  · rw [UpdateSelectedUnits_miss sampleWorld _ samplePC rfl
      (Or.inl (by simp [GroundHits, sampleWorld, samplePC, sampleTrace]))]
    simp

/-- C1 (amended): when the ground projection of either selection corner has
no blocking hit, `SelectedUnits` is empty after `UpdateSelectedUnits`, whatever
it was before. -/
theorem UpdateSelectedUnits_miss_empties (W : UWorld) (C : AUnitController)
    (PC : APlayerController) (hPC : W.PlayerController = some PC)
    (hmiss : (GroundHits W PC C).1.bBlockingHit = false
      ∨ (GroundHits W PC C).2.bBlockingHit = false) :
    (UpdateSelectedUnits W C).2.SelectedUnits = [] := by
  rw [UpdateSelectedUnits_miss W C PC hPC hmiss]

theorem UpdateSelectedUnits_miss_empties_witness :
    (GroundHits sampleWorld samplePC ⟨true, ⟨-5, 0⟩, ⟨100, 100⟩, [1, 2]⟩).1.bBlockingHit = false
      ∧ (UpdateSelectedUnits sampleWorld ⟨true, ⟨-5, 0⟩, ⟨100, 100⟩, [1, 2]⟩).2.SelectedUnits
          = [] :=
  ⟨by simp [GroundHits, sampleWorld, samplePC, sampleTrace],
    UpdateSelectedUnits_miss_empties sampleWorld _ samplePC rfl
      (Or.inl (by simp [GroundHits, sampleWorld, samplePC, sampleTrace]))⟩

/-- C2: when both corner projections hit, a live unit is in `SelectedUnits`
after `UpdateSelectedUnits` exactly when its `X` and `Y` lie between the
minimum and the maximum of the two hit points, bounds included; no `Z`
coordinate enters the condition. -/
theorem UpdateSelectedUnits_membership (W : UWorld) (C : AUnitController)
    (PC : APlayerController) (u : AUnit)
    (hPC : W.PlayerController = some PC)
    (hs : (GroundHits W PC C).1.bBlockingHit = true)
    (he : (GroundHits W PC C).2.bBlockingHit = true)
    (hnd : (W.Units.map AUnit.Id).Nodup)
    (hu : u ∈ W.Units) :
    u.Id ∈ (UpdateSelectedUnits W C).2.SelectedUnits ↔
      (min (GroundHits W PC C).1.Location.X (GroundHits W PC C).2.Location.X ≤ u.Location.X
        ∧ u.Location.X ≤ max (GroundHits W PC C).1.Location.X (GroundHits W PC C).2.Location.X)
      ∧ (min (GroundHits W PC C).1.Location.Y (GroundHits W PC C).2.Location.Y ≤ u.Location.Y
        ∧ u.Location.Y ≤ max (GroundHits W PC C).1.Location.Y (GroundHits W PC C).2.Location.Y) := by
  rw [UpdateSelectedUnits_hit W C PC hPC hs he]
  simp only [List.mem_map, List.mem_filter, Prod.exists, exists_and_right, exists_eq_right]
  constructor
  · rintro ⟨loc, ⟨v, hv, hveq⟩, hb⟩
    have hid : v.Id = u.Id := (Prod.mk.inj hveq).1
    have hvu : v = u := List.inj_on_of_nodup_map hnd hv hu hid
    subst hvu
    have hloc : loc = v.Location := ((Prod.mk.inj hveq).2).symm
    subst hloc
    simpa [InBounds, MinBound, MaxBound, and_assoc] using hb
  · intro h
    refine ⟨u.Location, ⟨u, hu, rfl⟩, ?_⟩
    simpa [InBounds, MinBound, MaxBound, and_assoc] using h

theorem UpdateSelectedUnits_membership_witness :
    2 ∈ (UpdateSelectedUnits sampleWorld ⟨true, ⟨0, 0⟩, ⟨100, 300⟩, []⟩).2.SelectedUnits :=
  (UpdateSelectedUnits_membership sampleWorld ⟨true, ⟨0, 0⟩, ⟨100, 300⟩, []⟩ samplePC
    (sampleUnit 2 ⟨100, 300, 20⟩) rfl
    (by simp [GroundHits, sampleWorld, samplePC, sampleTrace])
    (by simp [GroundHits, sampleWorld, samplePC, sampleTrace])
    (by simp [sampleWorld, sampleUnit, AUnit.construct, AUnit.BeginPlay])
    (by simp [sampleWorld])).mpr
    (by
      simp only [GroundHits, sampleWorld, samplePC, sampleTrace, sampleUnit, AUnit.construct,
        AUnit.BeginPlay]
      norm_num)

end AUnitController

/-! ## Units: theorems -/

theorem sampleSqrtIter_eq (n : ℕ) :
    ∀ fuel guess : ℕ, guess ≤ fuel → sampleSqrtIter n fuel guess = Nat.sqrt.iter n guess := by
  intro fuel
  induction fuel with
  | zero =>
    intro guess h
    have h0 : guess = 0 := Nat.le_zero.mp h
    subst h0
    rw [Nat.sqrt.iter]
    simp [sampleSqrtIter]
  | succ k ih =>
    intro guess h
    rw [Nat.sqrt.iter]
    simp only [sampleSqrtIter]
    split
    · rename_i hlt
      exact ih _ (by omega)
    · rfl

theorem sampleNatSqrt_eq (n : ℕ) : sampleNatSqrt n = Nat.sqrt n := by
  unfold sampleNatSqrt Nat.sqrt
  split
  · rfl
  · exact sampleSqrtIter_eq n n (n / 2) (Nat.div_le_self n 2)

theorem sampleSqrt_sq (n : ℕ) : sampleSqrt ((n : ℚ) * (n : ℚ)) = (n : ℚ) := by
  have h : ((n : ℚ) * (n : ℚ)) = ((n * n : ℕ) : ℚ) := by push_cast; ring
  rw [h, sampleSqrt, Rat.num_natCast, Rat.den_natCast]
  simp only [Int.toNat_natCast, mul_one, sampleNatSqrt_eq, Nat.sqrt_eq, Nat.cast_one, div_one]

namespace AUnit

/-- C3: a moving unit whose distance to `TargetDestination` is at most
`AcceptanceRadius` (equality included) leaves `UpdateMovement`, and `Tick`,
with `bIsMoving = false` and zero velocity; its pending movement input, its
rotation and every other member are as before the tick. -/
theorem UpdateMovement_arrival (E : Engine) (NearbyUnits : List AUnit) (RandX RandY : ℚ)
    (DeltaTime : ℚ) (u : AUnit) (hmov : u.bIsMoving = true)
    (h : FVector.Distance E u.Location u.TargetDestination ≤ u.AcceptanceRadius) :
    (UpdateMovement E NearbyUnits RandX RandY DeltaTime u).bIsMoving = false
      ∧ (UpdateMovement E NearbyUnits RandX RandY DeltaTime u).Velocity = FVector.ZeroVector
      ∧ (UpdateMovement E NearbyUnits RandX RandY DeltaTime u).PendingInput = u.PendingInput
      ∧ (UpdateMovement E NearbyUnits RandX RandY DeltaTime u).Rotation = u.Rotation
      ∧ UpdateMovement E NearbyUnits RandX RandY DeltaTime u
          = { u with bIsMoving := false, Velocity := FVector.ZeroVector }
      ∧ Tick E NearbyUnits RandX RandY DeltaTime u
          = UpdateMovement E NearbyUnits RandX RandY DeltaTime u := by
  have hr : HasReachedDestination E u = true := by
    simpa [HasReachedDestination] using h
  have hu : UpdateMovement E NearbyUnits RandX RandY DeltaTime u
      = { u with bIsMoving := false, Velocity := FVector.ZeroVector } := by
    simp [UpdateMovement, hr]
  refine ⟨?_, ?_, ?_, ?_, hu, ?_⟩
  · rw [hu]
  · rw [hu]
  · rw [hu]
  · rw [hu]
  · simp [Tick, hmov]

theorem UpdateMovement_arrival_witness :
    (UpdateMovement sampleEngine sampleWorld.Units (1 / 10) (-1 / 5) (1 / 60)
        { sampleUnit 1 ⟨450, 0, 0⟩ with
          bIsMoving := true, TargetDestination := ⟨500, 0, 0⟩, Velocity := ⟨400, 0, 0⟩ }).bIsMoving
      = false :=
  (UpdateMovement_arrival sampleEngine sampleWorld.Units (1 / 10) (-1 / 5) (1 / 60)
    { sampleUnit 1 ⟨450, 0, 0⟩ with
      bIsMoving := true, TargetDestination := ⟨500, 0, 0⟩, Velocity := ⟨400, 0, 0⟩ } rfl
    (by
      have h50 := sampleSqrt_sq 50
      norm_num at h50
      simp only [FVector.Distance, FVector.sub, FVector.SizeSquared, sampleUnit, construct,
        BeginPlay, sampleEngine]
      norm_num [h50])).1

/-- C4: `SetDestination(p)` stores `p` in `TargetDestination`, sets
`bIsMoving` and clears `StuckTime`; location, rotation, `LastLocation` and the
four configuration values are as before, for every state and every `p`. -/
theorem SetDestination_effect (u : AUnit) (p : FVector) :
    (u.SetDestination p).TargetDestination = p
      ∧ (u.SetDestination p).bIsMoving = true
      ∧ (u.SetDestination p).StuckTime = 0
      ∧ (u.SetDestination p).Location = u.Location
      ∧ (u.SetDestination p).Rotation = u.Rotation
      ∧ (u.SetDestination p).LastLocation = u.LastLocation
      ∧ (u.SetDestination p).MovementSpeed = u.MovementSpeed
      ∧ (u.SetDestination p).RotationSpeed = u.RotationSpeed
      ∧ (u.SetDestination p).AcceptanceRadius = u.AcceptanceRadius
      ∧ (u.SetDestination p).AvoidanceRadius = u.AvoidanceRadius :=
  ⟨rfl, rfl, rfl, rfl, rfl, rfl, rfl, rfl, rfl, rfl⟩

/-- C10: the blend factor of `UpdateMovement` lies in `[0, 0.7]` for every
unit, every radius and every list of neighbours, and the interpolation it
drives gives `DirectionToTarget` the weight `1 - BlendFactor`, at least `0.3`. -/
theorem BlendFactor_bounds (E : Engine) (self : AUnit) (NearbyUnits : List AUnit)
    (DirectionToTarget : FVector) :
    0 ≤ BlendFactor E self NearbyUnits
      ∧ BlendFactor E self NearbyUnits ≤ 7 / 10
      ∧ FVector.Lerp DirectionToTarget (AveragedAvoidance E self NearbyUnits)
            (BlendFactor E self NearbyUnits)
          = FVector.add (FVector.scale DirectionToTarget (1 - BlendFactor E self NearbyUnits))
              (FVector.scale (AveragedAvoidance E self NearbyUnits)
                (BlendFactor E self NearbyUnits))
      ∧ 3 / 10 ≤ 1 - BlendFactor E self NearbyUnits := by
  have hb : 0 ≤ BlendFactor E self NearbyUnits ∧ BlendFactor E self NearbyUnits ≤ 7 / 10 := by
    unfold BlendFactor Clamp
    split
    · norm_num
    · split
      · constructor <;> linarith
      · norm_num
  refine ⟨hb.1, hb.2, ?_, by linarith [hb.2]⟩
  simp only [FVector.Lerp, FVector.add, FVector.scale, FVector.sub, FVector.mk.injEq]
  refine ⟨?_, ?_, ?_⟩ <;> ring

end AUnit

/-! ## Buildings: theorems -/

namespace ABuilding

theorem OverlapLoop_false_iff (E : Engine) (self : ABuilding) (Location : FVector)
    (bs : List ABuilding) :
    OverlapLoop E self Location bs = false ↔
      ∃ p ∈ bs.map (fun b => (b.Id, b.Location)),
        p.1 ≠ self.Id ∧ FVector.Distance E Location p.2 < self.MinDistanceToOtherBuildings := by
  induction bs with
  | nil => simp [OverlapLoop]
  | cons b rest ih =>
    simp only [OverlapLoop, List.map_cons, List.mem_cons, exists_eq_or_imp]
    by_cases hid : b.Id = self.Id
    · simp [hid, ih]
    · by_cases hd : FVector.Distance E Location b.Location < self.MinDistanceToOtherBuildings
      · simp [hid, hd]
      · simp [hid, hd, ih]

theorem CheckBuildingOverlap_false_iff (E : Engine) (W : UWorld) (self : ABuilding)
    (Location : FVector) :
    CheckBuildingOverlap E W self Location = false ↔
      ∃ b ∈ W.Buildings, b.Id ≠ self.Id
        ∧ FVector.Distance E Location b.Location < self.MinDistanceToOtherBuildings := by
  unfold CheckBuildingOverlap
  rw [OverlapLoop_false_iff]
  simp only [List.mem_map, exists_exists_and_eq_and]

/-- C5: where `CheckSurfaceType` fails, `ValidatePlacement` returns
`InvalidTerrain` for every set of buildings in the world; hence a result
`InvalidOverlap` implies that the terrain check passed. -/
theorem ValidatePlacement_terrain_first (E : Engine) (W : UWorld) (self : ABuilding)
    (Location : FVector) :
    (CheckSurfaceType W self Location = false →
        ValidatePlacement E W self Location = EBuildingPlacementState.InvalidTerrain)
      ∧ (ValidatePlacement E W self Location = EBuildingPlacementState.InvalidOverlap →
        CheckSurfaceType W self Location = true) := by
  constructor
  · intro h
    simp [ValidatePlacement, h]
  · intro h
    by_cases ht : CheckSurfaceType W self Location = true
    · exact ht
    · simp [ValidatePlacement, ht] at h

theorem ValidatePlacement_terrain_first_witness :
    CheckBuildingOverlap sampleEngine sampleTown (spawn samplePickyClass 11 ⟨0, 0, 0⟩)
        ⟨100, 0, 0⟩ = false
      ∧ ValidatePlacement sampleEngine sampleTown (spawn samplePickyClass 11 ⟨0, 0, 0⟩)
        ⟨100, 0, 0⟩ = EBuildingPlacementState.InvalidTerrain :=
  ⟨by
      have h100 := sampleSqrt_sq 100
      norm_num at h100
      rw [CheckBuildingOverlap_false_iff]
      refine ⟨spawn sampleClass 10 ⟨0, 0, 0⟩, by simp [sampleTown], by decide, ?_⟩
      simp only [FVector.Distance, FVector.sub, FVector.SizeSquared, sampleEngine, spawn,
        construct, BeginPlay, samplePickyClass, sampleClass]
      norm_num [h100],
    (ValidatePlacement_terrain_first sampleEngine sampleTown
      (spawn samplePickyClass 11 ⟨0, 0, 0⟩) ⟨100, 0, 0⟩).1
      (by simp [CheckSurfaceType, spawn, construct, BeginPlay, samplePickyClass, sampleClass,
            sampleTown, sampleWorld, sampleTrace, FVector.add])⟩

/-- C6: where the terrain check passes, `ValidatePlacement` returns
`InvalidOverlap` exactly when some live building with an identity other than
the candidate's lies at a three-dimensional distance strictly below
`MinDistanceToOtherBuildings` from the location, whatever its collision or
preview state, and returns `Valid` exactly when there is none. -/
theorem ValidatePlacement_overlap (E : Engine) (W : UWorld) (self : ABuilding)
    (Location : FVector) (hT : CheckSurfaceType W self Location = true) :
    (ValidatePlacement E W self Location = EBuildingPlacementState.InvalidOverlap ↔
        ∃ b ∈ W.Buildings, b.Id ≠ self.Id
          ∧ FVector.Distance E Location b.Location < self.MinDistanceToOtherBuildings)
      ∧ (ValidatePlacement E W self Location = EBuildingPlacementState.Valid ↔
        ¬ ∃ b ∈ W.Buildings, b.Id ≠ self.Id
          ∧ FVector.Distance E Location b.Location < self.MinDistanceToOtherBuildings) := by
  rw [← CheckBuildingOverlap_false_iff]
  by_cases ho : CheckBuildingOverlap E W self Location = true
  · simp [ValidatePlacement, hT, ho]
  · simp [ValidatePlacement, hT, ho]

theorem ValidatePlacement_overlap_witness :
    ValidatePlacement sampleEngine
        { sampleTown with Buildings := sampleTown.Buildings ++ [spawn sampleClass 11 ⟨150, 0, 0⟩] }
        (spawn sampleClass 11 ⟨150, 0, 0⟩) ⟨200, 0, 0⟩ = EBuildingPlacementState.Valid :=
  (ValidatePlacement_overlap sampleEngine
      { sampleTown with Buildings := sampleTown.Buildings ++ [spawn sampleClass 11 ⟨150, 0, 0⟩] }
      (spawn sampleClass 11 ⟨150, 0, 0⟩) ⟨200, 0, 0⟩
      (by simp [CheckSurfaceType, spawn, construct, BeginPlay, sampleClass])).2.mpr
    (by
      have h200 := sampleSqrt_sq 200
      norm_num at h200
      simp only [sampleTown, List.cons_append, List.nil_append, List.mem_cons,
        List.mem_singleton, List.not_mem_nil, or_false]
      rintro ⟨b, hb | hb, hid, hd⟩
      · subst hb
        simp only [FVector.Distance, FVector.sub, FVector.SizeSquared, sampleEngine, spawn,
          construct, BeginPlay, sampleClass] at hd
        norm_num [h200] at hd
      · subst hb
        exact hid rfl)

/-- C7: `CheckSurfaceType` accepts every location when `PlacementSurfaceTypes`
is empty; when it is not empty it accepts exactly when the vertical trace from
`Location + (0, 0, 100)` to `Location + (0, 0, -100)` that ignores the building
itself is blocked by a surface whose object type is listed. With a non-empty
list, a missed trace or an unlisted surface makes `ValidatePlacement` return
`InvalidTerrain` in every world, the worlds without other buildings included. -/
theorem CheckSurfaceType_spec (E : Engine) (W : UWorld) (self : ABuilding)
    (Location : FVector) :
    (self.PlacementSurfaceTypes = [] → CheckSurfaceType W self Location = true)
      ∧ (self.PlacementSurfaceTypes ≠ [] →
          (CheckSurfaceType W self Location = true ↔
            (W.LineTraceSingleByChannel (FVector.add Location ⟨0, 0, 100⟩)
                (FVector.add Location ⟨0, 0, -100⟩) [self.Id]).bBlockingHit = true
              ∧ (W.LineTraceSingleByChannel (FVector.add Location ⟨0, 0, 100⟩)
                (FVector.add Location ⟨0, 0, -100⟩) [self.Id]).ObjectType
                  ∈ self.PlacementSurfaceTypes))
      ∧ (self.PlacementSurfaceTypes ≠ [] →
          ¬ ((W.LineTraceSingleByChannel (FVector.add Location ⟨0, 0, 100⟩)
                (FVector.add Location ⟨0, 0, -100⟩) [self.Id]).bBlockingHit = true
              ∧ (W.LineTraceSingleByChannel (FVector.add Location ⟨0, 0, 100⟩)
                (FVector.add Location ⟨0, 0, -100⟩) [self.Id]).ObjectType
                  ∈ self.PlacementSurfaceTypes) →
          ValidatePlacement E W self Location = EBuildingPlacementState.InvalidTerrain) := by
  have key : self.PlacementSurfaceTypes ≠ [] →
      (CheckSurfaceType W self Location = true ↔
        (W.LineTraceSingleByChannel (FVector.add Location ⟨0, 0, 100⟩)
            (FVector.add Location ⟨0, 0, -100⟩) [self.Id]).bBlockingHit = true
          ∧ (W.LineTraceSingleByChannel (FVector.add Location ⟨0, 0, 100⟩)
            (FVector.add Location ⟨0, 0, -100⟩) [self.Id]).ObjectType
              ∈ self.PlacementSurfaceTypes) := by
    intro hne
    have hlen : ¬ self.PlacementSurfaceTypes.length = 0 := by
      simpa [List.length_eq_zero] using hne
    unfold CheckSurfaceType
    simp only [hlen, if_false]
    by_cases hb : (W.LineTraceSingleByChannel (FVector.add Location ⟨0, 0, 100⟩)
        (FVector.add Location ⟨0, 0, -100⟩) [self.Id]).bBlockingHit = true
    · simp only [hb, if_true, true_and, List.any_eq_true, decide_eq_true_eq]
      constructor
      · rintro ⟨t, ht, heq⟩
        rw [heq]
        exact ht
      · intro h
        exact ⟨_, h, rfl⟩
    · simp [hb]
  refine ⟨?_, key, ?_⟩
  · intro h
    simp [CheckSurfaceType, h]
  · intro hne hno
    have hc : CheckSurfaceType W self Location = false := by
      by_cases h : CheckSurfaceType W self Location = true
      · exact absurd ((key hne).mp h) hno
      · simpa using h
    simp [ValidatePlacement, hc]

theorem CheckSurfaceType_spec_witness :
    ValidatePlacement sampleEngine sampleWorld (spawn samplePickyClass 11 ⟨0, 0, 0⟩)
        ⟨100, 0, 0⟩ = EBuildingPlacementState.InvalidTerrain :=
  (CheckSurfaceType_spec sampleEngine sampleWorld (spawn samplePickyClass 11 ⟨0, 0, 0⟩)
      ⟨100, 0, 0⟩).2.2
    (by simp [spawn, construct, BeginPlay, samplePickyClass, sampleClass])
    (by simp [spawn, construct, BeginPlay, samplePickyClass, sampleClass, sampleWorld,
          sampleTrace, FVector.add])

theorem UpdatePlacementValidation_Id (E : Engine) (W : UWorld) (b : ABuilding) (p : FVector) :
    (b.UpdatePlacementValidation E W p).Id = b.Id := by
  unfold UpdatePlacementValidation
  simp only
  split_ifs <;> rfl

theorem UpdatePlacementValidation_Location (E : Engine) (W : UWorld) (b : ABuilding)
    (p : FVector) : (b.UpdatePlacementValidation E W p).Location = b.Location := by
  unfold UpdatePlacementValidation
  simp only
  split_ifs <;> rfl

theorem UpdatePlacementValidation_config (E : Engine) (W : UWorld) (b : ABuilding)
    (p : FVector) :
    (b.UpdatePlacementValidation E W p).MinDistanceToOtherBuildings
        = b.MinDistanceToOtherBuildings
      ∧ (b.UpdatePlacementValidation E W p).PlacementSurfaceTypes = b.PlacementSurfaceTypes := by
  unfold UpdatePlacementValidation
  simp only
  split_ifs <;> exact ⟨rfl, rfl⟩

theorem UpdatePlacementValidation_flag (E : Engine) (W : UWorld) (b : ABuilding)
    (p : FVector) :
    (b.UpdatePlacementValidation E W p).bIsPlacementValid
      = decide (ValidatePlacement E W b p = EBuildingPlacementState.Valid) := by
  unfold UpdatePlacementValidation
  simp only
  split_ifs <;> rfl

theorem ValidatePlacement_congr (E : Engine) (W V : UWorld) (a b : ABuilding) (p : FVector)
    (hT : W.LineTraceSingleByChannel = V.LineTraceSingleByChannel)
    (hB : W.Buildings.map (fun x => (x.Id, x.Location))
      = V.Buildings.map (fun x => (x.Id, x.Location)))
    (hid : a.Id = b.Id)
    (hmin : a.MinDistanceToOtherBuildings = b.MinDistanceToOtherBuildings)
    (hty : a.PlacementSurfaceTypes = b.PlacementSurfaceTypes) :
    ValidatePlacement E W a p = ValidatePlacement E V b p := by
  have hs : CheckSurfaceType W a p = CheckSurfaceType V b p := by
    simp [CheckSurfaceType, hT, hid, hty]
  have ho : CheckBuildingOverlap E W a p = CheckBuildingOverlap E V b p := by
    have h1 := OverlapLoop_false_iff E a p W.Buildings
    have h2 := OverlapLoop_false_iff E b p V.Buildings
    rw [hB, hid, hmin] at h1
    have h3 : OverlapLoop E a p W.Buildings = false ↔ OverlapLoop E b p V.Buildings = false :=
      h1.trans h2.symm
    unfold CheckBuildingOverlap
    cases hx : OverlapLoop E a p W.Buildings <;> cases hy : OverlapLoop E b p V.Buildings
    · rfl
    · exact absurd (h3.mp hx) (by simp [hy])
    · exact absurd (h3.mpr hy) (by simp [hx])
    · rfl
  simp [ValidatePlacement, hs, ho]

end ABuilding

namespace UWorld

theorem findBuilding_updateBuilding (W : UWorld) (Id : Nat) (f : ABuilding → ABuilding)
    (hf : ∀ b, (f b).Id = b.Id) :
    (W.updateBuilding Id f).findBuilding Id = (W.findBuilding Id).map f := by
  unfold findBuilding updateBuilding
  simp only
  induction W.Buildings with
  | nil => rfl
  | cons b rest ih =>
    simp only [List.map_cons, List.find?_cons]
    by_cases h : b.Id = Id
    · simp [h, hf]
    · simp [h, ih]

theorem updateBuilding_idLoc (W : UWorld) (Id : Nat) (f : ABuilding → ABuilding)
    (hf : ∀ b, (f b).Id = b.Id) (hl : ∀ b, (f b).Location = b.Location) :
    (W.updateBuilding Id f).Buildings.map (fun x => (x.Id, x.Location))
      = W.Buildings.map (fun x => (x.Id, x.Location)) := by
  simp only [updateBuilding, List.map_map]
  apply List.map_congr_left
  intro b _
  simp only [Function.comp]
  split
  · rw [hf, hl]
  · rfl

theorem updateBuilding_forgetLocation (W : UWorld) (Id : Nat) (p : FVector) :
    (W.updateBuilding Id (fun b => { b with Location := p })).Buildings.map
        ABuilding.forgetLocation
      = W.Buildings.map ABuilding.forgetLocation := by
  simp only [updateBuilding, List.map_map]
  apply List.map_congr_left
  intro b _
  simp only [Function.comp]
  split <;> rfl

end UWorld

/-! ## Building placement: theorems -/

namespace ARTS_PlayerController

/-- C8 (as stated, refuted): one `StartBuildingPlacement` in the sample world
gives a candidate, building 4 at the origin, whose `bIsPlacementValid` is
`false` although `ValidatePlacement` at its position is `Valid`. -/
theorem StartBuildingPlacement_flag_differs :
    (StartBuildingPlacement sampleWorld sampleController).2.CurrentBuilding = some 4
      ∧ ∃ b, (StartBuildingPlacement sampleWorld sampleController).1.findBuilding 4 = some b
          ∧ b.bIsPlacementValid = false
          ∧ ABuilding.ValidatePlacement sampleEngine
              (StartBuildingPlacement sampleWorld sampleController).1 b b.Location
                = EBuildingPlacementState.Valid := by
  exact ⟨rfl, (ABuilding.spawn sampleClass 4 FVector.ZeroVector).SetPreviewMode true, rfl, rfl, rfl⟩

/-- After an `UpdateBuildingPreview` with a live candidate and a
mouse projection that hits, the candidate stands at the grid-snapped hit point
and its `bIsPlacementValid` equals `ValidatePlacement(position) == Valid` for
that position. -/
theorem UpdateBuildingPreview_flag (E : Engine) (W : UWorld) (C : ARTS_PlayerController)
    (Mouse : Option (FVector × FVector)) (Id : Nat) (Hit : FVector) (b0 : ABuilding)
    (hC : C.CurrentBuilding = some Id)
    (hM : GetMousePositionInWorld W Mouse = some Hit)
    (hb : W.findBuilding Id = some b0) :
    ∃ b, (UpdateBuildingPreview E W C Mouse).findBuilding Id = some b
      ∧ b.Location = SnapToGrid C.GridSize Hit
      ∧ b.bIsPlacementValid
          = decide (ABuilding.ValidatePlacement E (UpdateBuildingPreview E W C Mouse) b b.Location
              = EBuildingPlacementState.Valid) := by
  have hU : UpdateBuildingPreview E W C Mouse
      = (W.updateBuilding Id (fun b => { b with Location := SnapToGrid C.GridSize Hit })).updateBuilding
          Id (fun b => b.UpdatePlacementValidation E
            (W.updateBuilding Id (fun b => { b with Location := SnapToGrid C.GridSize Hit }))
            (SnapToGrid C.GridSize Hit)) := by
    simp [UpdateBuildingPreview, hC, hM]
  have hf : (UpdateBuildingPreview E W C Mouse).findBuilding Id
      = some (ABuilding.UpdatePlacementValidation E
          (W.updateBuilding Id (fun b => { b with Location := SnapToGrid C.GridSize Hit }))
          { b0 with Location := SnapToGrid C.GridSize Hit } (SnapToGrid C.GridSize Hit)) := by
    rw [hU, UWorld.findBuilding_updateBuilding _ _ _
      (fun b => ABuilding.UpdatePlacementValidation_Id E _ b _),
      UWorld.findBuilding_updateBuilding W Id
        (fun b => { b with Location := SnapToGrid C.GridSize Hit }) (fun _ => rfl), hb]
    rfl
  refine ⟨_, hf, ?_, ?_⟩
  · rw [ABuilding.UpdatePlacementValidation_Location]
  · rw [ABuilding.UpdatePlacementValidation_flag, ABuilding.UpdatePlacementValidation_Location]
    congr 2
    apply ABuilding.ValidatePlacement_congr
    · rw [hU]
      rfl
    · rw [hU, UWorld.updateBuilding_idLoc _ _ _
        (fun b => ABuilding.UpdatePlacementValidation_Id E _ b _)
        (fun b => ABuilding.UpdatePlacementValidation_Location E _ b _)]
    · rw [ABuilding.UpdatePlacementValidation_Id]
    · rw [(ABuilding.UpdatePlacementValidation_config E _ _ _).1]
    · rw [(ABuilding.UpdatePlacementValidation_config E _ _ _).2]

theorem TryPlaceBuilding_unchanged (W : UWorld) (C : ARTS_PlayerController)
    (Mouse : Option (FVector × FVector))
    (h : ∀ Id b, C.CurrentBuilding = some Id → C.bIsBuildingMode = true →
      W.findBuilding Id = some b → b.CanBePlaced = false) :
    (TryPlaceBuilding W C Mouse).2 = C
      ∧ (TryPlaceBuilding W C Mouse).1.Buildings.map ABuilding.forgetLocation
          = W.Buildings.map ABuilding.forgetLocation := by
  unfold TryPlaceBuilding
  cases hC : C.CurrentBuilding with
  | none => simp
  | some Id =>
    cases hm : C.bIsBuildingMode with
    | false => simp
    | true =>
      cases hM : GetMousePositionInWorld W Mouse with
      | none => simp
      | some Hit =>
        simp only [Bool.not_true, Bool.false_eq_true, if_false]
        rw [UWorld.findBuilding_updateBuilding W Id
          (fun b => { b with Location := SnapToGrid C.GridSize Hit }) (fun _ => rfl)]
        cases hb : W.findBuilding Id with
        | none =>
          simp only [Option.map_none']
          exact ⟨trivial, UWorld.updateBuilding_forgetLocation W Id _⟩
        | some b =>
          have hcp : b.bIsPlacementValid = false := h Id b hC hm hb
          simp only [Option.map_some', ABuilding.CanBePlaced, hcp, Bool.false_eq_true, if_false]
          exact ⟨trivial, UWorld.updateBuilding_forgetLocation W Id _⟩

/-- C9: `TryPlaceBuilding` changes the controller state or finalizes a
building only when a live candidate exists, building mode is on and the
candidate's `CanBePlaced()` is true. When there is no candidate, or building
mode is off, or `CanBePlaced()` is false, `CurrentBuilding` and
`bIsBuildingMode` are as before and every building keeps its material,
collision state and validity flag; no building is spawned or destroyed. -/
theorem TryPlaceBuilding_guard (W : UWorld) (C : ARTS_PlayerController)
    (Mouse : Option (FVector × FVector)) :
    ((C.CurrentBuilding = none ∨ C.bIsBuildingMode = false
          ∨ ∃ Id b, C.CurrentBuilding = some Id ∧ W.findBuilding Id = some b
              ∧ b.CanBePlaced = false) →
        (TryPlaceBuilding W C Mouse).2.CurrentBuilding = C.CurrentBuilding
          ∧ (TryPlaceBuilding W C Mouse).2.bIsBuildingMode = C.bIsBuildingMode
          ∧ (TryPlaceBuilding W C Mouse).1.Buildings.map ABuilding.forgetLocation
              = W.Buildings.map ABuilding.forgetLocation)
      ∧ (((TryPlaceBuilding W C Mouse).2 ≠ C
            ∨ (TryPlaceBuilding W C Mouse).1.Buildings.map ABuilding.forgetLocation
                ≠ W.Buildings.map ABuilding.forgetLocation) →
          ∃ Id b, C.CurrentBuilding = some Id ∧ C.bIsBuildingMode = true
            ∧ W.findBuilding Id = some b ∧ b.CanBePlaced = true) := by
  constructor
  · intro h
    have hu := TryPlaceBuilding_unchanged W C Mouse (by
      intro Id b hC hm hb
      rcases h with h | h | ⟨Id2, b2, hC2, hb2, hcp⟩
      · rw [h] at hC
        exact absurd hC (by simp)
      · rw [h] at hm
        exact absurd hm (by simp)
      · rw [hC2] at hC
        have hId : Id2 = Id := Option.some.inj hC
        subst hId
        rw [hb2] at hb
        have hbb : b2 = b := Option.some.inj hb
        subst hbb
        exact hcp)
    exact ⟨by rw [hu.1], by rw [hu.1], hu.2⟩
  · intro hch
    by_contra hno
    have hu := TryPlaceBuilding_unchanged W C Mouse (by
      intro Id b hC hm hb
      by_contra hcp
      exact hno ⟨Id, b, hC, hm, hb, by simpa using hcp⟩)
    rcases hch with hch | hch
    · exact hch hu.1
    · exact hch hu.2

theorem TryPlaceBuilding_guard_witness :
    (TryPlaceBuilding samplePreview.1 samplePreview.2 sampleMouse).2.CurrentBuilding = some 11
      ∧ (TryPlaceBuilding samplePreview.1 samplePreview.2 sampleMouse).2.bIsBuildingMode = true
      ∧ (TryPlaceBuilding samplePreview.1 samplePreview.2 sampleMouse).1.Buildings.map
            ABuilding.forgetLocation
          = samplePreview.1.Buildings.map ABuilding.forgetLocation :=
  (TryPlaceBuilding_guard samplePreview.1 samplePreview.2 sampleMouse).1
    (Or.inr (Or.inr ⟨11, (ABuilding.spawn sampleClass 11 FVector.ZeroVector).SetPreviewMode true,
      rfl, rfl, rfl⟩))

end ARTS_PlayerController

/-! ## Grid snap: theorems -/

namespace ARTS_PlayerController

theorem RoundToFloat_intCast (k : ℤ) : RoundToFloat (k : ℚ) = (k : ℚ) := by
  unfold RoundToFloat
  have h : Int.floor ((k : ℚ) + 1 / 2) = k := by
    rw [Int.floor_eq_iff]
    constructor <;> norm_num
  rw [h]

theorem RoundToFloat_snap (GridSize x : ℚ) (hG : GridSize ≠ 0) :
    RoundToFloat (RoundToFloat (x / GridSize) * GridSize / GridSize) * GridSize
      = RoundToFloat (x / GridSize) * GridSize := by
  rw [mul_div_assoc, div_self hG, mul_one]
  have h : RoundToFloat (x / GridSize) = ((Int.floor (x / GridSize + 1 / 2) : ℤ) : ℚ) := rfl
  rw [h, RoundToFloat_intCast]

/-- C11: for a positive `GridSize` the grid snap of `UpdateBuildingPreview` and
`TryPlaceBuilding` is idempotent on `X` and on `Y`, and it leaves `Z` as it
was. -/
theorem SnapToGrid_idempotent (GridSize : ℚ) (v : FVector) (hG : 0 < GridSize) :
    SnapToGrid GridSize (SnapToGrid GridSize v) = SnapToGrid GridSize v
      ∧ (SnapToGrid GridSize (SnapToGrid GridSize v)).X = (SnapToGrid GridSize v).X
      ∧ (SnapToGrid GridSize (SnapToGrid GridSize v)).Y = (SnapToGrid GridSize v).Y
      ∧ (SnapToGrid GridSize v).Z = v.Z := by
  have hX := RoundToFloat_snap GridSize v.X (ne_of_gt hG)
  have hY := RoundToFloat_snap GridSize v.Y (ne_of_gt hG)
  have h : SnapToGrid GridSize (SnapToGrid GridSize v) = SnapToGrid GridSize v := by
    simp only [SnapToGrid, FVector.mk.injEq, and_true]
    exact ⟨hX, hY⟩
  exact ⟨h, by rw [h], by rw [h], rfl⟩

theorem SnapToGrid_idempotent_witness :
    SnapToGrid 100 (SnapToGrid 100 ⟨130, 40, 7⟩) = SnapToGrid 100 ⟨130, 40, 7⟩ :=
  (SnapToGrid_idempotent 100 ⟨130, 40, 7⟩ (by norm_num)).1

end ARTS_PlayerController

/-! ## Selection sequences: theorems -/

namespace AUnitController

theorem SelectLoop_snd_idLoc (Lo Hi : FVector) (us : List AUnit) :
    (SelectLoop Lo Hi us).2.map (fun u => (u.Id, u.Location))
      = us.map (fun u => (u.Id, u.Location)) := by
  induction us with
  | nil => rfl
  | cons u rest ih =>
    simp only [SelectLoop]
    split
    · simp only [List.map_cons, ih, SetSelected_Id, SetSelected_Location]
    · simp only [List.map_cons, ih]

theorem UpdateSelectedUnits_noPC (W : UWorld) (C : AUnitController)
    (hPC : W.PlayerController = none) :
    UpdateSelectedUnits W C = (DeselectAll W C.SelectedUnits, { C with SelectedUnits := [] }) := by
  unfold UpdateSelectedUnits
  simp only [DeselectAll_PlayerController, hPC]

theorem UpdateSelectedUnits_world (W : UWorld) (C : AUnitController) :
    (UpdateSelectedUnits W C).1.PlayerController = W.PlayerController
      ∧ (UpdateSelectedUnits W C).1.LineTraceSingleByChannel = W.LineTraceSingleByChannel
      ∧ (UpdateSelectedUnits W C).1.Units.map (fun u => (u.Id, u.Location))
          = W.Units.map (fun u => (u.Id, u.Location)) := by
  unfold UpdateSelectedUnits
  simp only [DeselectAll_PlayerController]
  cases hPC : W.PlayerController with
  | none =>
    exact ⟨DeselectAll_PlayerController _ _ |>.trans hPC, DeselectAll_LineTrace _ _,
      DeselectAll_idLoc _ _⟩
  | some PC =>
    simp only
    split
    · exact ⟨DeselectAll_PlayerController _ _ |>.trans hPC, DeselectAll_LineTrace _ _,
        DeselectAll_idLoc _ _⟩
    · refine ⟨rfl, DeselectAll_LineTrace _ _, ?_⟩
      simp only [SelectLoop_snd_idLoc, DeselectAll_idLoc]

theorem UpdateSelectedUnits_fields (W : UWorld) (C : AUnitController) :
    (UpdateSelectedUnits W C).2.bIsSelecting = C.bIsSelecting
      ∧ (UpdateSelectedUnits W C).2.SelectionStart = C.SelectionStart
      ∧ (UpdateSelectedUnits W C).2.SelectionEnd = C.SelectionEnd := by
  unfold UpdateSelectedUnits
  simp only
  split
  · exact ⟨rfl, rfl, rfl⟩
  · split <;> exact ⟨rfl, rfl, rfl⟩

theorem UpdateSelectedUnits_congr (W V : UWorld) (C D : AUnitController)
    (hPC : W.PlayerController = V.PlayerController)
    (hT : W.LineTraceSingleByChannel = V.LineTraceSingleByChannel)
    (hU : W.Units.map (fun u => (u.Id, u.Location)) = V.Units.map (fun u => (u.Id, u.Location)))
    (hs : C.SelectionStart = D.SelectionStart) (he : C.SelectionEnd = D.SelectionEnd) :
    (UpdateSelectedUnits W C).2.SelectedUnits = (UpdateSelectedUnits V D).2.SelectedUnits := by
  cases hW : W.PlayerController with
  | none =>
    rw [UpdateSelectedUnits_noPC W C hW, UpdateSelectedUnits_noPC V D (hPC ▸ hW)]
  | some PC =>
    have hV : V.PlayerController = some PC := hPC ▸ hW
    have hg : GroundHits W PC C = GroundHits V PC D := GroundHits_congr W V PC C D hT hs he
    by_cases h1 : (GroundHits W PC C).1.bBlockingHit = true
    · by_cases h2 : (GroundHits W PC C).2.bBlockingHit = true
      · rw [UpdateSelectedUnits_hit W C PC hW h1 h2,
          UpdateSelectedUnits_hit V D PC hV (hg ▸ h1) (hg ▸ h2), hg, hU]
      · have h2f : (GroundHits W PC C).2.bBlockingHit = false := by simpa using h2
        rw [UpdateSelectedUnits_miss W C PC hW (Or.inr h2f),
          UpdateSelectedUnits_miss V D PC hV (Or.inr (hg ▸ h2f))]
    · have h1f : (GroundHits W PC C).1.bBlockingHit = false := by simpa using h1
      rw [UpdateSelectedUnits_miss W C PC hW (Or.inl h1f),
        UpdateSelectedUnits_miss V D PC hV (Or.inl (hg ▸ h1f))]

/-- C12: `EndSelection` called twice in a row gives the same `SelectedUnits`
as called once, for every world and every selection state, and `bIsSelecting`
is false after the first and after the second call. -/
theorem EndSelection_twice (W : UWorld) (C : AUnitController) :
    (EndSelection (EndSelection W C).1 (EndSelection W C).2).2.SelectedUnits
        = (EndSelection W C).2.SelectedUnits
      ∧ (EndSelection W C).2.bIsSelecting = false
      ∧ (EndSelection (EndSelection W C).1 (EndSelection W C).2).2.bIsSelecting = false := by
  have hw := UpdateSelectedUnits_world W { C with bIsSelecting := false }
  have hf := UpdateSelectedUnits_fields W { C with bIsSelecting := false }
  refine ⟨?_, ?_, ?_⟩
  · unfold EndSelection
    exact UpdateSelectedUnits_congr _ _ _ _ hw.1 hw.2.1 hw.2.2 hf.2.1 hf.2.2
  · exact hf.1
  · unfold EndSelection
    exact (UpdateSelectedUnits_fields _ _).1

/-- C13: `StartSelection(s)` yields `bIsSelecting = true`, both corners equal
to `s` and an empty `SelectedUnits`, for every previous selection state. -/
theorem StartSelection_effect (C : AUnitController) (s : FVector2D) :
    (StartSelection C s).bIsSelecting = true
      ∧ (StartSelection C s).SelectionStart = s
      ∧ (StartSelection C s).SelectionEnd = s
      ∧ (StartSelection C s).SelectedUnits = [] :=
  ⟨rfl, rfl, rfl, rfl⟩

end AUnitController

/-! ## Stuck detection: theorems -/

namespace AUnit

/-- C17: in a tick of a moving unit that has not arrived, the random offset
is added to `DirectionToTarget` exactly when the distance to `LastLocation` is
below one and `StuckTime + DeltaTime` exceeds one, and `StuckTime` is then zero
after the tick; when that distance is at least one, `StuckTime` is zero after
the tick and the direction is not perturbed; otherwise `StuckTime` has grown by
`DeltaTime`. The direction left by the check is the one blended and applied as
movement input. -/
theorem UpdateMovement_stuck (E : Engine) (NearbyUnits : List AUnit) (RandX RandY : ℚ)
    (DeltaTime : ℚ) (u : AUnit) (hmov : u.bIsMoving = true)
    (hnot : HasReachedDestination E u = false) :
    (UpdateMovement E NearbyUnits RandX RandY DeltaTime u).StuckTime
        = (StuckCheck E u DeltaTime RandX RandY
            (FVector.GetSafeNormal E (FVector.sub u.TargetDestination u.Location))).2
      ∧ (UpdateMovement E NearbyUnits RandX RandY DeltaTime u).PendingInput
        = FVector.add u.PendingInput
            (FVector.scale (FVector.scale
              (FinalDirection E u NearbyUnits
                (StuckCheck E u DeltaTime RandX RandY
                  (FVector.GetSafeNormal E (FVector.sub u.TargetDestination u.Location))).1)
              u.MovementSpeed) DeltaTime)
      ∧ ((FVector.Distance E u.Location u.LastLocation < 1 ∧ u.StuckTime + DeltaTime > 1) →
          StuckCheck E u DeltaTime RandX RandY
              (FVector.GetSafeNormal E (FVector.sub u.TargetDestination u.Location))
            = (FVector.Normalize E
                (FVector.add
                  (FVector.GetSafeNormal E (FVector.sub u.TargetDestination u.Location))
                  ⟨RandX, RandY, 0⟩), 0))
      ∧ (¬ (FVector.Distance E u.Location u.LastLocation < 1 ∧ u.StuckTime + DeltaTime > 1) →
          (StuckCheck E u DeltaTime RandX RandY
              (FVector.GetSafeNormal E (FVector.sub u.TargetDestination u.Location))).1
            = FVector.GetSafeNormal E (FVector.sub u.TargetDestination u.Location))
      ∧ (1 ≤ FVector.Distance E u.Location u.LastLocation →
          (StuckCheck E u DeltaTime RandX RandY
              (FVector.GetSafeNormal E (FVector.sub u.TargetDestination u.Location))).2 = 0)
      ∧ ((FVector.Distance E u.Location u.LastLocation < 1 ∧ u.StuckTime + DeltaTime ≤ 1) →
          (StuckCheck E u DeltaTime RandX RandY
              (FVector.GetSafeNormal E (FVector.sub u.TargetDestination u.Location))).2
            = u.StuckTime + DeltaTime) := by
  refine ⟨?_, ?_, ?_, ?_, ?_, ?_⟩
  · simp [UpdateMovement, hnot]
  · simp [UpdateMovement, hnot]
  · rintro ⟨h1, h2⟩
    simp [StuckCheck, hmov, h1, h2]
  · intro h
    unfold StuckCheck
    by_cases h1 : FVector.Distance E u.Location u.LastLocation < 1
    · have h2 : ¬ u.StuckTime + DeltaTime > 1 := fun h2 => h ⟨h1, h2⟩
      simp [hmov, h1, h2]
    · simp [h1]
  · intro h
    have h1 : ¬ FVector.Distance E u.Location u.LastLocation < 1 := not_lt.mpr h
    simp [StuckCheck, h1]
  · rintro ⟨h1, h2⟩
    have h3 : ¬ u.StuckTime + DeltaTime > 1 := not_lt.mpr h2
    simp [StuckCheck, hmov, h1, h3]

end AUnit

/-! ## The player character: theorems -/

namespace Aprototype1Character

theorem UpdateFlowField_fields (c : Aprototype1Character) :
    (UpdateFlowField c).Location = c.Location
      ∧ (UpdateFlowField c).TargetLocation = c.TargetLocation
      ∧ (UpdateFlowField c).bIsMoving = c.bIsMoving
      ∧ (UpdateFlowField c).bIsFirstPerson = c.bIsFirstPerson
      ∧ (UpdateFlowField c).FlowFieldUpdateInterval = c.FlowFieldUpdateInterval
      ∧ (UpdateFlowField c).TimeSinceLastFlowFieldUpdate = c.TimeSinceLastFlowFieldUpdate
      ∧ (UpdateFlowField c).Velocity = c.Velocity := by
  unfold UpdateFlowField
  split <;> exact ⟨rfl, rfl, rfl, rfl, rfl, rfl, rfl⟩

theorem FollowFlowField_fields (E : Engine)
    (G : AFlowFieldSystem → FVector → FVector) (c : Aprototype1Character) :
    (FollowFlowField E G c).Location = c.Location
      ∧ (FollowFlowField E G c).TargetLocation = c.TargetLocation
      ∧ (FollowFlowField E G c).bIsMoving = c.bIsMoving
      ∧ (FollowFlowField E G c).FlowFieldSystem = c.FlowFieldSystem
      ∧ (FollowFlowField E G c).FlowFieldUpdateInterval = c.FlowFieldUpdateInterval
      ∧ (FollowFlowField E G c).TimeSinceLastFlowFieldUpdate = c.TimeSinceLastFlowFieldUpdate
      ∧ (FollowFlowField E G c).Velocity = c.Velocity := by
  unfold FollowFlowField
  split
  · exact ⟨rfl, rfl, rfl, rfl, rfl, rfl, rfl⟩
  · simp only
    split_ifs <;> exact ⟨rfl, rfl, rfl, rfl, rfl, rfl, rfl⟩

theorem ArrivalStep_fields (E : Engine) (c : Aprototype1Character) :
    (ArrivalStep E c).FlowFieldSystem = c.FlowFieldSystem
      ∧ (ArrivalStep E c).FlowFieldUpdateInterval = c.FlowFieldUpdateInterval
      ∧ (ArrivalStep E c).TimeSinceLastFlowFieldUpdate = c.TimeSinceLastFlowFieldUpdate := by
  unfold ArrivalStep
  simp only
  split_ifs <;> exact ⟨rfl, rfl, rfl⟩

theorem RefreshStep_fields (DeltaTime : ℚ) (c : Aprototype1Character) :
    (RefreshStep DeltaTime c).Location = c.Location
      ∧ (RefreshStep DeltaTime c).TargetLocation = c.TargetLocation
      ∧ (RefreshStep DeltaTime c).bIsMoving = c.bIsMoving
      ∧ (RefreshStep DeltaTime c).FlowFieldUpdateInterval = c.FlowFieldUpdateInterval := by
  unfold RefreshStep
  simp only
  split_ifs
  · exact ⟨(UpdateFlowField_fields _).1, (UpdateFlowField_fields _).2.1,
      (UpdateFlowField_fields _).2.2.1, (UpdateFlowField_fields _).2.2.2.2.1⟩
  · exact ⟨rfl, rfl, rfl, rfl⟩

theorem RefreshStep_cases (DeltaTime : ℚ) (c : Aprototype1Character) :
    (c.FlowFieldUpdateInterval ≤ c.TimeSinceLastFlowFieldUpdate + DeltaTime
        ∧ (RefreshStep DeltaTime c).TimeSinceLastFlowFieldUpdate = 0)
      ∨ ((RefreshStep DeltaTime c).FlowFieldSystem = c.FlowFieldSystem
        ∧ (RefreshStep DeltaTime c).TimeSinceLastFlowFieldUpdate
            = c.TimeSinceLastFlowFieldUpdate + DeltaTime) := by
  unfold RefreshStep
  simp only
  split_ifs with h
  · exact Or.inl ⟨h, rfl⟩
  · exact Or.inr ⟨rfl, rfl⟩

theorem UpdateCalls_UpdateFlowField_le (c : Aprototype1Character) :
    UpdateCalls c ≤ UpdateCalls (UpdateFlowField c) := by
  unfold UpdateFlowField UpdateCalls
  cases c.FlowFieldSystem with
  | none => simp
  | some f => simp [AFlowFieldSystem.UpdateFlowField]

/-- What `Tick` leaves in the members read by the refresh logic: the interval
is never written; the timer is zero after a refresh, and otherwise it has grown
by `DeltaTime` (moving, third person) or is as before; the provider is asked to
regenerate only when the timer has reached the interval. -/
theorem Tick_refresh_cases (E : Engine) (G : AFlowFieldSystem → FVector → FVector)
    (DeltaTime : ℚ) (c : Aprototype1Character) :
    (Tick E G DeltaTime c).FlowFieldUpdateInterval = c.FlowFieldUpdateInterval
      ∧ ((c.FlowFieldUpdateInterval ≤ c.TimeSinceLastFlowFieldUpdate + DeltaTime
            ∧ (Tick E G DeltaTime c).TimeSinceLastFlowFieldUpdate = 0)
          ∨ (UpdateCalls (Tick E G DeltaTime c) = UpdateCalls c
            ∧ ((Tick E G DeltaTime c).TimeSinceLastFlowFieldUpdate
                  = c.TimeSinceLastFlowFieldUpdate + DeltaTime
                ∨ (Tick E G DeltaTime c).TimeSinceLastFlowFieldUpdate
                  = c.TimeSinceLastFlowFieldUpdate))) := by
  unfold Tick
  by_cases hm : (c.bIsMoving && !c.bIsFirstPerson) = true
  · simp only [hm, if_true]
    have ha := ArrivalStep_fields E (FollowFlowField E G (RefreshStep DeltaTime c))
    have hf := FollowFlowField_fields E G (RefreshStep DeltaTime c)
    have hr := RefreshStep_fields DeltaTime c
    refine ⟨by rw [ha.2.1, hf.2.2.2.2.1, hr.2.2.2], ?_⟩
    rcases RefreshStep_cases DeltaTime c with ⟨hge, hz⟩ | ⟨hs, ht⟩
    · exact Or.inl ⟨hge, by rw [ha.2.2, hf.2.2.2.2.2.1, hz]⟩
    · refine Or.inr ⟨?_, Or.inl (by rw [ha.2.2, hf.2.2.2.2.2.1, ht])⟩
      unfold UpdateCalls
      rw [ha.1, hf.2.2.2.1, hs]
  · simp only [hm]
    exact ⟨rfl, Or.inr ⟨rfl, Or.inr rfl⟩⟩

theorem MoveToLocation_fields (Destination : FVector) (Nav : Option FVector)
    (c : Aprototype1Character) :
    (MoveToLocation Destination Nav c).FlowFieldUpdateInterval = c.FlowFieldUpdateInterval
      ∧ (MoveToLocation Destination Nav c).TimeSinceLastFlowFieldUpdate
          = c.TimeSinceLastFlowFieldUpdate := by
  unfold MoveToLocation
  cases Nav with
  | none => exact ⟨rfl, rfl⟩
  | some n =>
    exact ⟨(UpdateFlowField_fields _).2.2.2.2.1, (UpdateFlowField_fields _).2.2.2.2.2.1⟩

theorem RefreshGaps_spacing (E : Engine) (G : AFlowFieldSystem → FVector → FVector)
    (calls : List Call) :
    ∀ (c : Aprototype1Character) (since : Option ℚ),
      (∀ dt, Call.Tick dt ∈ calls → 0 ≤ dt) →
      (∀ t, since = some t → c.TimeSinceLastFlowFieldUpdate ≤ t ∧ 0 ≤ t) →
      ∀ g ∈ RefreshGaps E G false c since calls, c.FlowFieldUpdateInterval ≤ g := by
  induction calls with
  | nil =>
    intro c since _ _ g hg
    simp [RefreshGaps] at hg
  | cons call rest ih =>
    intro c since hdt hinv g hg
    have hrest : ∀ dt, Call.Tick dt ∈ rest → 0 ≤ dt :=
      fun dt h => hdt dt (List.mem_cons_of_mem _ h)
    cases call with
    | MoveToLocation Destination Nav =>
      have hf := MoveToLocation_fields Destination Nav c
      simp only [RefreshGaps, Bool.false_eq_true, false_and, if_false] at hg
      have := ih (MoveToLocation Destination Nav c) since hrest
        (by intro t ht; rw [hf.2]; exact hinv t ht) g hg
      rw [hf.1] at this
      exact this
    | Tick DeltaTime =>
      have h0 : 0 ≤ DeltaTime := hdt DeltaTime (List.mem_cons_self _ _)
      have hc := Tick_refresh_cases E G DeltaTime c
      simp only [RefreshGaps] at hg
      by_cases hr : UpdateCalls c < UpdateCalls (Tick E G DeltaTime c)
      · simp only [hr, if_true] at hg
        rcases hc.2 with ⟨hge, hz⟩ | ⟨heq, _⟩
        · have hnext : ∀ g ∈ RefreshGaps E G false (Tick E G DeltaTime c) (some 0) rest,
              c.FlowFieldUpdateInterval ≤ g := by
            intro g hg
            have := ih (Tick E G DeltaTime c) (some 0) hrest
              (by
                intro t ht
                have h : t = 0 := (Option.some.inj ht).symm
                subst h
                exact ⟨le_of_eq hz, le_refl _⟩) g hg
            rw [hc.1] at this
            exact this
          cases since with
          | none => exact hnext g hg
          | some t =>
            simp only [List.mem_cons] at hg
            rcases hg with hg | hg
            · rw [hg]
              have := (hinv t rfl).1
              linarith
            · exact hnext g hg
        · rw [heq] at hr
          exact absurd hr (lt_irrefl _)
      · simp only [hr, if_false] at hg
        have := ih (Tick E G DeltaTime c) (since.map (fun t => t + DeltaTime)) hrest
          (by
            intro t ht
            cases since with
            | none => simp at ht
            | some t0 =>
              have h : t = t0 + DeltaTime := by simpa using ht.symm
              have hi := hinv t0 rfl
              subst h
              refine ⟨?_, by linarith⟩
              rcases hc.2 with ⟨_, hz⟩ | ⟨_, hz | hz⟩
              · rw [hz]
                linarith
              · rw [hz]
                linarith
              · rw [hz]
                linarith) g hg
        rw [hc.1] at this
        exact this

/-- C14 (as stated, refuted): two `MoveToLocation` calls in a row both refresh
the flow field; the tick time accumulated between the two refreshes is zero,
less than the interval of one half. -/
theorem RefreshGaps_move_too_soon :
    RefreshGaps sampleEngine sampleFlowDirection true sampleCharacter none
        [Call.MoveToLocation ⟨100, 0, 0⟩ (some ⟨100, 0, 0⟩),
          Call.MoveToLocation ⟨90, 0, 0⟩ (some ⟨90, 0, 0⟩)] = [0]
      ∧ (0 : ℚ) < sampleCharacter.FlowFieldUpdateInterval := by
  constructor
  · simp [RefreshGaps, MoveToLocation, UpdateFlowField, UpdateCalls, sampleCharacter,
      AFlowFieldSystem.UpdateFlowField]
  · norm_num [sampleCharacter]

/-- C15: in a tick of a moving character in third-person view, a distance to
`TargetLocation` strictly below 100 gives `bIsMoving = false` and zero velocity
after the tick, for every provider and every direction it returns; a distance
of 100 or more leaves `bIsMoving` true. -/
theorem Tick_arrival (E : Engine) (G : AFlowFieldSystem → FVector → FVector)
    (DeltaTime : ℚ) (c : Aprototype1Character)
    (hmov : c.bIsMoving = true) (hfp : c.bIsFirstPerson = false) :
    (FVector.Distance E c.Location c.TargetLocation < 100 →
        (Tick E G DeltaTime c).bIsMoving = false
          ∧ (Tick E G DeltaTime c).Velocity = FVector.ZeroVector)
      ∧ (100 ≤ FVector.Distance E c.Location c.TargetLocation →
        (Tick E G DeltaTime c).bIsMoving = true) := by
  have hf := FollowFlowField_fields E G (RefreshStep DeltaTime c)
  have hr := RefreshStep_fields DeltaTime c
  have hT : Tick E G DeltaTime c
      = ArrivalStep E (FollowFlowField E G (RefreshStep DeltaTime c)) := by
    simp [Tick, hmov, hfp]
  have hd : FVector.Distance E (FollowFlowField E G (RefreshStep DeltaTime c)).Location
      (FollowFlowField E G (RefreshStep DeltaTime c)).TargetLocation
        = FVector.Distance E c.Location c.TargetLocation := by
    rw [hf.1, hf.2.1, hr.1, hr.2.1]
  rw [hT]
  unfold ArrivalStep
  simp only [hd]
  constructor
  · intro h
    simp [h]
  · intro h
    simp only [not_lt.mpr h, if_false]
    rw [hf.2.2.1, hr.2.2.1, hmov]

end Aprototype1Character

/-! ## Evaluations on the sample scene -/

theorem sampleSqrt_mul_self (q : ℚ) (hq : 0 ≤ q) : sampleSqrt (q * q) = q := by
  have hn : 0 ≤ q.num := Rat.num_nonneg.mpr hq
  obtain ⟨n, hn2⟩ := Int.eq_ofNat_of_zero_le hn
  have hnum : (q * q).num.toNat = n * n := by
    rw [Rat.mul_self_num, hn2]
    exact_mod_cast Int.toNat_natCast (n * n)
  have hsq : sampleNatSqrt (n * n * (q.den * q.den)) = n * q.den := by
    have : n * n * (q.den * q.den) = (n * q.den) * (n * q.den) := by ring
    rw [sampleNatSqrt_eq, this, Nat.sqrt_eq]
  have hden : (q.den : ℚ) ≠ 0 := by exact_mod_cast q.den_nz
  have hq2 : ((n : ℚ)) / (q.den : ℚ) = q := by
    have := Rat.num_div_den q
    rw [hn2] at this
    exact_mod_cast this
  unfold sampleSqrt
  rw [hnum, Rat.mul_self_den, hsq]
  push_cast
  rw [mul_div_mul_right _ _ hden]
  exact hq2

namespace AUnit

theorem UpdateMovement_stuck_witness :
    StuckCheck sampleEngine
        { sampleUnit 1 ⟨0, 0, 0⟩ with
          bIsMoving := true, TargetDestination := ⟨500, 0, 0⟩, StuckTime := 99 / 100 }
        (1 / 60) (1 / 10) (-1 / 5)
        (FVector.GetSafeNormal sampleEngine (FVector.sub ⟨500, 0, 0⟩ ⟨0, 0, 0⟩))
      = (FVector.Normalize sampleEngine
          (FVector.add
            (FVector.GetSafeNormal sampleEngine (FVector.sub ⟨500, 0, 0⟩ ⟨0, 0, 0⟩))
            ⟨1 / 10, -1 / 5, 0⟩), 0) :=
  (UpdateMovement_stuck sampleEngine sampleWorld.Units (1 / 10) (-1 / 5) (1 / 60)
    { sampleUnit 1 ⟨0, 0, 0⟩ with
      bIsMoving := true, TargetDestination := ⟨500, 0, 0⟩, StuckTime := 99 / 100 } rfl
    (by
      have h500 := sampleSqrt_sq 500
      norm_num at h500
      simp only [HasReachedDestination, FVector.Distance, FVector.sub, FVector.SizeSquared,
        sampleUnit, construct, BeginPlay, sampleEngine]
      norm_num [h500])).2.2.1
    ⟨by
      have h0 := sampleSqrt_sq 0
      norm_num at h0
      simp only [FVector.Distance, FVector.sub, FVector.SizeSquared, sampleUnit, construct,
        BeginPlay, sampleEngine]
      norm_num [h0],
     by norm_num⟩

end AUnit

namespace Aprototype1Character

theorem Tick_arrival_witness :
    (Tick sampleEngine sampleFlowDirection (1 / 60)
        { sampleCharacter with
          Location := ⟨450, 0, 0⟩, TargetLocation := ⟨500, 0, 0⟩, bIsMoving := true,
          Velocity := ⟨500, 0, 0⟩ }).bIsMoving = false
      ∧ (Tick sampleEngine sampleFlowDirection (1 / 60)
        { sampleCharacter with
          Location := ⟨450, 0, 0⟩, TargetLocation := ⟨500, 0, 0⟩, bIsMoving := true,
          Velocity := ⟨500, 0, 0⟩ }).Velocity = FVector.ZeroVector :=
  (Tick_arrival sampleEngine sampleFlowDirection (1 / 60)
    { sampleCharacter with
      Location := ⟨450, 0, 0⟩, TargetLocation := ⟨500, 0, 0⟩, bIsMoving := true,
      Velocity := ⟨500, 0, 0⟩ } rfl rfl).1
    (by
      have h50 := sampleSqrt_sq 50
      norm_num at h50
      simp only [FVector.Distance, FVector.sub, FVector.SizeSquared, sampleEngine]
      norm_num [h50])

end Aprototype1Character

/-! ## Selection visuals: theorems -/

namespace AUnitController

/-- C20 (the code at the failing input): in the sample world, selecting unit 1
with a first drag and then unit 3 with a second drag leaves `SelectedUnits`
equal to `[3]` while unit 1 still shows its selected material (material 1, its
default one being material 0): `StartSelection` empties `SelectedUnits` without
`SetSelected(false)`, and the later recomputes deselect members only. -/
theorem Run_stale_selected_material :
    (Run (sampleWorld, sampleUnitController)
        [Call.StartSelection ⟨0, 0⟩, Call.UpdateSelection ⟨100, 100⟩, Call.EndSelection,
          Call.StartSelection ⟨300, 0⟩, Call.UpdateSelection ⟨500, 100⟩,
          Call.EndSelection]).2.SelectedUnits = [3]
      ∧ (Run (sampleWorld, sampleUnitController)
        [Call.StartSelection ⟨0, 0⟩, Call.UpdateSelection ⟨100, 100⟩, Call.EndSelection,
          Call.StartSelection ⟨300, 0⟩, Call.UpdateSelection ⟨500, 100⟩,
          Call.EndSelection]).1.Units.map
            (fun u => (u.Id, u.MeshMaterial, u.DefaultMaterial, u.SelectedMaterial))
        = [(1, some 1, some 0, some 1), (2, some 0, some 0, some 1),
            (3, some 1, some 0, some 1)] := by
  constructor <;> decide

end AUnitController

/-! ## Neighbour repulsion: theorems -/

namespace AUnit

theorem AvoidanceLoop_filter (E : Engine) (self : AUnit) (loc : FVector) (L : List AUnit) :
    ∀ acc : FVector × Nat,
      AvoidanceLoop E self loc L acc
        = AvoidanceLoop E self loc
            (L.filter (fun v => decide (v.Id ≠ self.Id)
              && decide (FVector.Distance E loc v.Location < self.AvoidanceRadius))) acc := by
  induction L with
  | nil => intro acc; rfl
  | cons v rest ih =>
    intro acc
    obtain ⟨a, n⟩ := acc
    by_cases hid : v.Id = self.Id
    · simp only [List.filter_cons, hid, ne_eq, not_true_eq_false, decide_False, Bool.false_and,
        Bool.false_eq_true, if_false, AvoidanceLoop]
      exact ih (a, n)
    · by_cases hd : FVector.Distance E loc v.Location < self.AvoidanceRadius
      · simp only [List.filter_cons, hid, ne_eq, not_false_eq_true, decide_True, hd,
          Bool.and_self, if_true, AvoidanceLoop]
        exact ih _
      · simp only [List.filter_cons, hid, ne_eq, not_false_eq_true, decide_True, hd,
          decide_False, Bool.and_false, Bool.false_eq_true, if_false, AvoidanceLoop]
        exact ih (a, n)

theorem SizeSquared_scale (a : FVector) (k : ℚ) :
    FVector.SizeSquared (FVector.scale a k) = k * k * FVector.SizeSquared a := by
  simp only [FVector.SizeSquared, FVector.scale]
  ring

theorem GetSafeNormal_of_distance (E : Engine) (a : FVector) (d : ℚ)
    (hE : ∀ q : ℚ, 0 ≤ q → E.Sqrt (q * q) = q)
    (hd : FVector.SizeSquared a = d * d) (hd0 : 0 ≤ d)
    (htol : FVector.SMALL_NUMBER ≤ d * d) :
    FVector.GetSafeNormal E a = FVector.scale a (1 / d) := by
  unfold FVector.GetSafeNormal
  simp only [hd, hE d hd0]
  by_cases h1 : d * d = 1
  · have hd1 : d = 1 := by nlinarith
    simp [hd1, FVector.scale]
  · simp [h1, not_lt.mpr htol]

/-- The step of the neighbour loop for one other unit at an exact distance `d`
within the radius and not below the normalisation tolerance. -/
theorem AvoidanceLoop_near (E : Engine) (self other : AUnit) (d : ℚ) (acc : FVector) (n : Nat)
    (rest : List AUnit)
    (hE : ∀ q : ℚ, 0 ≤ q → E.Sqrt (q * q) = q)
    (hid : other.Id ≠ self.Id)
    (hd : FVector.SizeSquared (FVector.sub self.Location other.Location) = d * d)
    (hd0 : 0 ≤ d) (hR : d < self.AvoidanceRadius) (htol : FVector.SMALL_NUMBER ≤ d * d) :
    AvoidanceLoop E self self.Location (other :: rest) (acc, n)
      = AvoidanceLoop E self self.Location rest
          (FVector.add acc
            (FVector.scale (FVector.scale (FVector.sub self.Location other.Location) (1 / d))
              (Square (1 - d / self.AvoidanceRadius))), n + 1) := by
  have hdist : FVector.Distance E self.Location other.Location = d := by
    unfold FVector.Distance
    rw [hd, hE d hd0]
  simp only [AvoidanceLoop, ne_eq, hid, not_false_eq_true, if_true, hdist, hR,
    GetSafeNormal_of_distance E _ d hE hd hd0 htol]

/-- In the rational model, for a unit and another unit at an exact distance `d` with
`d * d` not below the normalisation tolerance `SMALL_NUMBER` and
`d < AvoidanceRadius`, the repulsion added by the neighbour loop is the
difference of the locations scaled to unit length, times
`(1 - d / AvoidanceRadius)²`, and it is not the zero vector; when the other unit
is the only one within the radius the blend factor is
`min ((1 - d / AvoidanceRadius)²) 0.7`, which is positive. A unit at a distance
of `AvoidanceRadius` or more adds nothing. -/
theorem AvoidanceLoop_repulsion (E : Engine) (self other : AUnit) (d : ℚ)
    (NearbyUnits : List AUnit)
    (hE : ∀ q : ℚ, 0 ≤ q → E.Sqrt (q * q) = q)
    (hid : other.Id ≠ self.Id)
    (hd : FVector.SizeSquared (FVector.sub self.Location other.Location) = d * d)
    (hd0 : 0 < d) (hR : d < self.AvoidanceRadius) (htol : FVector.SMALL_NUMBER ≤ d * d) :
    (∀ acc n, AvoidanceLoop E self self.Location [other] (acc, n)
        = (FVector.add acc
            (FVector.scale (FVector.scale (FVector.sub self.Location other.Location) (1 / d))
              (Square (1 - d / self.AvoidanceRadius))), n + 1))
      ∧ FVector.SizeSquared
          (FVector.scale (FVector.sub self.Location other.Location) (1 / d)) = 1
      ∧ FVector.scale (FVector.scale (FVector.sub self.Location other.Location) (1 / d))
          (Square (1 - d / self.AvoidanceRadius)) ≠ FVector.ZeroVector
      ∧ (NearbyUnits.filter (fun v => decide (v.Id ≠ self.Id)
            && decide (FVector.Distance E self.Location v.Location < self.AvoidanceRadius))
          = [other] →
          BlendFactor E self NearbyUnits = min (Square (1 - d / self.AvoidanceRadius)) (7 / 10)
            ∧ 0 < BlendFactor E self NearbyUnits)
      ∧ (∀ far : AUnit, ∀ acc n,
          self.AvoidanceRadius ≤ FVector.Distance E self.Location far.Location →
          AvoidanceLoop E self self.Location [far] (acc, n) = (acc, n)) := by
  have hdne : d ≠ 0 := ne_of_gt hd0
  have hRpos : 0 < self.AvoidanceRadius := lt_trans hd0 hR
  have hk : 0 < 1 - d / self.AvoidanceRadius := by
    have : d / self.AvoidanceRadius < 1 := (div_lt_one hRpos).mpr hR
    linarith
  have hsq : 0 < Square (1 - d / self.AvoidanceRadius) := by
    unfold Square
    exact mul_pos hk hk
  have hunit : FVector.SizeSquared
      (FVector.scale (FVector.sub self.Location other.Location) (1 / d)) = 1 := by
    rw [SizeSquared_scale, hd]
    field_simp
  have hsize : FVector.SizeSquared
      (FVector.scale (FVector.scale (FVector.sub self.Location other.Location) (1 / d))
        (Square (1 - d / self.AvoidanceRadius)))
      = Square (1 - d / self.AvoidanceRadius) * Square (1 - d / self.AvoidanceRadius) := by
    rw [SizeSquared_scale, hunit, mul_one]
  have hloop : ∀ acc n, AvoidanceLoop E self self.Location [other] (acc, n)
      = (FVector.add acc
          (FVector.scale (FVector.scale (FVector.sub self.Location other.Location) (1 / d))
            (Square (1 - d / self.AvoidanceRadius))), n + 1) := by
    intro acc n
    rw [AvoidanceLoop_near E self other d acc n [] hE hid hd (le_of_lt hd0) hR htol]
    rfl
  refine ⟨hloop, hunit, ?_, ?_, ?_⟩
  · intro hz
    rw [hz] at hsize
    have : FVector.SizeSquared FVector.ZeroVector = 0 := by
      simp [FVector.SizeSquared, FVector.ZeroVector]
    rw [this] at hsize
    have := mul_pos hsq hsq
    linarith
  · intro hN
    have hb : BlendFactor E self NearbyUnits
        = Clamp (Square (1 - d / self.AvoidanceRadius)) 0 (7 / 10) := by
      unfold BlendFactor AveragedAvoidance
      rw [AvoidanceLoop_filter, hN, hloop]
      have hv : FVector.divide (FVector.add FVector.ZeroVector
          (FVector.scale (FVector.scale (FVector.sub self.Location other.Location) (1 / d))
            (Square (1 - d / self.AvoidanceRadius)))) (((0 + 1 : ℕ)) : ℚ)
          = FVector.scale (FVector.scale (FVector.sub self.Location other.Location) (1 / d))
            (Square (1 - d / self.AvoidanceRadius)) := by
        simp [FVector.divide, FVector.add, FVector.ZeroVector, FVector.scale]
      simp only [hv, FVector.Size, hsize, hE _ (le_of_lt hsq)]
    rw [hb]
    unfold Clamp
    have hn : ¬ Square (1 - d / self.AvoidanceRadius) < 0 := not_lt.mpr (le_of_lt hsq)
    simp only [hn, if_false]
    split_ifs with h
    · exact ⟨(min_eq_left (le_of_lt h)).symm, hsq⟩
    · exact ⟨(min_eq_right (not_lt.mp h)).symm, by norm_num⟩
  · intro far acc n hfar
    by_cases hidf : far.Id = self.Id
    · simp [AvoidanceLoop, hidf]
    · simp [AvoidanceLoop, hidf, not_lt.mpr hfar]

end AUnit

/-! ## Rotation: theorems -/

namespace AUnit

theorem UpdateMovement_Rotation (E : Engine) (NearbyUnits : List AUnit) (RandX RandY : ℚ)
    (DeltaTime : ℚ) (u : AUnit) (hnot : HasReachedDestination E u = false) :
    (UpdateMovement E NearbyUnits RandX RandY DeltaTime u).Rotation
      = E.RInterpTo u.Rotation
          (E.Rotation (FinalDirection E u NearbyUnits
            (StuckCheck E u DeltaTime RandX RandY
              (FVector.GetSafeNormal E (FVector.sub u.TargetDestination u.Location))).1))
          DeltaTime u.RotationSpeed := by
  simp [UpdateMovement, hnot]

/-- C18 (the code at the failing input): unit 1 at the origin with yaw 90,
ordered to `(500, 0, 0)`, with unit 2 standing 32.0775 units ahead on the line
to the destination. The blend of `DirectionToTarget` and the avoidance vector
is shorter than the normalisation tolerance, so `FinalDirection` is the zero
vector; the tick still computes a heading from it and turns the unit from yaw
90 to yaw 78. -/
theorem UpdateMovement_zero_direction_turns :
    FinalDirection sampleEngine sampleMover [sampleMover, sampleBlocker]
        (StuckCheck sampleEngine sampleMover (1 / 60) 0 0
          (FVector.GetSafeNormal sampleEngine
            (FVector.sub sampleMover.TargetDestination sampleMover.Location))).1
        = FVector.ZeroVector
      ∧ sampleMover.Rotation = ⟨0, 90, 0⟩
      ∧ (UpdateMovement sampleEngine [sampleMover, sampleBlocker] 0 0 (1 / 60)
          sampleMover).Rotation = ⟨0, 78, 0⟩ := by
  refine ⟨?_, rfl, ?_⟩ <;> decide!

end AUnit

/-! ## The kinematic scenario: theorems -/

namespace AUnit

theorem AvoidCount_alone (E : Engine) (u : AUnit) : AvoidCount E u [u] = 0 := by
  simp [AvoidCount, AvoidanceLoop]

theorem FinalDirection_alone (E : Engine) (u : AUnit) (d : FVector) :
    FinalDirection E u [u] d = d := by
  simp [FinalDirection, AvoidCount_alone]

theorem FVector_add_sub_add (p a x : FVector) :
    FVector.add p (FVector.sub (FVector.add a x) a) = FVector.add p x := by
  simp only [FVector.add, FVector.sub, FVector.mk.injEq]
  refine ⟨?_, ?_, ?_⟩ <;> ring

theorem FVector_add_sub_self (p a : FVector) : FVector.add p (FVector.sub a a) = p := by
  simp only [FVector.add, FVector.sub, sub_self, add_zero]

theorem SizeSquared_sub_comm (a b : FVector) :
    FVector.SizeSquared (FVector.sub a b) = FVector.SizeSquared (FVector.sub b a) := by
  simp only [FVector.SizeSquared, FVector.sub]
  ring

theorem SizeSquared_nonneg (a : FVector) : 0 ≤ FVector.SizeSquared a := by
  simp only [FVector.SizeSquared]
  nlinarith [mul_self_nonneg a.X, mul_self_nonneg a.Y, mul_self_nonneg a.Z]

/-- A tick of a unit that is not moving changes nothing. -/
theorem KinematicTick_idle (E : Engine) (RandX RandY DeltaTime : ℚ) (u : AUnit)
    (hm : u.bIsMoving = false) : KinematicTick E [u] RandX RandY DeltaTime u = u := by
  cases u
  simp_all [KinematicTick, Tick, FVector_add_sub_self]

/-- A tick of a moving unit that has reached its destination stops it where
it is. -/
theorem KinematicTick_reached (E : Engine) (RandX RandY DeltaTime : ℚ) (u : AUnit)
    (hm : u.bIsMoving = true) (hr : HasReachedDestination E u = true) :
    Arrived E (KinematicTick E [u] RandX RandY DeltaTime u) := by
  have hd : FVector.Distance E u.Location u.TargetDestination ≤ u.AcceptanceRadius := by
    simpa [HasReachedDestination] using hr
  simp only [Arrived, KinematicTick, Tick, hm, if_true, UpdateMovement, hr,
    FVector_add_sub_self]
  exact ⟨trivial, hd⟩

/-- A tick of a lone moving unit that has not reached its destination: the
unit keeps moving, keeps its order and configuration, and is displaced along
the direction left by the stuck check. -/
theorem KinematicTick_moving (E : Engine) (RandX RandY DeltaTime : ℚ) (u : AUnit)
    (hm : u.bIsMoving = true) (hr : HasReachedDestination E u = false) :
    (KinematicTick E [u] RandX RandY DeltaTime u).bIsMoving = true
      ∧ (KinematicTick E [u] RandX RandY DeltaTime u).TargetDestination = u.TargetDestination
      ∧ (KinematicTick E [u] RandX RandY DeltaTime u).AcceptanceRadius = u.AcceptanceRadius
      ∧ (KinematicTick E [u] RandX RandY DeltaTime u).MovementSpeed = u.MovementSpeed
      ∧ (KinematicTick E [u] RandX RandY DeltaTime u).LastLocation = u.Location
      ∧ (KinematicTick E [u] RandX RandY DeltaTime u).StuckTime
          = (StuckCheck E u DeltaTime RandX RandY
              (FVector.GetSafeNormal E (FVector.sub u.TargetDestination u.Location))).2
      ∧ (KinematicTick E [u] RandX RandY DeltaTime u).Location
          = FVector.add u.Location
              (FVector.scale (FVector.scale
                (StuckCheck E u DeltaTime RandX RandY
                  (FVector.GetSafeNormal E (FVector.sub u.TargetDestination u.Location))).1
                u.MovementSpeed) DeltaTime) := by
  simp only [KinematicTick, Tick, hm, if_true, UpdateMovement, hr, Bool.false_eq_true,
    if_false, FinalDirection_alone, FVector_add_sub_add, and_self]

/-- Once arrived, a lone unit stays as it is. -/
theorem RunAlone_stays (E : Engine) (Rand : ℕ → ℚ × ℚ) (DeltaTime : ℚ) (u : AUnit) (n : ℕ)
    (ha : Arrived E (RunAlone E Rand DeltaTime n u)) :
    ∀ m, n ≤ m → RunAlone E Rand DeltaTime m u = RunAlone E Rand DeltaTime n u := by
  intro m hm
  induction m with
  | zero =>
    have : n = 0 := Nat.le_zero.mp hm
    subst this
    rfl
  | succ k ih =>
    by_cases hk : n ≤ k
    · have h := ih hk
      simp only [RunAlone]
      rw [h, KinematicTick_idle E _ _ _ _ ha.1]
    · have : n = k + 1 := by omega
      subst this
      rfl

/-- The descent argument: an invariant of the moving unit with a non-negative
measure that drops by a fixed positive amount in every tick that does not end
in arrival forces an arrival. -/
theorem RunAlone_descent (E : Engine) (Rand : ℕ → ℚ × ℚ) (DeltaTime : ℚ) (u0 : AUnit)
    (Inv : AUnit → Prop) (μ : AUnit → ℚ) (c : ℚ) (hc : 0 < c)
    (hRand : ∀ n, |(Rand n).1| ≤ 3 / 10 ∧ |(Rand n).2| ≤ 3 / 10)
    (h0 : Inv u0) (hpos : ∀ u, Inv u → 0 ≤ μ u)
    (hstep : ∀ u rx ry, |rx| ≤ 3 / 10 → |ry| ≤ 3 / 10 → Inv u →
      Arrived E (KinematicTick E [u] rx ry DeltaTime u)
        ∨ (Inv (KinematicTick E [u] rx ry DeltaTime u)
          ∧ μ (KinematicTick E [u] rx ry DeltaTime u) ≤ μ u - c)) :
    ∃ n, Arrived E (RunAlone E Rand DeltaTime n u0) := by
  have key : ∀ n : ℕ, (∃ k, Arrived E (RunAlone E Rand DeltaTime k u0))
      ∨ (Inv (RunAlone E Rand DeltaTime n u0)
        ∧ μ (RunAlone E Rand DeltaTime n u0) ≤ μ u0 - n * c) := by
    intro n
    induction n with
    | zero => exact Or.inr ⟨h0, by simp [RunAlone]⟩
    | succ k ih =>
      rcases ih with h | ⟨hi, hμ⟩
      · exact Or.inl h
      · rcases hstep _ (Rand k).1 (Rand k).2 (hRand k).1 (hRand k).2 hi with h | ⟨hi2, hμ2⟩
        · exact Or.inl ⟨k + 1, h⟩
        · refine Or.inr ⟨hi2, ?_⟩
          simp only [RunAlone]
          push_cast
          linarith
  obtain ⟨n, hn⟩ := exists_nat_gt (μ u0 / c)
  rcases key n with h | ⟨hi, hμ⟩
  · exact h
  · exfalso
    have h1 := hpos _ hi
    have h2 : μ u0 < n * c := by
      have := (div_lt_iff₀ hc).mp hn
      linarith
    linarith


theorem Distance_onAxis (E : Engine) (hE : ∀ q : ℚ, 0 ≤ q → E.Sqrt (q * q) = q)
    (a b : FVector) (hy : a.Y = b.Y) (hz : a.Z = b.Z) :
    FVector.Distance E a b = |a.X - b.X| := by
  unfold FVector.Distance
  have h : FVector.SizeSquared (FVector.sub a b) = |a.X - b.X| * |a.X - b.X| := by
    simp only [FVector.SizeSquared, FVector.sub, hy, hz, sub_self, mul_zero, add_zero,
      abs_mul_abs_self]
  rw [h, hE _ (abs_nonneg _)]

theorem GetSafeNormal_onAxis (E : Engine) (hE : ∀ q : ℚ, 0 ≤ q → E.Sqrt (q * q) = q)
    (g : ℚ) (hg : 50 < g) : FVector.GetSafeNormal E ⟨g, 0, 0⟩ = ⟨1, 0, 0⟩ := by
  have hsq : FVector.SizeSquared ⟨g, 0, 0⟩ = g * g := by
    simp [FVector.SizeSquared]
  have hbig : (2500 : ℚ) < g * g := by nlinarith
  have h1 : ¬ g * g = 1 := by intro h; linarith
  have h2 : ¬ g * g < FVector.SMALL_NUMBER := by
    unfold FVector.SMALL_NUMBER
    intro h
    linarith
  have hg0 : g ≠ 0 := by intro h; rw [h] at hg; linarith
  unfold FVector.GetSafeNormal
  simp only [hsq, h1, h2, if_false, hE g (by linarith), FVector.scale, FVector.mk.injEq,
    zero_mul, and_true]
  field_simp

/-- One tick of the scenario unit while it advances along the axis in steps
of at least one and at most a hundred units: it arrives, or it is one step
further along the axis. -/
theorem OnAxis_step (E : Engine) (hE : ∀ q : ℚ, 0 ≤ q → E.Sqrt (q * q) = q)
    (DeltaTime s rx ry : ℚ) (u : AUnit) (hs : s = 400 * DeltaTime) (h1 : 1 ≤ s)
    (h100 : s ≤ 100) (hinv : OnAxis DeltaTime s u) :
    Arrived E (KinematicTick E [u] rx ry DeltaTime u)
      ∨ (OnAxis DeltaTime s (KinematicTick E [u] rx ry DeltaTime u)
        ∧ 550 - (KinematicTick E [u] rx ry DeltaTime u).Location.X
            ≤ 550 - u.Location.X - s) := by
  obtain ⟨hm, ht, hr, hsp, hy, hz, hly, hlz, hx, hlast⟩ := hinv
  by_cases hreach : HasReachedDestination E u = true
  · exact Or.inl (KinematicTick_reached E rx ry DeltaTime u hm hreach)
  · have hreach' : HasReachedDestination E u = false := by simpa using hreach
    have hdist : FVector.Distance E u.Location u.TargetDestination = |u.Location.X - 500| := by
      rw [Distance_onAxis E hE _ _ (by rw [ht, hy]) (by rw [ht, hz]), ht]
    have hfar : 50 < |u.Location.X - 500| := by
      have : ¬ FVector.Distance E u.Location u.TargetDestination ≤ u.AcceptanceRadius := by
        simpa [HasReachedDestination] using hreach'
      rw [hdist, hr] at this
      exact not_le.mp this
    have hx450 : u.Location.X < 450 := by
      rcases lt_abs.mp hfar with h | h <;> linarith
    have hsub : FVector.sub u.TargetDestination u.Location = ⟨500 - u.Location.X, 0, 0⟩ := by
      simp [FVector.sub, ht, hy, hz]
    have hdir : FVector.GetSafeNormal E (FVector.sub u.TargetDestination u.Location)
        = ⟨1, 0, 0⟩ := by
      rw [hsub]
      exact GetSafeNormal_onAxis E hE _ (by linarith)
    have hmoved : FVector.Distance E u.Location u.LastLocation
        = |u.Location.X - u.LastLocation.X| :=
      Distance_onAxis E hE _ _ (by rw [hy, hly]) (by rw [hz, hlz])
    have hstuck : (StuckCheck E u DeltaTime rx ry ⟨1, 0, 0⟩).1 = ⟨1, 0, 0⟩ := by
      unfold StuckCheck
      rw [hmoved]
      rcases hlast with ⟨hl, hτ⟩ | hl
      · have : ¬ u.StuckTime + DeltaTime > 1 := not_lt.mpr hτ
        simp [hl, hm, this]
      · have : ¬ |s| < 1 := by
          rw [abs_of_nonneg (by linarith)]
          exact not_lt.mpr h1
        simp [hl, this]
    have hk := KinematicTick_moving E rx ry DeltaTime u hm hreach'
    rw [hdir] at hk
    obtain ⟨k1, k2, k3, k4, k5, _, k7⟩ := hk
    rw [hstuck] at k7
    have hX : (KinematicTick E [u] rx ry DeltaTime u).Location.X = u.Location.X + s := by
      rw [k7, hsp, hs]
      simp [FVector.add, FVector.scale]
    have hY : (KinematicTick E [u] rx ry DeltaTime u).Location.Y = 0 := by
      rw [k7]
      simp [FVector.add, FVector.scale, hy]
    have hZ : (KinematicTick E [u] rx ry DeltaTime u).Location.Z = 0 := by
      rw [k7]
      simp [FVector.add, FVector.scale, hz]
    refine Or.inr ⟨⟨k1, k2.trans ht, k3.trans hr, k4.trans hsp, hY, hZ, ?_, ?_, ?_, Or.inr ?_⟩, ?_⟩
    · rw [k5, hy]
    · rw [k5, hz]
    · rw [hX]
      linarith
    · rw [hX, k5]
      ring
    · rw [hX]
      linarith


/-- A step straight towards the target, of length below one, taken further
than fifty units away with a square root that does not overestimate, lowers
the squared distance by at least `20000 * DeltaTime`. -/
theorem SizeSquared_step_toward (p t : FVector) (σ DeltaTime : ℚ) (hσ : 50 < σ)
    (hσW : σ * σ ≤ FVector.SizeSquared (FVector.sub t p))
    (hdt : 0 < DeltaTime) (hg : 400 * DeltaTime < 1) :
    FVector.SizeSquared (FVector.sub
        (FVector.add p
          (FVector.scale (FVector.scale (FVector.scale (FVector.sub t p) (1 / σ)) 400)
            DeltaTime)) t)
      ≤ FVector.SizeSquared (FVector.sub p t) - 20000 * DeltaTime := by
  have hσ0 : σ ≠ 0 := by intro h; rw [h] at hσ; linarith
  have hW : FVector.SizeSquared (FVector.sub t p) = FVector.SizeSquared (FVector.sub p t) :=
    SizeSquared_sub_comm t p
  rw [hW] at hσW
  have hexp : FVector.SizeSquared (FVector.sub
        (FVector.add p
          (FVector.scale (FVector.scale (FVector.scale (FVector.sub t p) (1 / σ)) 400)
            DeltaTime)) t)
      = FVector.SizeSquared (FVector.sub p t)
          * ((1 - 1 / σ * 400 * DeltaTime) * (1 - 1 / σ * 400 * DeltaTime)) := by
    simp only [FVector.SizeSquared, FVector.sub, FVector.add, FVector.scale]
    ring
  rw [hexp]
  have heσ : 1 / σ * 400 * DeltaTime * σ = 400 * DeltaTime := by
    field_simp
  have he0 : 0 < 1 / σ * 400 * DeltaTime := by positivity
  have he1 : 1 / σ * 400 * DeltaTime ≤ 1 := by
    by_contra h
    have h' : 1 < 1 / σ * 400 * DeltaTime := not_le.mp h
    have : σ < 1 / σ * 400 * DeltaTime * σ := by nlinarith
    rw [heσ] at this
    linarith
  have h1 : σ * σ * (1 / σ * 400 * DeltaTime)
      ≤ FVector.SizeSquared (FVector.sub p t) * (1 / σ * 400 * DeltaTime) :=
    mul_le_mul_of_nonneg_right hσW (le_of_lt he0)
  have h2 : σ * σ * (1 / σ * 400 * DeltaTime) = σ * (400 * DeltaTime) := by
    rw [← heσ]
    ring
  have h3 : 50 * (400 * DeltaTime) ≤ σ * (400 * DeltaTime) := by nlinarith
  have h4 : 0 ≤ FVector.SizeSquared (FVector.sub p t) * (1 / σ * 400 * DeltaTime)
      * (1 - 1 / σ * 400 * DeltaTime) :=
    mul_nonneg (mul_nonneg (SizeSquared_nonneg _) (le_of_lt he0)) (by linarith)
  nlinarith [h1, h2, h3, h4]

/-- The perturbed direction is not short: with a square root that does not
overestimate and offsets of at most 0.3, the scaled difference plus the offset
has squared length at least one tenth. -/
theorem SizeSquared_perturbed_lower (p t : FVector) (σ rx ry : ℚ) (hz : p.Z = t.Z)
    (hσ : 0 < σ) (hσW : σ * σ ≤ FVector.SizeSquared (FVector.sub t p))
    (hrx : |rx| ≤ 3 / 10) (hry : |ry| ≤ 3 / 10) :
    1 / 10 ≤ FVector.SizeSquared
      (FVector.add (FVector.scale (FVector.sub t p) (1 / σ)) ⟨rx, ry, 0⟩) := by
  have hσ0 : σ ≠ 0 := ne_of_gt hσ
  obtain ⟨hrx1, hrx2⟩ := abs_le.mp hrx
  obtain ⟨hry1, hry2⟩ := abs_le.mp hry
  simp only [FVector.SizeSquared, FVector.sub, FVector.add, FVector.scale, hz, sub_self,
    zero_mul, add_zero, mul_zero] at hσW ⊢
  have hi : 0 < 1 / σ := by positivity
  have hiσ : 1 / σ * σ = 1 := by field_simp
  -- the scaled components
  have hm : 1 ≤ (t.X - p.X) * (1 / σ) * ((t.X - p.X) * (1 / σ))
      + (t.Y - p.Y) * (1 / σ) * ((t.Y - p.Y) * (1 / σ)) := by
    have h : (t.X - p.X) * (1 / σ) * ((t.X - p.X) * (1 / σ))
        + (t.Y - p.Y) * (1 / σ) * ((t.Y - p.Y) * (1 / σ))
        = ((t.X - p.X) * (t.X - p.X) + (t.Y - p.Y) * (t.Y - p.Y)) * (1 / σ * (1 / σ)) := by
      ring
    rw [h]
    have h2 : σ * σ * (1 / σ * (1 / σ)) = 1 := by field_simp
    have h3 : σ * σ * (1 / σ * (1 / σ))
        ≤ ((t.X - p.X) * (t.X - p.X) + (t.Y - p.Y) * (t.Y - p.Y)) * (1 / σ * (1 / σ)) :=
      mul_le_mul_of_nonneg_right hσW (by positivity)
    linarith
  nlinarith [sq_nonneg ((t.X - p.X) * (1 / σ) + 4 / 3 * rx),
    sq_nonneg ((t.Y - p.Y) * (1 / σ) + 4 / 3 * ry), sq_nonneg rx, sq_nonneg ry,
    mul_self_nonneg ((t.X - p.X) * (1 / σ)), mul_self_nonneg ((t.Y - p.Y) * (1 / σ))]


theorem perturbed_step_core (a b σ L rx ry dt : ℚ) (hσ : 50 < σ)
    (hσW : σ * σ ≤ a * a + b * b) (hL : 0 < L)
    (hV : (a * (1 / σ) + rx) * (a * (1 / σ) + rx) + (b * (1 / σ) + ry) * (b * (1 / σ) + ry)
      ≤ 4 * (L * L))
    (hrx : |rx| ≤ 3 / 10) (hry : |ry| ≤ 3 / 10) (hdt : 0 < dt) (hg : 400 * dt < 1) :
    (-a + (a * (1 / σ) + rx) * (1 / L) * 400 * dt) * (-a + (a * (1 / σ) + rx) * (1 / L) * 400 * dt)
        + (-b + (b * (1 / σ) + ry) * (1 / L) * 400 * dt)
          * (-b + (b * (1 / σ) + ry) * (1 / L) * 400 * dt)
      ≤ a * a + b * b + 4 := by
  have hσ0 : σ ≠ 0 := by intro h; rw [h] at hσ; linarith
  have hσpos : 0 < σ := by linarith
  have hL0 : L ≠ 0 := ne_of_gt hL
  obtain ⟨hrx1, hrx2⟩ := abs_le.mp hrx
  obtain ⟨hry1, hry2⟩ := abs_le.mp hry
  have hk0 : 0 < 1 / L * 400 * dt := by positivity
  have hW : 0 ≤ a * a + b * b := by nlinarith [mul_self_nonneg a, mul_self_nonneg b]
  -- the perturbed direction has a non-negative component towards the target
  have hdot : 0 ≤ a * (a * (1 / σ) + rx) + b * (b * (1 / σ) + ry) := by
    have h1 : (a * (a * (1 / σ) + rx) + b * (b * (1 / σ) + ry)) * σ
        = (a * a + b * b) + (a * rx + b * ry) * σ := by
      field_simp
      ring
    have hA : -(a * rx * σ) ≤ 3 / 20 * (a * a + σ * σ) := by
      linarith [mul_nonneg (by linarith : (0 : ℚ) ≤ 3 / 10 + rx) (mul_self_nonneg (a + σ)),
        mul_nonneg (by linarith : (0 : ℚ) ≤ 3 / 10 - rx) (mul_self_nonneg (a - σ))]
    have hB : -(b * ry * σ) ≤ 3 / 20 * (b * b + σ * σ) := by
      linarith [mul_nonneg (by linarith : (0 : ℚ) ≤ 3 / 10 + ry) (mul_self_nonneg (b + σ)),
        mul_nonneg (by linarith : (0 : ℚ) ≤ 3 / 10 - ry) (mul_self_nonneg (b - σ))]
    have h3 : 0 ≤ (a * (a * (1 / σ) + rx) + b * (b * (1 / σ) + ry)) * σ := by
      rw [h1]
      linarith
    exact nonneg_of_mul_nonneg_left h3 hσpos
  -- the squared length of the step is at most four
  have hstep : (1 / L * 400 * dt) * (1 / L * 400 * dt)
      * ((a * (1 / σ) + rx) * (a * (1 / σ) + rx) + (b * (1 / σ) + ry) * (b * (1 / σ) + ry))
      ≤ 4 := by
    have hkL : 1 / L * 400 * dt * L = 400 * dt := by field_simp
    have h1 : (1 / L * 400 * dt) * (1 / L * 400 * dt)
        * ((a * (1 / σ) + rx) * (a * (1 / σ) + rx) + (b * (1 / σ) + ry) * (b * (1 / σ) + ry))
        ≤ (1 / L * 400 * dt) * (1 / L * 400 * dt) * (4 * (L * L)) :=
      mul_le_mul_of_nonneg_left hV (by positivity)
    have h2 : (1 / L * 400 * dt) * (1 / L * 400 * dt) * (4 * (L * L))
        = 4 * ((1 / L * 400 * dt * L) * (1 / L * 400 * dt * L)) := by ring
    have h3 : (1 / L * 400 * dt * L) * (1 / L * 400 * dt * L) ≤ 1 := by
      rw [hkL]
      nlinarith
    linarith
  have hmul := mul_nonneg (le_of_lt hk0) hdot
  have hexp : (-a + (a * (1 / σ) + rx) * (1 / L) * 400 * dt)
        * (-a + (a * (1 / σ) + rx) * (1 / L) * 400 * dt)
      + (-b + (b * (1 / σ) + ry) * (1 / L) * 400 * dt)
        * (-b + (b * (1 / σ) + ry) * (1 / L) * 400 * dt)
      = (a * a + b * b)
        - 2 * ((1 / L * 400 * dt) * (a * (a * (1 / σ) + rx) + b * (b * (1 / σ) + ry)))
        + (1 / L * 400 * dt) * (1 / L * 400 * dt)
          * ((a * (1 / σ) + rx) * (a * (1 / σ) + rx) + (b * (1 / σ) + ry) * (b * (1 / σ) + ry)) := by
    ring
  rw [hexp]
  linarith

/-- A perturbed step of length below one, taken further than fifty units away:
the perturbed direction still points into the half-plane of the target, so the
squared distance grows by at most four. -/
theorem SizeSquared_step_perturbed (p t : FVector) (σ L rx ry DeltaTime : ℚ) (hz : p.Z = t.Z)
    (hσ : 50 < σ) (hσW : σ * σ ≤ FVector.SizeSquared (FVector.sub t p))
    (hL : 0 < L)
    (hV : FVector.SizeSquared
        (FVector.add (FVector.scale (FVector.sub t p) (1 / σ)) ⟨rx, ry, 0⟩) ≤ 4 * (L * L))
    (hrx : |rx| ≤ 3 / 10) (hry : |ry| ≤ 3 / 10)
    (hdt : 0 < DeltaTime) (hg : 400 * DeltaTime < 1) :
    FVector.SizeSquared (FVector.sub
        (FVector.add p
          (FVector.scale (FVector.scale
            (FVector.scale
              (FVector.add (FVector.scale (FVector.sub t p) (1 / σ)) ⟨rx, ry, 0⟩) (1 / L))
            400) DeltaTime)) t)
      ≤ FVector.SizeSquared (FVector.sub p t) + 4 := by
  simp only [FVector.SizeSquared, FVector.sub, FVector.add, FVector.scale, hz, sub_self,
    zero_mul, add_zero, mul_zero] at hσW hV ⊢
  have h := perturbed_step_core (t.X - p.X) (t.Y - p.Y) σ L rx ry DeltaTime hσ hσW hL hV
    hrx hry hdt hg
  have e1 : (p.X + ((t.X - p.X) * (1 / σ) + rx) * (1 / L) * 400 * DeltaTime - t.X)
      = -(t.X - p.X) + ((t.X - p.X) * (1 / σ) + rx) * (1 / L) * 400 * DeltaTime := by ring
  have e2 : (p.Y + ((t.Y - p.Y) * (1 / σ) + ry) * (1 / L) * 400 * DeltaTime - t.Y)
      = -(t.Y - p.Y) + ((t.Y - p.Y) * (1 / σ) + ry) * (1 / L) * 400 * DeltaTime := by ring
  have e3 : (p.X - t.X) * (p.X - t.X) + (p.Y - t.Y) * (p.Y - t.Y)
      = (t.X - p.X) * (t.X - p.X) + (t.Y - p.Y) * (t.Y - p.Y) := by ring
  rw [e1, e2, e3]
  have e4 : t.Z + 0 - t.Z = 0 := by ring
  simpa [e4] using h


/-- One tick of the scenario unit while its steps are shorter than one unit:
it arrives, or the squared distance plus `10000 * StuckTime` drops by at least
`10000 * DeltaTime`. -/
theorem InPlane_step (E : Engine)
    (hE : ∀ x : ℚ, 0 ≤ x → 0 ≤ E.Sqrt x ∧ E.Sqrt x * E.Sqrt x ≤ x
      ∧ x ≤ 4 * (E.Sqrt x * E.Sqrt x))
    (DeltaTime rx ry : ℚ) (u : AUnit) (hdt : 0 < DeltaTime) (hg : 400 * DeltaTime < 1)
    (hrx : |rx| ≤ 3 / 10) (hry : |ry| ≤ 3 / 10) (hinv : InPlane u) :
    Arrived E (KinematicTick E [u] rx ry DeltaTime u)
      ∨ (InPlane (KinematicTick E [u] rx ry DeltaTime u)
        ∧ FVector.SizeSquared (FVector.sub (KinematicTick E [u] rx ry DeltaTime u).Location
              (KinematicTick E [u] rx ry DeltaTime u).TargetDestination)
            + 10000 * (KinematicTick E [u] rx ry DeltaTime u).StuckTime
          ≤ FVector.SizeSquared (FVector.sub u.Location u.TargetDestination)
            + 10000 * u.StuckTime - 10000 * DeltaTime) := by
  obtain ⟨hm, ht, hr, hsp, hz, hτ⟩ := hinv
  by_cases hreach : HasReachedDestination E u = true
  · exact Or.inl (KinematicTick_reached E rx ry DeltaTime u hm hreach)
  · have hreach' : HasReachedDestination E u = false := by simpa using hreach
    have hW := SizeSquared_sub_comm u.TargetDestination u.Location
    obtain ⟨hσ0, hσW, _⟩ := hE _ (SizeSquared_nonneg (FVector.sub u.TargetDestination u.Location))
    have hfar : 50 < E.Sqrt (FVector.SizeSquared (FVector.sub u.TargetDestination u.Location)) := by
      have : ¬ FVector.Distance E u.Location u.TargetDestination ≤ u.AcceptanceRadius := by
        simpa [HasReachedDestination] using hreach'
      rw [hr] at this
      unfold FVector.Distance at this
      rw [← hW] at this
      exact not_le.mp this
    have hbig : 2500 < FVector.SizeSquared (FVector.sub u.TargetDestination u.Location) := by
      nlinarith
    have hdir : FVector.GetSafeNormal E (FVector.sub u.TargetDestination u.Location)
        = FVector.scale (FVector.sub u.TargetDestination u.Location)
            (1 / E.Sqrt (FVector.SizeSquared (FVector.sub u.TargetDestination u.Location))) := by
      unfold FVector.GetSafeNormal
      have h1 : ¬ FVector.SizeSquared (FVector.sub u.TargetDestination u.Location) = 1 := by
        intro h
        linarith
      have h2 : ¬ FVector.SizeSquared (FVector.sub u.TargetDestination u.Location)
          < FVector.SMALL_NUMBER := by
        unfold FVector.SMALL_NUMBER
        intro h
        linarith
      simp only [h1, h2, if_false]
    have hzt : u.Location.Z = u.TargetDestination.Z := by rw [hz, ht]
    obtain ⟨k1, k2, k3, k4, _, k6, k7⟩ := KinematicTick_moving E rx ry DeltaTime u hm hreach'
    rw [hdir] at k6 k7
    rw [hsp] at k7
    by_cases hA : FVector.Distance E u.Location u.LastLocation < 1 ∧ u.StuckTime + DeltaTime > 1
    · -- the perturbed tick
      have hVlow := SizeSquared_perturbed_lower u.Location u.TargetDestination _ rx ry hzt
        (by linarith) hσW hrx hry
      obtain ⟨hL0, _, hLV⟩ := hE _ (SizeSquared_nonneg
        (FVector.add (FVector.scale (FVector.sub u.TargetDestination u.Location)
          (1 / E.Sqrt (FVector.SizeSquared (FVector.sub u.TargetDestination u.Location))))
          ⟨rx, ry, 0⟩))
      have hLpos : 0 < E.Sqrt (FVector.SizeSquared
          (FVector.add (FVector.scale (FVector.sub u.TargetDestination u.Location)
            (1 / E.Sqrt (FVector.SizeSquared (FVector.sub u.TargetDestination u.Location))))
            ⟨rx, ry, 0⟩)) := by
        rcases lt_or_eq_of_le hL0 with h | h
        · exact h
        · rw [← h] at hLV
          linarith
      have hstuck : StuckCheck E u DeltaTime rx ry
          (FVector.scale (FVector.sub u.TargetDestination u.Location)
            (1 / E.Sqrt (FVector.SizeSquared (FVector.sub u.TargetDestination u.Location))))
          = (FVector.scale
              (FVector.add (FVector.scale (FVector.sub u.TargetDestination u.Location)
                (1 / E.Sqrt (FVector.SizeSquared (FVector.sub u.TargetDestination u.Location))))
                ⟨rx, ry, 0⟩)
              (1 / E.Sqrt (FVector.SizeSquared
                (FVector.add (FVector.scale (FVector.sub u.TargetDestination u.Location)
                  (1 / E.Sqrt (FVector.SizeSquared
                    (FVector.sub u.TargetDestination u.Location))))
                  ⟨rx, ry, 0⟩))), 0) := by
        have hsmall : FVector.SizeSquared
            (FVector.add (FVector.scale (FVector.sub u.TargetDestination u.Location)
              (1 / E.Sqrt (FVector.SizeSquared (FVector.sub u.TargetDestination u.Location))))
              ⟨rx, ry, 0⟩) > FVector.SMALL_NUMBER := by
          unfold FVector.SMALL_NUMBER
          linarith
        simp only [StuckCheck, hA.1, hm, hA.2, and_self, if_true, FVector.Normalize, hsmall]
      rw [hstuck] at k6 k7
      have hstep := SizeSquared_step_perturbed u.Location u.TargetDestination _ _ rx ry DeltaTime
        hzt hfar hσW hLpos hLV hrx hry hdt hg
      have hZ : (KinematicTick E [u] rx ry DeltaTime u).Location.Z = 0 := by
        rw [k7]
        simp [FVector.add, FVector.scale, FVector.sub, hz, ht]
      refine Or.inr ⟨⟨k1, k2.trans ht, k3.trans hr, k4.trans hsp, hZ, by rw [k6]⟩, ?_⟩
      rw [k2, k6, k7]
      have hτ2 := hA.2
      linarith
    · -- the tick without perturbation
      have hstuck : (StuckCheck E u DeltaTime rx ry
          (FVector.scale (FVector.sub u.TargetDestination u.Location)
            (1 / E.Sqrt (FVector.SizeSquared (FVector.sub u.TargetDestination u.Location))))).1
          = FVector.scale (FVector.sub u.TargetDestination u.Location)
            (1 / E.Sqrt (FVector.SizeSquared (FVector.sub u.TargetDestination u.Location)))
          ∧ 0 ≤ (StuckCheck E u DeltaTime rx ry
            (FVector.scale (FVector.sub u.TargetDestination u.Location)
              (1 / E.Sqrt (FVector.SizeSquared
                (FVector.sub u.TargetDestination u.Location))))).2
          ∧ (StuckCheck E u DeltaTime rx ry
            (FVector.scale (FVector.sub u.TargetDestination u.Location)
              (1 / E.Sqrt (FVector.SizeSquared
                (FVector.sub u.TargetDestination u.Location))))).2
            ≤ u.StuckTime + DeltaTime := by
        unfold StuckCheck
        by_cases h1 : FVector.Distance E u.Location u.LastLocation < 1
        · have h2 : ¬ u.StuckTime + DeltaTime > 1 := fun h2 => hA ⟨h1, h2⟩
          simp only [h1, hm, and_self, if_true, h2, if_false, true_and, le_refl, and_true]
          linarith
        · simp only [h1, false_and, if_false, true_and, le_refl]
          linarith
      obtain ⟨s1, s2, s3⟩ := hstuck
      rw [s1] at k7
      have hstep := SizeSquared_step_toward u.Location u.TargetDestination _ DeltaTime
        hfar hσW hdt hg
      have hZ : (KinematicTick E [u] rx ry DeltaTime u).Location.Z = 0 := by
        rw [k7]
        simp [FVector.add, FVector.scale, FVector.sub, hz, ht]
      refine Or.inr ⟨⟨k1, k2.trans ht, k3.trans hr, k4.trans hsp, hZ, by rw [k6]; exact s2⟩, ?_⟩
      rw [k2, k6, k7]
      linarith


theorem KinematicTick_config (E : Engine) (NearbyUnits : List AUnit) (rx ry DeltaTime : ℚ)
    (u : AUnit) :
    (KinematicTick E NearbyUnits rx ry DeltaTime u).TargetDestination = u.TargetDestination
      ∧ (KinematicTick E NearbyUnits rx ry DeltaTime u).AcceptanceRadius = u.AcceptanceRadius := by
  unfold KinematicTick Tick UpdateMovement
  simp only
  split_ifs <;> exact ⟨rfl, rfl⟩

theorem RunAlone_config (E : Engine) (Rand : ℕ → ℚ × ℚ) (DeltaTime : ℚ) (u : AUnit) (n : ℕ) :
    (RunAlone E Rand DeltaTime n u).TargetDestination = u.TargetDestination
      ∧ (RunAlone E Rand DeltaTime n u).AcceptanceRadius = u.AcceptanceRadius := by
  induction n with
  | zero => exact ⟨rfl, rfl⟩
  | succ k ih =>
    simp only [RunAlone]
    have h := KinematicTick_config E [RunAlone E Rand DeltaTime k u] (Rand k).1 (Rand k).2
      DeltaTime (RunAlone E Rand DeltaTime k u)
    exact ⟨h.1.trans ih.1, h.2.trans ih.2⟩

theorem scenarioUnit_fields (Id : Nat) (Mesh Selected : MaterialRef) :
    (scenarioUnit Id Mesh Selected).bIsMoving = true
      ∧ (scenarioUnit Id Mesh Selected).TargetDestination = ⟨500, 0, 0⟩
      ∧ (scenarioUnit Id Mesh Selected).AcceptanceRadius = 50
      ∧ (scenarioUnit Id Mesh Selected).MovementSpeed = 400
      ∧ (scenarioUnit Id Mesh Selected).Location = ⟨0, 0, 0⟩
      ∧ (scenarioUnit Id Mesh Selected).LastLocation = ⟨0, 0, 0⟩
      ∧ (scenarioUnit Id Mesh Selected).StuckTime = 0 := by
  cases Mesh <;> exact ⟨rfl, rfl, rfl, rfl, rfl, rfl, rfl⟩

/-- C16: the unit of the scenario, alone, starting at `(0, 0, 0)` with
destination `(500, 0, 0)`, acceptance radius 50 and speed 400, under the
kinematic model with a fixed tick length `DeltaTime > 0` such that
`MovementSpeed * DeltaTime ≤ 2 * AcceptanceRadius`: there is a number of ticks
from which on `bIsMoving` is false and the distance to the destination is at
most 50. This holds for all random draws within `[-0.3, 0.3]` and for every
engine whose square root is exact on squares and otherwise rounds down by less
than a factor of two. -/
theorem RunAlone_arrives (E : Engine) (Rand : ℕ → ℚ × ℚ) (DeltaTime : ℚ) (Id : Nat)
    (Mesh Selected : MaterialRef)
    (hE1 : ∀ q : ℚ, 0 ≤ q → E.Sqrt (q * q) = q)
    (hE2 : ∀ x : ℚ, 0 ≤ x → 0 ≤ E.Sqrt x ∧ E.Sqrt x * E.Sqrt x ≤ x
      ∧ x ≤ 4 * (E.Sqrt x * E.Sqrt x))
    (hRand : ∀ n, |(Rand n).1| ≤ 3 / 10 ∧ |(Rand n).2| ≤ 3 / 10)
    (hdt : 0 < DeltaTime)
    (hstep : (scenarioUnit Id Mesh Selected).MovementSpeed * DeltaTime
      ≤ 2 * (scenarioUnit Id Mesh Selected).AcceptanceRadius) :
    ∃ n, ∀ m, n ≤ m →
      (RunAlone E Rand DeltaTime m (scenarioUnit Id Mesh Selected)).bIsMoving = false
        ∧ FVector.Distance E
            (RunAlone E Rand DeltaTime m (scenarioUnit Id Mesh Selected)).Location ⟨500, 0, 0⟩
          ≤ 50 := by
  obtain ⟨f1, f2, f3, f4, f5, f6, f7⟩ := scenarioUnit_fields Id Mesh Selected
  rw [f3, f4] at hstep
  have harr : ∃ n, Arrived E (RunAlone E Rand DeltaTime n (scenarioUnit Id Mesh Selected)) := by
    by_cases hbig : 1 ≤ 400 * DeltaTime
    · -- steps of at least one unit: the unit stays on the axis
      refine RunAlone_descent E Rand DeltaTime _ (OnAxis DeltaTime (400 * DeltaTime))
        (fun u => 550 - u.Location.X) (400 * DeltaTime) (by linarith) hRand ?_ ?_ ?_
      · refine ⟨f1, f2, f3, f4, ?_, ?_, ?_, ?_, ?_, Or.inl ⟨?_, ?_⟩⟩
        · rw [f5]
        · rw [f5]
        · rw [f6]
        · rw [f6]
        · rw [f5]
          norm_num
        · rw [f5, f6]
        · rw [f7]
          linarith
      · intro u hu
        have := hu.2.2.2.2.2.2.2.2.1
        show 0 ≤ 550 - u.Location.X
        linarith
      · intro u rx ry _ _ hu
        exact OnAxis_step E hE1 DeltaTime (400 * DeltaTime) rx ry u rfl hbig (by linarith) hu
    · -- steps shorter than one unit: the stuck perturbation may act
      have hsmall : 400 * DeltaTime < 1 := not_le.mp hbig
      refine RunAlone_descent E Rand DeltaTime _ InPlane
        (fun u => FVector.SizeSquared (FVector.sub u.Location u.TargetDestination)
          + 10000 * u.StuckTime) (10000 * DeltaTime) (by linarith) hRand ?_ ?_ ?_
      · refine ⟨f1, f2, f3, f4, ?_, ?_⟩
        · rw [f5]
        · rw [f7]
      · intro u hu
        have h1 := SizeSquared_nonneg (FVector.sub u.Location u.TargetDestination)
        have h2 := hu.2.2.2.2.2
        show 0 ≤ FVector.SizeSquared (FVector.sub u.Location u.TargetDestination)
          + 10000 * u.StuckTime
        linarith
      · intro u rx ry hrx hry hu
        exact InPlane_step E hE2 DeltaTime rx ry u hdt hsmall hrx hry hu
  obtain ⟨n, hn⟩ := harr
  refine ⟨n, fun m hm => ?_⟩
  rw [RunAlone_stays E Rand DeltaTime _ n hn m hm]
  have hc := RunAlone_config E Rand DeltaTime (scenarioUnit Id Mesh Selected) n
  have hd := hn.2
  rw [hc.1, hc.2, f2, f3] at hd
  exact ⟨hn.1, hd⟩

theorem sampleSqrt_bounds (x : ℚ) (hx : 0 ≤ x) :
    0 ≤ sampleSqrt x ∧ sampleSqrt x * sampleSqrt x ≤ x
      ∧ x ≤ 4 * (sampleSqrt x * sampleSqrt x) := by
  have hn : 0 ≤ x.num := Rat.num_nonneg.mpr hx
  obtain ⟨n, hn2⟩ := Int.eq_ofNat_of_zero_le hn
  have hnum : x.num.toNat = n := by
    rw [hn2]
    exact Int.toNat_natCast n
  have hd : (0 : ℚ) < (x.den : ℚ) := by exact_mod_cast x.den_pos
  have hxe : (n : ℚ) / (x.den : ℚ) = x := by
    have := Rat.num_div_den x
    rw [hn2, Int.cast_natCast] at this
    exact this
  have hs : sampleSqrt x = ((Nat.sqrt (n * x.den) : ℕ) : ℚ) / (x.den : ℚ) := by
    unfold sampleSqrt
    rw [hnum, sampleNatSqrt_eq]
  have hk1 : ((Nat.sqrt (n * x.den) : ℕ) : ℚ) * ((Nat.sqrt (n * x.den) : ℕ) : ℚ)
      ≤ (n : ℚ) * (x.den : ℚ) := by
    exact_mod_cast Nat.sqrt_le (n * x.den)
  have hk2 : (n : ℚ) * (x.den : ℚ)
      ≤ 4 * (((Nat.sqrt (n * x.den) : ℕ) : ℚ) * ((Nat.sqrt (n * x.den) : ℕ) : ℚ)) := by
    have h := Nat.lt_succ_sqrt (n * x.den)
    have h2 : n * x.den ≤ 4 * (Nat.sqrt (n * x.den) * Nat.sqrt (n * x.den)) := by
      rcases Nat.eq_zero_or_pos (Nat.sqrt (n * x.den)) with h0 | h0
      · rw [h0] at h
        rw [h0]
        simp only [Nat.succ_eq_add_one, zero_add, mul_one] at h
        omega
      · simp only [Nat.succ_eq_add_one] at h
        nlinarith
    exact_mod_cast h2
  rw [hs]
  have g1 : ((Nat.sqrt (n * x.den) : ℕ) : ℚ) / (x.den : ℚ)
      * (((Nat.sqrt (n * x.den) : ℕ) : ℚ) / (x.den : ℚ)) ≤ (n : ℚ) / (x.den : ℚ) := by
    rw [div_mul_div_comm, div_le_div_iff₀ (by positivity) hd]
    nlinarith [mul_le_mul_of_nonneg_right hk1 (le_of_lt hd)]
  have g2 : (n : ℚ) / (x.den : ℚ)
      ≤ 4 * (((Nat.sqrt (n * x.den) : ℕ) : ℚ) / (x.den : ℚ)
        * (((Nat.sqrt (n * x.den) : ℕ) : ℚ) / (x.den : ℚ))) := by
    rw [div_mul_div_comm, ← mul_div_assoc, div_le_div_iff₀ hd (by positivity)]
    nlinarith [mul_le_mul_of_nonneg_right hk2 (le_of_lt hd)]
  exact ⟨by positivity, g1.trans_eq hxe, hxe.symm.le.trans g2⟩

theorem RunAlone_arrives_witness :
    ∃ n, ∀ m, n ≤ m →
      (RunAlone sampleEngine (fun _ => (3 / 10, -3 / 10)) (1 / 1000) m
          (scenarioUnit 1 (some 0) (some 1))).bIsMoving = false
        ∧ FVector.Distance sampleEngine
            (RunAlone sampleEngine (fun _ => (3 / 10, -3 / 10)) (1 / 1000) m
              (scenarioUnit 1 (some 0) (some 1))).Location ⟨500, 0, 0⟩
          ≤ 50 :=
  RunAlone_arrives sampleEngine (fun _ => (3 / 10, -3 / 10)) (1 / 1000) 1 (some 0) (some 1)
    (fun q hq => sampleSqrt_mul_self q hq) (fun x hx => sampleSqrt_bounds x hx)
    (fun _ => ⟨by norm_num [abs_le], by norm_num [abs_le]⟩) (by norm_num)
    (by norm_num [scenarioUnit, SetDestination, BeginPlay, construct])

end AUnit

/-! ## The per-unit selection query: theorems -/

namespace AUnitController

theorem IsUnitInSelectionBox_congr (W V : UWorld) (C D : AUnitController) (u v : AUnit)
    (hPC : W.PlayerController = V.PlayerController)
    (hT : W.LineTraceSingleByChannel = V.LineTraceSingleByChannel)
    (hs : C.SelectionStart = D.SelectionStart) (he : C.SelectionEnd = D.SelectionEnd)
    (hl : u.Location = v.Location) :
    IsUnitInSelectionBox W C u = IsUnitInSelectionBox V D v := by
  unfold IsUnitInSelectionBox
  rw [← hPC]
  cases W.PlayerController with
  | none => rfl
  | some PC => simp only [GroundHits_congr W V PC C D hT hs he, hl]

theorem UpdateSelectedUnits_mem_box (W : UWorld) (C : AUnitController) (u : AUnit)
    (hnd : (W.Units.map AUnit.Id).Nodup) (hu : u ∈ W.Units) :
    u.Id ∈ (UpdateSelectedUnits W C).2.SelectedUnits ↔ IsUnitInSelectionBox W C u = true := by
  cases hW : W.PlayerController with
  | none =>
    rw [UpdateSelectedUnits_noPC W C hW]
    simp [IsUnitInSelectionBox, hW]
  | some PC =>
    by_cases h1 : (GroundHits W PC C).1.bBlockingHit = true
    · by_cases h2 : (GroundHits W PC C).2.bBlockingHit = true
      · rw [UpdateSelectedUnits_hit W C PC hW h1 h2]
        simp only [IsUnitInSelectionBox, hW, h1, h2, List.mem_map, List.mem_filter, Prod.exists,
          exists_and_right, exists_eq_right, Bool.not_true, Bool.or_self, Bool.false_eq_true,
          if_false]
        constructor
        · rintro ⟨loc, ⟨v, hv, hveq⟩, hb⟩
          have hid : v.Id = u.Id := (Prod.mk.inj hveq).1
          have hvu : v = u := List.inj_on_of_nodup_map hnd hv hu hid
          subst hvu
          have hloc : loc = v.Location := ((Prod.mk.inj hveq).2).symm
          subst hloc
          exact hb
        · intro h
          exact ⟨u.Location, ⟨u, hu, rfl⟩, h⟩
      · have h2f : (GroundHits W PC C).2.bBlockingHit = false := by simpa using h2
        rw [UpdateSelectedUnits_miss W C PC hW (Or.inr h2f)]
        simp [IsUnitInSelectionBox, hW, h2f]
    · have h1f : (GroundHits W PC C).1.bBlockingHit = false := by simpa using h1
      rw [UpdateSelectedUnits_miss W C PC hW (Or.inl h1f)]
      simp [IsUnitInSelectionBox, hW, h1f]

/-- C23: immediately after `UpdateSelectedUnits`, a live unit is in
`SelectedUnits` exactly when `IsUnitInSelectionBox` returns true for it, the
query being evaluated in the state the recompute leaves behind; the query
gives the same answer as before the recompute, for the same corners, traces
and unit position. Without a player controller, and when a corner projection
has no blocking hit, `SelectedUnits` is empty and the query returns false. -/
theorem IsUnitInSelectionBox_agrees (W : UWorld) (C : AUnitController) (u : AUnit)
    (hnd : (W.Units.map AUnit.Id).Nodup)
    (hu : u ∈ (UpdateSelectedUnits W C).1.Units) :
    (u.Id ∈ (UpdateSelectedUnits W C).2.SelectedUnits ↔
        IsUnitInSelectionBox (UpdateSelectedUnits W C).1 (UpdateSelectedUnits W C).2 u = true)
      ∧ IsUnitInSelectionBox (UpdateSelectedUnits W C).1 (UpdateSelectedUnits W C).2 u
          = IsUnitInSelectionBox W C u
      ∧ (W.PlayerController = none →
          (UpdateSelectedUnits W C).2.SelectedUnits = []
            ∧ IsUnitInSelectionBox (UpdateSelectedUnits W C).1 (UpdateSelectedUnits W C).2 u
                = false)
      ∧ (∀ PC, W.PlayerController = some PC →
          ((GroundHits W PC C).1.bBlockingHit = false
            ∨ (GroundHits W PC C).2.bBlockingHit = false) →
          (UpdateSelectedUnits W C).2.SelectedUnits = []
            ∧ IsUnitInSelectionBox (UpdateSelectedUnits W C).1 (UpdateSelectedUnits W C).2 u
                = false) := by
  obtain ⟨wPC, wT, wU⟩ := UpdateSelectedUnits_world W C
  obtain ⟨_, cS, cE⟩ := UpdateSelectedUnits_fields W C
  have hq : IsUnitInSelectionBox (UpdateSelectedUnits W C).1 (UpdateSelectedUnits W C).2 u
      = IsUnitInSelectionBox W C u :=
    IsUnitInSelectionBox_congr _ _ _ _ u u wPC wT cS cE rfl
  have hmem : (u.Id, u.Location) ∈ W.Units.map (fun u => (u.Id, u.Location)) := by
    rw [← wU]
    exact List.mem_map.mpr ⟨u, hu, rfl⟩
  obtain ⟨v, hv, hveq⟩ := List.mem_map.mp hmem
  have hvid : v.Id = u.Id := (Prod.mk.inj hveq).1
  have hvloc : v.Location = u.Location := (Prod.mk.inj hveq).2
  have hqv : IsUnitInSelectionBox W C u = IsUnitInSelectionBox W C v :=
    IsUnitInSelectionBox_congr W W C C u v rfl rfl rfl rfl hvloc.symm
  refine ⟨?_, hq, ?_, ?_⟩
  · rw [hq, hqv, ← hvid]
    exact UpdateSelectedUnits_mem_box W C v hnd hv
  · intro hW
    rw [hq]
    constructor
    · rw [UpdateSelectedUnits_noPC W C hW]
    · simp [IsUnitInSelectionBox, hW]
  · intro PC hW hmiss
    rw [hq]
    constructor
    · rw [UpdateSelectedUnits_miss W C PC hW hmiss]
    · rcases hmiss with h | h <;> simp [IsUnitInSelectionBox, hW, h]

end AUnitController

namespace AUnitController

theorem IsUnitInSelectionBox_agrees_witness :
    (sampleUnit 2 ⟨100, 300, 20⟩).SetSelected true
        ∈ (UpdateSelectedUnits sampleWorld ⟨true, ⟨0, 0⟩, ⟨100, 300⟩, [1]⟩).1.Units
      ∧ 2 ∈ (UpdateSelectedUnits sampleWorld ⟨true, ⟨0, 0⟩, ⟨100, 300⟩, [1]⟩).2.SelectedUnits
      ∧ IsUnitInSelectionBox (UpdateSelectedUnits sampleWorld ⟨true, ⟨0, 0⟩, ⟨100, 300⟩, [1]⟩).1
          (UpdateSelectedUnits sampleWorld ⟨true, ⟨0, 0⟩, ⟨100, 300⟩, [1]⟩).2
          ((sampleUnit 2 ⟨100, 300, 20⟩).SetSelected true) = true :=
  ⟨by decide!, by decide!,
    (IsUnitInSelectionBox_agrees sampleWorld ⟨true, ⟨0, 0⟩, ⟨100, 300⟩, [1]⟩
      ((sampleUnit 2 ⟨100, 300, 20⟩).SetSelected true) (by decide!) (by decide!)).1.mp
      (by decide!)⟩

end AUnitController

/-! ## The stuck timer: theorems -/

namespace AUnit

theorem StuckCheck_StuckTime (E : Engine) (u : AUnit) (DeltaTime RandX RandY : ℚ)
    (d : FVector) :
    (StuckCheck E u DeltaTime RandX RandY d).2 = 0
      ∨ ((StuckCheck E u DeltaTime RandX RandY d).2 = u.StuckTime + DeltaTime
        ∧ u.StuckTime + DeltaTime ≤ 1) := by
  unfold StuckCheck
  simp only
  split_ifs with h1 h2
  · exact Or.inl rfl
  · exact Or.inr ⟨rfl, not_lt.mp h2⟩
  · exact Or.inl rfl

theorem Tick_StuckTime (E : Engine) (NearbyUnits : List AUnit) (RandX RandY DeltaTime : ℚ)
    (u : AUnit) :
    (Tick E NearbyUnits RandX RandY DeltaTime u).StuckTime = 0
      ∨ (Tick E NearbyUnits RandX RandY DeltaTime u).StuckTime = u.StuckTime
      ∨ ((Tick E NearbyUnits RandX RandY DeltaTime u).StuckTime = u.StuckTime + DeltaTime
        ∧ u.StuckTime + DeltaTime ≤ 1) := by
  unfold Tick
  split_ifs with hm
  · unfold UpdateMovement
    split_ifs with hr
    · exact Or.inr (Or.inl rfl)
    · rcases StuckCheck_StuckTime E u DeltaTime RandX RandY
          (FVector.GetSafeNormal E (FVector.sub u.TargetDestination u.Location)) with h | h
      · exact Or.inl h
      · exact Or.inr (Or.inr h)
  · exact Or.inr (Or.inl rfl)

theorem Apply_StuckTime (E : Engine) (u : AUnit) (c : Call)
    (hc : ∀ N rx ry dt, c = Call.Tick N rx ry dt → 0 ≤ dt)
    (hu : 0 ≤ u.StuckTime ∧ u.StuckTime ≤ 1) :
    0 ≤ (Apply E u c).StuckTime ∧ (Apply E u c).StuckTime ≤ 1 := by
  cases c with
  | BeginPlay =>
    have h : (Apply E u Call.BeginPlay).StuckTime = u.StuckTime := by
      simp only [Apply, BeginPlay]
      split <;> rfl
    rw [h]; exact hu
  | SetSelected b =>
    have h : (Apply E u (Call.SetSelected b)).StuckTime = u.StuckTime := by
      simp only [Apply, SetSelected]
      split <;> split <;> rfl
    rw [h]; exact hu
  | SetDestination p => exact ⟨le_refl _, zero_le_one⟩
  | Tick N rx ry dt =>
    have hdt : 0 ≤ dt := hc N rx ry dt rfl
    show 0 ≤ (Tick E N rx ry dt u).StuckTime ∧ (Tick E N rx ry dt u).StuckTime ≤ 1
    rcases Tick_StuckTime E N rx ry dt u with h | h | ⟨h, hle⟩
    · rw [h]; exact ⟨le_refl _, zero_le_one⟩
    · rw [h]; exact hu
    · rw [h]; exact ⟨add_nonneg hu.1 hdt, hle⟩
  | Moved l v => exact hu

theorem Run_StuckTime (E : Engine) (ops : List Call) (u : AUnit)
    (hdt : ∀ N rx ry dt, Call.Tick N rx ry dt ∈ ops → 0 ≤ dt)
    (hu : 0 ≤ u.StuckTime ∧ u.StuckTime ≤ 1) :
    0 ≤ (Run E u ops).StuckTime ∧ (Run E u ops).StuckTime ≤ 1 := by
  induction ops generalizing u with
  | nil => exact hu
  | cons c rest ih =>
    simp only [Run]
    apply ih
    · intro N rx ry dt h
      exact hdt N rx ry dt (List.mem_cons_of_mem _ h)
    · apply Apply_StuckTime E u c _ hu
      intro N rx ry dt h
      exact hdt N rx ry dt (h ▸ List.mem_cons_self _ _)

/-- C22: starting from a freshly constructed unit, after every operation of
every sequence of `BeginPlay`, `SetSelected`, `SetDestination`, displacements
and ticks whose `DeltaTime` is not negative, `0 ≤ StuckTime ≤ 1` holds; and in
any state a tick leaves `StuckTime` at zero, as it was, or raised by
`DeltaTime` to a value of at most one. -/
theorem Run_StuckTime_bounds (E : Engine) (Id : Nat) (SpawnLocation : FVector)
    (Mesh Selected : MaterialRef) (ops : List Call)
    (hdt : ∀ N rx ry dt, Call.Tick N rx ry dt ∈ ops → 0 ≤ dt) :
    (∀ n, 0 ≤ (Run E (construct Id SpawnLocation Mesh Selected) (ops.take n)).StuckTime
        ∧ (Run E (construct Id SpawnLocation Mesh Selected) (ops.take n)).StuckTime ≤ 1)
      ∧ (∀ (u : AUnit) N rx ry dt,
          (Tick E N rx ry dt u).StuckTime = 0
            ∨ (Tick E N rx ry dt u).StuckTime = u.StuckTime
            ∨ ((Tick E N rx ry dt u).StuckTime = u.StuckTime + dt
              ∧ u.StuckTime + dt ≤ 1)) := by
  refine ⟨fun n => ?_, fun u N rx ry dt => Tick_StuckTime E N rx ry dt u⟩
  apply Run_StuckTime E (ops.take n) _
  · intro N rx ry dt h
    exact hdt N rx ry dt (List.mem_of_mem_take h)
  · exact ⟨le_refl _, zero_le_one⟩

end AUnit

namespace AUnit

theorem Run_StuckTime_bounds_witness :
    (Run sampleEngine (construct 1 ⟨0, 0, 0⟩ (some 0) (some 1)) (sampleCalls.take 3)).StuckTime
        = 3 / 5
      ∧ (Run sampleEngine (construct 1 ⟨0, 0, 0⟩ (some 0) (some 1)) (sampleCalls.take 4)).StuckTime
        = 0
      ∧ 0 ≤ (Run sampleEngine (construct 1 ⟨0, 0, 0⟩ (some 0) (some 1))
          (sampleCalls.take 3)).StuckTime
      ∧ (Run sampleEngine (construct 1 ⟨0, 0, 0⟩ (some 0) (some 1))
          (sampleCalls.take 3)).StuckTime ≤ 1 :=
  ⟨by decide!, by decide!,
    (Run_StuckTime_bounds sampleEngine 1 ⟨0, 0, 0⟩ (some 0) (some 1) sampleCalls
      (by
        intro N rx ry dt h
        simp only [sampleCalls, List.mem_cons, Call.Tick.injEq, List.not_mem_nil, reduceCtorEq,
          false_or, or_false, or_self] at h
        rw [h.2.2.2]
        norm_num)).1 3⟩

end AUnit

/-! ## Coincident neighbours: theorems -/

namespace AUnit

theorem FVector_add_zero (a : FVector) : FVector.add a FVector.ZeroVector = a := by
  cases a
  simp [FVector.add, FVector.ZeroVector]

theorem FVector_zero_add (a : FVector) : FVector.add FVector.ZeroVector a = a := by
  cases a
  simp [FVector.add, FVector.ZeroVector]

theorem FVector_add_assoc (a b c : FVector) :
    FVector.add (FVector.add a b) c = FVector.add a (FVector.add b c) := by
  simp only [FVector.add, add_assoc]

theorem FVector_scale_zero (k : ℚ) : FVector.scale FVector.ZeroVector k = FVector.ZeroVector := by
  simp [FVector.scale, FVector.ZeroVector]

theorem FVector_sub_self (a : FVector) : FVector.sub a a = FVector.ZeroVector := by
  simp [FVector.sub, FVector.ZeroVector]

theorem GetSafeNormal_zero (E : Engine) :
    FVector.GetSafeNormal E FVector.ZeroVector = FVector.ZeroVector := by
  simp [FVector.GetSafeNormal, FVector.SizeSquared, FVector.ZeroVector, FVector.SMALL_NUMBER]

theorem AvoidanceLoop_append (E : Engine) (self : AUnit) (loc : FVector) (L1 L2 : List AUnit) :
    ∀ acc : FVector × Nat,
      AvoidanceLoop E self loc (L1 ++ L2) acc
        = AvoidanceLoop E self loc L2 (AvoidanceLoop E self loc L1 acc) := by
  induction L1 with
  | nil => intro acc; rfl
  | cons v rest ih =>
    intro acc
    obtain ⟨a, n⟩ := acc
    simp only [List.cons_append, AvoidanceLoop]
    split_ifs <;> exact ih _

theorem AvoidanceLoop_acc (E : Engine) (self : AUnit) (loc : FVector) (L : List AUnit) :
    ∀ (a : FVector) (k : Nat),
      AvoidanceLoop E self loc L (a, k)
        = (FVector.add a (AvoidanceLoop E self loc L (FVector.ZeroVector, 0)).1,
            k + (AvoidanceLoop E self loc L (FVector.ZeroVector, 0)).2) := by
  induction L with
  | nil =>
    intro a k
    simp [AvoidanceLoop, FVector_add_zero]
  | cons v rest ih =>
    intro a k
    simp only [AvoidanceLoop]
    split_ifs with h1 h2
    · rw [ih (FVector.add a _) (k + 1), ih (FVector.add FVector.ZeroVector _) (0 + 1)]
      simp only [FVector_zero_add, FVector_add_assoc]
      congr 1
      omega
    · exact ih a k
    · exact ih a k

theorem AvoidanceLoop_count (E : Engine) (self : AUnit) (loc : FVector) (L : List AUnit) :
    ∀ acc : FVector × Nat,
      (AvoidanceLoop E self loc L acc).2
        = acc.2 + (L.filter (fun v => decide (v.Id ≠ self.Id)
            && decide (FVector.Distance E loc v.Location < self.AvoidanceRadius))).length := by
  induction L with
  | nil => intro acc; rfl
  | cons v rest ih =>
    intro acc
    obtain ⟨a, n⟩ := acc
    by_cases hid : v.Id = self.Id
    · simp only [List.filter_cons, hid, ne_eq, not_true_eq_false, decide_False, Bool.false_and,
        Bool.false_eq_true, if_false, AvoidanceLoop]
      exact ih (a, n)
    · by_cases hd : FVector.Distance E loc v.Location < self.AvoidanceRadius
      · simp only [List.filter_cons, hid, ne_eq, not_false_eq_true, decide_True, hd,
          Bool.and_self, if_true, AvoidanceLoop, List.length_cons]
        rw [ih _]
        simp only [ne_eq]
        omega
      · simp only [List.filter_cons, hid, ne_eq, not_false_eq_true, decide_True, hd,
          decide_False, Bool.and_false, Bool.false_eq_true, if_false, AvoidanceLoop]
        exact ih (a, n)

/-- The step of the neighbour loop for another unit at the unit's own
location. -/
theorem AvoidanceLoop_coincident (E : Engine) (self c : AUnit) (acc : FVector) (n : Nat)
    (rest : List AUnit)
    (hS0 : E.Sqrt 0 = 0) (hR : 0 < self.AvoidanceRadius)
    (hid : c.Id ≠ self.Id) (hloc : c.Location = self.Location) :
    AvoidanceLoop E self self.Location (c :: rest) (acc, n)
      = AvoidanceLoop E self self.Location rest (acc, n + 1) := by
  have hz : FVector.SizeSquared FVector.ZeroVector = 0 := by
    simp [FVector.SizeSquared, FVector.ZeroVector]
  have hdist : FVector.Distance E self.Location self.Location = 0 := by
    unfold FVector.Distance
    rw [FVector_sub_self, hz, hS0]
  simp only [AvoidanceLoop, ne_eq, hid, not_false_eq_true, if_true, hloc, hdist, hR,
    FVector_sub_self, GetSafeNormal_zero, FVector_scale_zero, FVector_add_zero]

/-- C24: `AvoidCount` is the number of other units at a distance below
`AvoidanceRadius`. For an engine with `Sqrt 0 = 0` and a positive radius, another
unit at exactly the unit's location is at distance zero, is counted, and adds
the zero vector (the safe normal of the zero difference). When it is the only
unit counted, the blend factor is zero and `FinalDirection` is the safe normal
of `DirectionToTarget`, hence `DirectionToTarget` itself when that has unit
length or is zero. Inserting it among `n ≥ 1` counted neighbours raises the
count to `n + 1` and scales the averaged avoidance vector by `n / (n + 1)`. -/
theorem AvoidCount_coincident (E : Engine) (self c : AUnit)
    (hS0 : E.Sqrt 0 = 0) (hR : 0 < self.AvoidanceRadius)
    (hid : c.Id ≠ self.Id) (hloc : c.Location = self.Location) :
    (∀ L, AvoidCount E self L
        = (L.filter (fun v => decide (v.Id ≠ self.Id)
            && decide (FVector.Distance E self.Location v.Location
              < self.AvoidanceRadius))).length)
      ∧ FVector.Distance E self.Location c.Location = 0
      ∧ FVector.GetSafeNormal E (FVector.sub self.Location c.Location) = FVector.ZeroVector
      ∧ (∀ acc n, AvoidanceLoop E self self.Location [c] (acc, n) = (acc, n + 1))
      ∧ (∀ L, L.filter (fun v => decide (v.Id ≠ self.Id)
            && decide (FVector.Distance E self.Location v.Location < self.AvoidanceRadius))
          = [c] →
          AvoidCount E self L = 1
            ∧ AveragedAvoidance E self L = FVector.ZeroVector
            ∧ BlendFactor E self L = 0
            ∧ (∀ D, FinalDirection E self L D = FVector.GetSafeNormal E D)
            ∧ (∀ D, FVector.SizeSquared D = 1 ∨ D = FVector.ZeroVector →
                FinalDirection E self L D = D))
      ∧ (∀ L1 L2,
          AvoidCount E self (L1 ++ c :: L2) = AvoidCount E self (L1 ++ L2) + 1
            ∧ (1 ≤ AvoidCount E self (L1 ++ L2) →
                AveragedAvoidance E self (L1 ++ c :: L2)
                  = FVector.scale (AveragedAvoidance E self (L1 ++ L2))
                      ((AvoidCount E self (L1 ++ L2) : ℚ)
                        / ((AvoidCount E self (L1 ++ L2) : ℚ) + 1)))) := by
  have hz : FVector.SizeSquared FVector.ZeroVector = 0 := by
    simp [FVector.SizeSquared, FVector.ZeroVector]
  have hdist : FVector.Distance E self.Location c.Location = 0 := by
    unfold FVector.Distance
    rw [hloc, FVector_sub_self, hz, hS0]
  have hstep : ∀ acc n, AvoidanceLoop E self self.Location [c] (acc, n) = (acc, n + 1) := by
    intro acc n
    rw [AvoidanceLoop_coincident E self c acc n [] hS0 hR hid hloc]
    rfl
  refine ⟨?_, hdist, ?_, hstep, ?_, ?_⟩
  · intro L
    unfold AvoidCount
    rw [AvoidanceLoop_count]
    simp
  · rw [hloc, FVector_sub_self, GetSafeNormal_zero]
  · intro L hL
    have hloop : AvoidanceLoop E self self.Location L (FVector.ZeroVector, 0)
        = (FVector.ZeroVector, 1) := by
      rw [AvoidanceLoop_filter, hL, hstep]
    have hcount : AvoidCount E self L = 1 := by
      unfold AvoidCount
      rw [hloop]
    have havg : AveragedAvoidance E self L = FVector.ZeroVector := by
      unfold AveragedAvoidance
      rw [hloop]
      simp [FVector.divide, FVector.ZeroVector]
    have hblend : BlendFactor E self L = 0 := by
      unfold BlendFactor
      rw [havg]
      simp [FVector.Size, hz, hS0, Clamp]
    have hfinal : ∀ D, FinalDirection E self L D = FVector.GetSafeNormal E D := by
      intro D
      unfold FinalDirection
      rw [hcount, havg, hblend]
      have hl : FVector.Lerp D FVector.ZeroVector 0 = D := by
        cases D
        simp [FVector.Lerp, FVector.add, FVector.scale, FVector.sub, FVector.ZeroVector]
      simp [hl]
    refine ⟨hcount, havg, hblend, hfinal, ?_⟩
    intro D hD
    rw [hfinal D]
    rcases hD with h | h
    · simp [FVector.GetSafeNormal, h]
    · rw [h, GetSafeNormal_zero]
  · intro L1 L2
    have h1 : AvoidanceLoop E self self.Location (L1 ++ c :: L2) (FVector.ZeroVector, 0)
        = ((AvoidanceLoop E self self.Location (L1 ++ L2) (FVector.ZeroVector, 0)).1,
            (AvoidanceLoop E self self.Location (L1 ++ L2) (FVector.ZeroVector, 0)).2 + 1) := by
      rw [AvoidanceLoop_append, AvoidanceLoop_append]
      obtain ⟨a, k⟩ := AvoidanceLoop E self self.Location L1 (FVector.ZeroVector, 0)
      rw [AvoidanceLoop_coincident E self c a k L2 hS0 hR hid hloc,
        AvoidanceLoop_acc E self self.Location L2 a (k + 1),
        AvoidanceLoop_acc E self self.Location L2 a k]
      simp only [Prod.mk.injEq, true_and]
      omega
    refine ⟨?_, ?_⟩
    · unfold AvoidCount
      rw [h1]
    · intro hn
      unfold AveragedAvoidance AvoidCount
      rw [h1]
      unfold AvoidCount at hn
      have hq : ((AvoidanceLoop E self self.Location (L1 ++ L2)
          (FVector.ZeroVector, 0)).2 : ℚ) ≠ 0 := by
        have : (1 : ℚ) ≤ ((AvoidanceLoop E self self.Location (L1 ++ L2)
            (FVector.ZeroVector, 0)).2 : ℚ) := by exact_mod_cast hn
        linarith
      have hq1 : ((AvoidanceLoop E self self.Location (L1 ++ L2)
          (FVector.ZeroVector, 0)).2 : ℚ) + 1 ≠ 0 := by
        have : (0 : ℚ) ≤ ((AvoidanceLoop E self self.Location (L1 ++ L2)
            (FVector.ZeroVector, 0)).2 : ℚ) := Nat.cast_nonneg _
        linarith
      simp only [FVector.divide, FVector.scale, Nat.cast_add, Nat.cast_one, FVector.mk.injEq]
      refine ⟨?_, ?_, ?_⟩ <;> field_simp

end AUnit

namespace AUnit

theorem AvoidCount_coincident_witness :
    BlendFactor sampleEngine (sampleUnit 1 ⟨0, 0, 0⟩)
        [sampleUnit 1 ⟨0, 0, 0⟩, sampleUnit 2 ⟨0, 0, 0⟩] = 0
      ∧ FinalDirection sampleEngine (sampleUnit 1 ⟨0, 0, 0⟩)
          [sampleUnit 1 ⟨0, 0, 0⟩, sampleUnit 2 ⟨0, 0, 0⟩] ⟨1, 0, 0⟩ = ⟨1, 0, 0⟩
      ∧ AvoidCount sampleEngine (sampleUnit 1 ⟨0, 0, 0⟩)
          ([sampleUnit 1 ⟨0, 0, 0⟩, sampleUnit 3 ⟨50, 0, 0⟩] ++ sampleUnit 2 ⟨0, 0, 0⟩ :: []) = 2
      ∧ AveragedAvoidance sampleEngine (sampleUnit 1 ⟨0, 0, 0⟩)
          ([sampleUnit 1 ⟨0, 0, 0⟩, sampleUnit 3 ⟨50, 0, 0⟩] ++ sampleUnit 2 ⟨0, 0, 0⟩ :: [])
        = FVector.scale
            (AveragedAvoidance sampleEngine (sampleUnit 1 ⟨0, 0, 0⟩)
              ([sampleUnit 1 ⟨0, 0, 0⟩, sampleUnit 3 ⟨50, 0, 0⟩] ++ []))
            ((AvoidCount sampleEngine (sampleUnit 1 ⟨0, 0, 0⟩)
                ([sampleUnit 1 ⟨0, 0, 0⟩, sampleUnit 3 ⟨50, 0, 0⟩] ++ []) : ℚ)
              / ((AvoidCount sampleEngine (sampleUnit 1 ⟨0, 0, 0⟩)
                ([sampleUnit 1 ⟨0, 0, 0⟩, sampleUnit 3 ⟨50, 0, 0⟩] ++ []) : ℚ) + 1)) :=
  have h := AvoidCount_coincident sampleEngine (sampleUnit 1 ⟨0, 0, 0⟩)
    (sampleUnit 2 ⟨0, 0, 0⟩) (by decide!) (by decide!) (by decide) rfl
  ⟨(h.2.2.2.2.1 _ (by decide!)).2.2.1,
    (h.2.2.2.2.1 _ (by decide!)).2.2.2.2 _ (Or.inl (by decide!)),
    by decide!,
    (h.2.2.2.2.2 _ _).2 (by decide!)⟩

end AUnit

/-! ## The validity flag of the placement candidate: theorems -/

namespace ARTS_PlayerController

theorem GetMousePositionInWorld_congr (W V : UWorld) (Mouse : Option (FVector × FVector))
    (hT : W.LineTraceSingleByChannel = V.LineTraceSingleByChannel) :
    GetMousePositionInWorld W Mouse = GetMousePositionInWorld V Mouse := by
  unfold GetMousePositionInWorld
  rw [hT]

theorem spawn_fields (cls : BuildingClassDefaults) (Id : Nat) (Location : FVector) :
    (ABuilding.spawn cls Id Location).Id = Id
      ∧ (ABuilding.spawn cls Id Location).Location = Location
      ∧ (ABuilding.spawn cls Id Location).bIsPlacementValid = false := by
  unfold ABuilding.spawn ABuilding.BeginPlay
  simp only
  split <;> exact ⟨rfl, rfl, rfl⟩

theorem SetPreviewMode_fields (b : ABuilding) (bEnable : Bool) :
    (b.SetPreviewMode bEnable).Id = b.Id
      ∧ (b.SetPreviewMode bEnable).Location = b.Location
      ∧ (b.SetPreviewMode bEnable).bIsPlacementValid = b.bIsPlacementValid := by
  unfold ABuilding.SetPreviewMode
  split <;> simp only <;> split <;> exact ⟨rfl, rfl, rfl⟩

/-- What `StartBuildingPlacement` leaves behind when a building class is
configured and the next actor identity is not in use: the new actor is the
candidate, building mode is on, and the candidate stands at the origin with the
constructor's `bIsPlacementValid = false`. -/
theorem StartBuildingPlacement_candidate (W : UWorld) (C : ARTS_PlayerController)
    (cls : BuildingClassDefaults) (hcls : C.BuildingClass = some cls)
    (hfresh : ∀ b ∈ W.Buildings, b.Id ≠ W.NextId) :
    (StartBuildingPlacement W C).2.CurrentBuilding = some W.NextId
      ∧ (StartBuildingPlacement W C).2.bIsBuildingMode = true
      ∧ (StartBuildingPlacement W C).1.LineTraceSingleByChannel = W.LineTraceSingleByChannel
      ∧ ∃ b, (StartBuildingPlacement W C).1.findBuilding W.NextId = some b
          ∧ b.bIsPlacementValid = false ∧ b.Location = FVector.ZeroVector := by
  have key : ∀ V : UWorld, V.NextId = W.NextId →
      V.LineTraceSingleByChannel = W.LineTraceSingleByChannel →
      (∀ b ∈ V.Buildings, b.Id ≠ W.NextId) →
      ((V.SpawnBuilding cls FVector.ZeroVector).1.updateBuilding W.NextId
          (fun b => b.SetPreviewMode true)).LineTraceSingleByChannel
          = W.LineTraceSingleByChannel
        ∧ ∃ b, ((V.SpawnBuilding cls FVector.ZeroVector).1.updateBuilding W.NextId
            (fun b => b.SetPreviewMode true)).findBuilding W.NextId = some b
          ∧ b.bIsPlacementValid = false ∧ b.Location = FVector.ZeroVector := by
    intro V hN hT hV
    refine ⟨hT, ?_⟩
    have hnone : V.Buildings.find? (fun b => decide (b.Id = W.NextId)) = none := by
      rw [List.find?_eq_none]
      intro b hb
      simpa using hV b hb
    have hfind : (V.SpawnBuilding cls FVector.ZeroVector).1.findBuilding W.NextId
        = some (ABuilding.spawn cls W.NextId FVector.ZeroVector) := by
      simp only [UWorld.SpawnBuilding, UWorld.findBuilding, List.find?_append, hnone, hN,
        List.find?_cons, (spawn_fields cls W.NextId FVector.ZeroVector).1, decide_True,
        Option.none_or]
    rw [UWorld.findBuilding_updateBuilding _ _ (fun b => b.SetPreviewMode true)
      (fun b => (SetPreviewMode_fields b true).1), hfind]
    refine ⟨_, rfl, ?_, ?_⟩
    · rw [(SetPreviewMode_fields _ true).2.2]
      exact (spawn_fields cls W.NextId FVector.ZeroVector).2.2
    · rw [(SetPreviewMode_fields _ true).2.1]
      exact (spawn_fields cls W.NextId FVector.ZeroVector).2.1
  unfold StartBuildingPlacement
  rw [hcls]
  cases hcur : C.CurrentBuilding with
  | none =>
    have h := key W rfl rfl hfresh
    exact ⟨rfl, rfl, h.1, h.2⟩
  | some Id0 =>
    have h := key (W.destroyBuilding Id0) rfl rfl (by
      intro b hb
      exact hfresh b (List.mem_of_mem_filter hb))
    exact ⟨rfl, rfl, h.1, h.2⟩

/-- A `TryPlaceBuilding` call on a candidate whose `bIsPlacementValid` is false
places nothing: the controller is as before and the candidate, moved or not,
keeps the flag. -/
theorem TryPlaceBuilding_blocked (W : UWorld) (C : ARTS_PlayerController)
    (Mouse : Option (FVector × FVector)) (Id : Nat) (b : ABuilding)
    (hC : C.CurrentBuilding = some Id) (hb : W.findBuilding Id = some b)
    (hf : b.bIsPlacementValid = false) :
    (TryPlaceBuilding W C Mouse).2 = C
      ∧ (TryPlaceBuilding W C Mouse).1.LineTraceSingleByChannel = W.LineTraceSingleByChannel
      ∧ ∃ b1, (TryPlaceBuilding W C Mouse).1.findBuilding Id = some b1
          ∧ b1.bIsPlacementValid = false := by
  unfold TryPlaceBuilding
  rw [hC]
  simp only
  cases hm : C.bIsBuildingMode with
  | false => exact ⟨rfl, rfl, b, hb, hf⟩
  | true =>
    cases hM : GetMousePositionInWorld W Mouse with
    | none => exact ⟨rfl, rfl, b, hb, hf⟩
    | some Hit =>
      simp only [Bool.not_true, Bool.false_eq_true, if_false]
      have hfind : (W.updateBuilding Id
          (fun b => { b with Location := SnapToGrid C.GridSize Hit })).findBuilding Id
          = some { b with Location := SnapToGrid C.GridSize Hit } := by
        rw [UWorld.findBuilding_updateBuilding W Id
          (fun b => { b with Location := SnapToGrid C.GridSize Hit }) (fun _ => rfl), hb]
        rfl
      rw [hfind]
      simp only [ABuilding.CanBePlaced, hf, Bool.false_eq_true, if_false]
      exact ⟨trivial, rfl, _, hfind, hf⟩

/-- The candidate keeps `bIsPlacementValid = false` along every sequence of
`TryPlaceBuilding` calls and of `UpdateBuildingPreview` calls whose mouse
projection misses. -/
theorem Run_flag_false (E : Engine) (T : FVector → FVector → List Nat → FHitResult)
    (Id : Nat) (calls : List Call) :
    ∀ s : UWorld × ARTS_PlayerController,
      s.1.LineTraceSingleByChannel = T →
      s.2.CurrentBuilding = some Id →
      (∃ b, s.1.findBuilding Id = some b ∧ b.bIsPlacementValid = false) →
      (∀ c ∈ calls, (∃ Mouse, c = Call.TryPlaceBuilding Mouse)
        ∨ (∃ Mouse, c = Call.UpdateBuildingPreview Mouse
            ∧ ∀ V : UWorld, V.LineTraceSingleByChannel = T →
                GetMousePositionInWorld V Mouse = none)) →
      (Run E s calls).2 = s.2
        ∧ ∃ b, (Run E s calls).1.findBuilding Id = some b ∧ b.bIsPlacementValid = false := by
  induction calls with
  | nil =>
    intro s _ _ hb _
    exact ⟨rfl, hb⟩
  | cons c rest ih =>
    intro s hT hC hb hcalls
    have hrest : ∀ c ∈ rest, (∃ Mouse, c = Call.TryPlaceBuilding Mouse)
        ∨ (∃ Mouse, c = Call.UpdateBuildingPreview Mouse
            ∧ ∀ V : UWorld, V.LineTraceSingleByChannel = T →
                GetMousePositionInWorld V Mouse = none) :=
      fun c hc => hcalls c (List.mem_cons_of_mem _ hc)
    obtain ⟨b, hfind, hflag⟩ := hb
    rcases hcalls c (List.mem_cons_self _ _) with ⟨Mouse, hc⟩ | ⟨Mouse, hc, hmiss⟩
    · subst hc
      have h := TryPlaceBuilding_blocked s.1 s.2 Mouse Id b hC hfind hflag
      simp only [Run]
      have := ih (TryPlaceBuilding s.1 s.2 Mouse) (h.2.1.trans hT) (by rw [h.1]; exact hC)
        h.2.2 hrest
      rw [h.1] at this
      exact this
    · subst hc
      have hU : UpdateBuildingPreview E s.1 s.2 Mouse = s.1 := by
        unfold UpdateBuildingPreview
        rw [hC]
        simp only [hmiss s.1 hT]
      simp only [Run, hU]
      exact ih (s.1, s.2) hT hC ⟨b, hfind, hflag⟩ hrest

end ARTS_PlayerController

namespace ARTS_PlayerController

/-- In any state: the flag after an update with a hit, and the false flag of a
new candidate (created with a building class configured and an unused next
actor identity) along every sequence of `TryPlaceBuilding` calls and of
`UpdateBuildingPreview` calls whose mouse projection misses. -/
theorem Placement_flag (E : Engine) (W : UWorld) (C : ARTS_PlayerController) :
    (∀ (Mouse : Option (FVector × FVector)) (Id : Nat) (Hit : FVector) (b0 : ABuilding),
        C.CurrentBuilding = some Id → GetMousePositionInWorld W Mouse = some Hit →
        W.findBuilding Id = some b0 →
        ∃ b, (UpdateBuildingPreview E W C Mouse).findBuilding Id = some b
          ∧ b.Location = SnapToGrid C.GridSize Hit
          ∧ b.bIsPlacementValid
              = decide (ABuilding.ValidatePlacement E (UpdateBuildingPreview E W C Mouse) b
                  b.Location = EBuildingPlacementState.Valid))
      ∧ (∀ cls : BuildingClassDefaults, C.BuildingClass = some cls →
          (∀ b ∈ W.Buildings, b.Id ≠ W.NextId) →
          (StartBuildingPlacement W C).2.CurrentBuilding = some W.NextId
            ∧ (∃ b, (StartBuildingPlacement W C).1.findBuilding W.NextId = some b
                ∧ b.bIsPlacementValid = false)
            ∧ ∀ calls : List Call,
                (∀ c ∈ calls, (∃ Mouse, c = Call.TryPlaceBuilding Mouse)
                  ∨ (∃ Mouse, c = Call.UpdateBuildingPreview Mouse
                      ∧ GetMousePositionInWorld W Mouse = none)) →
                (Run E (StartBuildingPlacement W C) calls).2.CurrentBuilding = some W.NextId
                  ∧ ∃ b, (Run E (StartBuildingPlacement W C) calls).1.findBuilding W.NextId
                        = some b
                      ∧ b.bIsPlacementValid = false) := by
  constructor
  · intro Mouse Id Hit b0 hC hM hb
    exact UpdateBuildingPreview_flag E W C Mouse Id Hit b0 hC hM hb
  · intro cls hcls hfresh
    obtain ⟨hcur, _, hT, b, hfind, hflag, _⟩ := StartBuildingPlacement_candidate W C cls hcls hfresh
    refine ⟨hcur, ⟨b, hfind, hflag⟩, ?_⟩
    intro calls hcalls
    have h := Run_flag_false E W.LineTraceSingleByChannel W.NextId calls
      (StartBuildingPlacement W C) hT hcur ⟨b, hfind, hflag⟩ (by
        intro c hc
        rcases hcalls c hc with h | ⟨Mouse, hceq, hmiss⟩
        · exact Or.inl h
        · refine Or.inr ⟨Mouse, hceq, fun V hV => ?_⟩
          rw [GetMousePositionInWorld_congr V W Mouse hV]
          exact hmiss)
    exact ⟨by rw [h.1]; exact hcur, h.2⟩

theorem updateBuilding_fresh (W : UWorld) (Id : Nat) (f : ABuilding → ABuilding)
    (hf : ∀ b, (f b).Id = b.Id) (h : ∀ b ∈ W.Buildings, b.Id < W.NextId) :
    ∀ b ∈ (W.updateBuilding Id f).Buildings, b.Id < (W.updateBuilding Id f).NextId := by
  intro b hb
  simp only [UWorld.updateBuilding, List.mem_map] at hb
  obtain ⟨b0, hb0, hbe⟩ := hb
  have hid : b.Id = b0.Id := by
    rw [← hbe]
    split
    · exact hf b0
    · rfl
  rw [hid]
  exact h b0 hb0

theorem destroyBuilding_fresh (W : UWorld) (Id : Nat)
    (h : ∀ b ∈ W.Buildings, b.Id < W.NextId) :
    ∀ b ∈ (W.destroyBuilding Id).Buildings, b.Id < (W.destroyBuilding Id).NextId := by
  intro b hb
  exact h b (List.mem_of_mem_filter hb)

theorem SpawnBuilding_fresh (W : UWorld) (cls : BuildingClassDefaults) (Location : FVector)
    (h : ∀ b ∈ W.Buildings, b.Id < W.NextId) :
    ∀ b ∈ (W.SpawnBuilding cls Location).1.Buildings,
      b.Id < (W.SpawnBuilding cls Location).1.NextId := by
  intro b hb
  simp only [UWorld.SpawnBuilding, List.mem_append, List.mem_singleton] at hb ⊢
  rcases hb with hb | hb
  · exact Nat.lt_succ_of_lt (h b hb)
  · rw [hb, (spawn_fields cls W.NextId Location).1]
    exact Nat.lt_succ_self _

theorem StartBuildingPlacement_fresh (W : UWorld) (C : ARTS_PlayerController)
    (h : ∀ b ∈ W.Buildings, b.Id < W.NextId) :
    ∀ b ∈ (StartBuildingPlacement W C).1.Buildings,
      b.Id < (StartBuildingPlacement W C).1.NextId := by
  unfold StartBuildingPlacement
  cases C.BuildingClass with
  | none => exact h
  | some cls =>
    cases C.CurrentBuilding with
    | none =>
      exact updateBuilding_fresh _ _ _ (fun b => (SetPreviewMode_fields b true).1)
        (SpawnBuilding_fresh W cls _ h)
    | some Id0 =>
      exact updateBuilding_fresh _ _ _ (fun b => (SetPreviewMode_fields b true).1)
        (SpawnBuilding_fresh _ cls _ (destroyBuilding_fresh W Id0 h))

theorem UpdateBuildingPreview_fresh (E : Engine) (W : UWorld) (C : ARTS_PlayerController)
    (Mouse : Option (FVector × FVector)) (h : ∀ b ∈ W.Buildings, b.Id < W.NextId) :
    ∀ b ∈ (UpdateBuildingPreview E W C Mouse).Buildings,
      b.Id < (UpdateBuildingPreview E W C Mouse).NextId := by
  unfold UpdateBuildingPreview
  cases C.CurrentBuilding with
  | none => exact h
  | some Id =>
    cases GetMousePositionInWorld W Mouse with
    | none => exact h
    | some Hit =>
      exact updateBuilding_fresh _ _ _
        (fun b => ABuilding.UpdatePlacementValidation_Id E _ b _)
        (updateBuilding_fresh W Id _ (fun _ => rfl) h)

theorem OnPlaced_Id (b : ABuilding) : b.OnPlaced.Id = b.Id := by
  unfold ABuilding.OnPlaced
  simp only
  split <;> rfl

theorem TryPlaceBuilding_fresh (W : UWorld) (C : ARTS_PlayerController)
    (Mouse : Option (FVector × FVector)) (h : ∀ b ∈ W.Buildings, b.Id < W.NextId) :
    ∀ b ∈ (TryPlaceBuilding W C Mouse).1.Buildings,
      b.Id < (TryPlaceBuilding W C Mouse).1.NextId := by
  unfold TryPlaceBuilding
  cases C.CurrentBuilding with
  | none => exact h
  | some Id =>
    simp only
    cases C.bIsBuildingMode with
    | false => exact h
    | true =>
      cases GetMousePositionInWorld W Mouse with
      | none => exact h
      | some Hit =>
        have h1 := updateBuilding_fresh W Id
          (fun b => { b with Location := SnapToGrid C.GridSize Hit }) (fun _ => rfl) h
        simp only [Bool.not_true, Bool.false_eq_true, if_false]
        split
        · exact h1
        · split
          · exact updateBuilding_fresh _ _ _ (fun _ => rfl)
              (StartBuildingPlacement_fresh _ _
                (updateBuilding_fresh _ Id ABuilding.OnPlaced OnPlaced_Id h1))
          · exact h1

theorem CancelBuildingPlacement_fresh (W : UWorld) (C : ARTS_PlayerController)
    (h : ∀ b ∈ W.Buildings, b.Id < W.NextId) :
    ∀ b ∈ (CancelBuildingPlacement W C).1.Buildings,
      b.Id < (CancelBuildingPlacement W C).1.NextId := by
  unfold CancelBuildingPlacement
  cases C.CurrentBuilding with
  | none => exact h
  | some Id => exact destroyBuilding_fresh W Id h

/-- Every sequence of placement calls keeps the identities of the live
buildings below the next identity to be handed out. -/
theorem Run_fresh (E : Engine) (calls : List Call) :
    ∀ s : UWorld × ARTS_PlayerController,
      (∀ b ∈ s.1.Buildings, b.Id < s.1.NextId) →
      ∀ b ∈ (Run E s calls).1.Buildings, b.Id < (Run E s calls).1.NextId := by
  induction calls with
  | nil => intro s h; exact h
  | cons c rest ih =>
    intro s h
    cases c with
    | StartBuildingPlacement =>
      exact ih _ (StartBuildingPlacement_fresh s.1 s.2 h)
    | UpdateBuildingPreview Mouse =>
      exact ih (UpdateBuildingPreview E s.1 s.2 Mouse, s.2)
        (UpdateBuildingPreview_fresh E s.1 s.2 Mouse h)
    | TryPlaceBuilding Mouse =>
      exact ih _ (TryPlaceBuilding_fresh s.1 s.2 Mouse h)
    | CancelBuildingPlacement =>
      exact ih _ (CancelBuildingPlacement_fresh s.1 s.2 h)

end ARTS_PlayerController

namespace ARTS_PlayerController

/-- C8 (amended): in every state reached by placement calls from a world whose
live buildings have identities below the next one to be handed out: after an
`UpdateBuildingPreview` call made with a live candidate and a mouse projection
that hits, the candidate stands at the grid-snapped hit point and its
`bIsPlacementValid` equals `ValidatePlacement(position) == Valid` for that
position. A candidate created by `StartBuildingPlacement` (with a building
class configured) has `bIsPlacementValid = false`, and it is still the
candidate with `bIsPlacementValid = false` after every sequence of
`TryPlaceBuilding` calls and of `UpdateBuildingPreview` calls whose mouse
projection misses, that is until its first update with a hit. -/
theorem CurrentBuilding_flag (E : Engine) (W0 : UWorld) (C0 : ARTS_PlayerController)
    (pre : List Call) (W : UWorld) (C : ARTS_PlayerController)
    (hwf : ∀ b ∈ W0.Buildings, b.Id < W0.NextId)
    (hreach : Run E (W0, C0) pre = (W, C)) :
    (∀ (Mouse : Option (FVector × FVector)) (Id : Nat) (Hit : FVector) (b0 : ABuilding),
        C.CurrentBuilding = some Id → GetMousePositionInWorld W Mouse = some Hit →
        W.findBuilding Id = some b0 →
        ∃ b, (UpdateBuildingPreview E W C Mouse).findBuilding Id = some b
          ∧ b.Location = SnapToGrid C.GridSize Hit
          ∧ b.bIsPlacementValid
              = decide (ABuilding.ValidatePlacement E (UpdateBuildingPreview E W C Mouse) b
                  b.Location = EBuildingPlacementState.Valid))
      ∧ (∀ cls : BuildingClassDefaults, C.BuildingClass = some cls →
          (StartBuildingPlacement W C).2.CurrentBuilding = some W.NextId
            ∧ (∃ b, (StartBuildingPlacement W C).1.findBuilding W.NextId = some b
                ∧ b.bIsPlacementValid = false)
            ∧ ∀ calls : List Call,
                (∀ c ∈ calls, (∃ Mouse, c = Call.TryPlaceBuilding Mouse)
                  ∨ (∃ Mouse, c = Call.UpdateBuildingPreview Mouse
                      ∧ GetMousePositionInWorld W Mouse = none)) →
                (Run E (StartBuildingPlacement W C) calls).2.CurrentBuilding = some W.NextId
                  ∧ ∃ b, (Run E (StartBuildingPlacement W C) calls).1.findBuilding W.NextId
                        = some b
                      ∧ b.bIsPlacementValid = false) := by
  have hfresh : ∀ b ∈ W.Buildings, b.Id ≠ W.NextId := by
    intro b hb
    have h := Run_fresh E pre (W0, C0) hwf
    rw [hreach] at h
    exact ne_of_lt (h b hb)
  have h := Placement_flag E W C
  exact ⟨h.1, fun cls hcls => h.2 cls hcls hfresh⟩

theorem CurrentBuilding_flag_witness :
    (∃ b, (UpdateBuildingPreview sampleEngine samplePreview.1 samplePreview.2
            sampleMouse).findBuilding 11 = some b
        ∧ b.Location = SnapToGrid samplePreview.2.GridSize ⟨130, 40, 0⟩
        ∧ b.bIsPlacementValid
            = decide (ABuilding.ValidatePlacement sampleEngine
                (UpdateBuildingPreview sampleEngine samplePreview.1 samplePreview.2 sampleMouse)
                b b.Location = EBuildingPlacementState.Valid))
      ∧ (Run sampleEngine (StartBuildingPlacement sampleTown sampleController)
            [Call.TryPlaceBuilding sampleMouse, Call.UpdateBuildingPreview none,
              Call.TryPlaceBuilding none]).2.CurrentBuilding = some 11
      ∧ ∃ b, (Run sampleEngine (StartBuildingPlacement sampleTown sampleController)
            [Call.TryPlaceBuilding sampleMouse, Call.UpdateBuildingPreview none,
              Call.TryPlaceBuilding none]).1.findBuilding 11 = some b
          ∧ b.bIsPlacementValid = false :=
  ⟨(CurrentBuilding_flag sampleEngine sampleTown sampleController
      [Call.StartBuildingPlacement] samplePreview.1 samplePreview.2 (by decide) rfl).1
      sampleMouse 11 ⟨130, 40, 0⟩
      ((ABuilding.spawn sampleClass 11 FVector.ZeroVector).SetPreviewMode true)
      rfl
      (by simp [GetMousePositionInWorld, sampleMouse, samplePreview, StartBuildingPlacement,
            sampleController, sampleTown, sampleWorld, sampleTrace, UWorld.SpawnBuilding,
            UWorld.updateBuilding, FVector.add, FVector.scale])
      rfl,
    ((CurrentBuilding_flag sampleEngine sampleTown sampleController [] sampleTown
      sampleController (by decide) rfl).2 sampleClass rfl).2.2
      [Call.TryPlaceBuilding sampleMouse, Call.UpdateBuildingPreview none,
        Call.TryPlaceBuilding none]
      (by
        intro c hc
        simp only [List.mem_cons, List.not_mem_nil, or_false] at hc
        rcases hc with h | h | h
        · exact Or.inl ⟨_, h⟩
        · exact Or.inr ⟨none, h, rfl⟩
        · exact Or.inl ⟨_, h⟩)⟩

end ARTS_PlayerController

/-! ## Invocations of the flow-field refresh: theorems -/

namespace Aprototype1Character

/-- The timer after a tick: zero when the tick refreshes, grown by `DeltaTime`
when the character moves in third-person view without a refresh, as before
otherwise. -/
theorem Tick_timer (E : Engine) (G : AFlowFieldSystem → FVector → FVector)
    (DeltaTime : ℚ) (c : Aprototype1Character) :
    (Tick E G DeltaTime c).TimeSinceLastFlowFieldUpdate
      = if c.bIsMoving = true ∧ c.bIsFirstPerson = false then
          if c.FlowFieldUpdateInterval ≤ c.TimeSinceLastFlowFieldUpdate + DeltaTime then 0
          else c.TimeSinceLastFlowFieldUpdate + DeltaTime
        else c.TimeSinceLastFlowFieldUpdate := by
  unfold Tick
  by_cases hm : (c.bIsMoving && !c.bIsFirstPerson) = true
  · have hm2 : c.bIsMoving = true ∧ c.bIsFirstPerson = false := by simpa using hm
    have ha := ArrivalStep_fields E (FollowFlowField E G (RefreshStep DeltaTime c))
    have hf := FollowFlowField_fields E G (RefreshStep DeltaTime c)
    rw [if_pos hm, if_pos hm2, ha.2.2, hf.2.2.2.2.2.1]
    unfold RefreshStep
    simp only [ge_iff_le]
    split_ifs <;> rfl
  · have hm2 : ¬ (c.bIsMoving = true ∧ c.bIsFirstPerson = false) := by simpa using hm
    rw [if_neg hm, if_neg hm2]

namespace Observed

theorem RefreshStep_Character (DeltaTime : ℚ) (o : Observed) :
    (RefreshStep DeltaTime o).Character
      = Aprototype1Character.RefreshStep DeltaTime o.Character := by
  unfold RefreshStep Aprototype1Character.RefreshStep
  simp only
  split_ifs <;> rfl

theorem RefreshStep_Invocations (DeltaTime : ℚ) (o : Observed) :
    (RefreshStep DeltaTime o).Invocations
      = if o.Character.FlowFieldUpdateInterval
            ≤ o.Character.TimeSinceLastFlowFieldUpdate + DeltaTime
        then o.Invocations + 1 else o.Invocations := by
  unfold RefreshStep
  simp only [ge_iff_le]
  split_ifs <;> rfl

theorem Tick_Character (E : Engine) (G : AFlowFieldSystem → FVector → FVector)
    (DeltaTime : ℚ) (o : Observed) :
    (Tick E G DeltaTime o).Character = Aprototype1Character.Tick E G DeltaTime o.Character := by
  unfold Tick Aprototype1Character.Tick
  split_ifs
  · simp only [RefreshStep_Character]
  · rfl

theorem Tick_Invocations (E : Engine) (G : AFlowFieldSystem → FVector → FVector)
    (DeltaTime : ℚ) (o : Observed) :
    (Tick E G DeltaTime o).Invocations
      = if (o.Character.bIsMoving = true ∧ o.Character.bIsFirstPerson = false)
            ∧ o.Character.FlowFieldUpdateInterval
              ≤ o.Character.TimeSinceLastFlowFieldUpdate + DeltaTime
        then o.Invocations + 1 else o.Invocations := by
  unfold Tick
  by_cases hm : (o.Character.bIsMoving && !o.Character.bIsFirstPerson) = true
  · have hm2 : o.Character.bIsMoving = true ∧ o.Character.bIsFirstPerson = false := by
      simpa using hm
    rw [if_pos hm]
    simp only [RefreshStep_Invocations, hm2.1, hm2.2, and_self, true_and]
  · have hm2 : ¬ (o.Character.bIsMoving = true ∧ o.Character.bIsFirstPerson = false) := by
      simpa using hm
    rw [if_neg hm, if_neg (fun h => hm2 h.1)]

theorem MoveToLocation_Character (Destination : FVector) (Nav : Option FVector) (o : Observed) :
    (MoveToLocation Destination Nav o).Character
      = Aprototype1Character.MoveToLocation Destination Nav o.Character := by
  unfold MoveToLocation Aprototype1Character.MoveToLocation
  cases Nav <;> rfl

theorem TickGaps_spacing (E : Engine) (G : AFlowFieldSystem → FVector → FVector)
    (calls : List Call) :
    ∀ (o : Observed) (since : Option ℚ),
      (∀ dt, Call.Tick dt ∈ calls → 0 ≤ dt) →
      (∀ t, since = some t → o.Character.TimeSinceLastFlowFieldUpdate ≤ t ∧ 0 ≤ t) →
      ∀ g ∈ TickGaps E G o since calls, o.Character.FlowFieldUpdateInterval ≤ g := by
  induction calls with
  | nil =>
    intro o since _ _ g hg
    simp [TickGaps] at hg
  | cons call rest ih =>
    intro o since hdt hinv g hg
    have hrest : ∀ dt, Call.Tick dt ∈ rest → 0 ≤ dt :=
      fun dt h => hdt dt (List.mem_cons_of_mem _ h)
    cases call with
    | MoveToLocation Destination Nav =>
      have hf := MoveToLocation_fields Destination Nav o.Character
      simp only [TickGaps] at hg
      have := ih (MoveToLocation Destination Nav o) since hrest
        (by
          intro t ht
          rw [MoveToLocation_Character, hf.2]
          exact hinv t ht) g hg
      rw [MoveToLocation_Character, hf.1] at this
      exact this
    | Tick DeltaTime =>
      have h0 : 0 ≤ DeltaTime := hdt DeltaTime (List.mem_cons_self _ _)
      have hint := (Tick_refresh_cases E G DeltaTime o.Character).1
      have hI := Tick_Invocations E G DeltaTime o
      have hC := Tick_Character E G DeltaTime o
      have hT := Tick_timer E G DeltaTime o.Character
      simp only [TickGaps] at hg
      by_cases hcond : (o.Character.bIsMoving = true ∧ o.Character.bIsFirstPerson = false)
          ∧ o.Character.FlowFieldUpdateInterval
            ≤ o.Character.TimeSinceLastFlowFieldUpdate + DeltaTime
      · rw [if_pos hcond] at hI
        rw [if_pos hcond.1, if_pos hcond.2] at hT
        have hr : o.Invocations < (Tick E G DeltaTime o).Invocations := by
          rw [hI]
          exact Nat.lt_succ_self _
        simp only [hr, if_true] at hg
        have hnext : ∀ g ∈ TickGaps E G (Tick E G DeltaTime o) (some 0) rest,
            o.Character.FlowFieldUpdateInterval ≤ g := by
          intro g hg
          have := ih (Tick E G DeltaTime o) (some 0) hrest
            (by
              intro t ht
              have h : t = 0 := (Option.some.inj ht).symm
              subst h
              rw [hC, hT]
              exact ⟨le_refl _, le_refl _⟩) g hg
          rw [hC, hint] at this
          exact this
        cases since with
        | none => exact hnext g hg
        | some t =>
          simp only [List.mem_cons] at hg
          rcases hg with hg | hg
          · rw [hg]
            have := (hinv t rfl).1
            linarith [hcond.2]
          · exact hnext g hg
      · rw [if_neg hcond] at hI
        have hr : ¬ o.Invocations < (Tick E G DeltaTime o).Invocations := by
          rw [hI]
          exact lt_irrefl _
        simp only [hr, if_false] at hg
        have hle : (Tick E G DeltaTime o).Character.TimeSinceLastFlowFieldUpdate
            ≤ o.Character.TimeSinceLastFlowFieldUpdate + DeltaTime := by
          rw [hC, hT]
          split_ifs with h1 h2
          · exact absurd ⟨h1, h2⟩ hcond
          · exact le_refl _
          · linarith
        have := ih (Tick E G DeltaTime o) (since.map (fun t => t + DeltaTime)) hrest
          (by
            intro t ht
            cases since with
            | none => simp at ht
            | some t0 =>
              have h : t = t0 + DeltaTime := by simpa using ht.symm
              have hi := hinv t0 rfl
              subst h
              exact ⟨by linarith, by linarith⟩) g hg
        rw [hC, hint] at this
        exact this

end Observed

end Aprototype1Character

namespace Aprototype1Character

/-- C14 (amended): along every sequence of `MoveToLocation` calls and ticks
with non-negative `DeltaTime`, the tick time accumulated between two
consecutive invocations of `UpdateFlowField` made by `Tick` is at least
`FlowFieldUpdateInterval`, with or without a provider. A tick invokes
`UpdateFlowField` once when the character moves in third-person view and the
timer plus `DeltaTime` has reached the interval, and not at all otherwise. A
`MoveToLocation` whose navigation projection succeeds invokes `UpdateFlowField`
once, whatever the timer shows, hands the new target to the provider and leaves
the timer as it was; one whose projection fails does nothing. -/
theorem TickGaps_interval (E : Engine) (G : AFlowFieldSystem → FVector → FVector)
    (c : Aprototype1Character) (n : Nat) (calls : List Call)
    (hdt : ∀ dt, Call.Tick dt ∈ calls → 0 ≤ dt) :
    (∀ g ∈ Observed.TickGaps E G ⟨c, n⟩ none calls, c.FlowFieldUpdateInterval ≤ g)
      ∧ (∀ (o : Observed) (DeltaTime : ℚ),
          (Observed.Tick E G DeltaTime o).Character = Tick E G DeltaTime o.Character
            ∧ (Observed.Tick E G DeltaTime o).Invocations
              = if (o.Character.bIsMoving = true ∧ o.Character.bIsFirstPerson = false)
                    ∧ o.Character.FlowFieldUpdateInterval
                      ≤ o.Character.TimeSinceLastFlowFieldUpdate + DeltaTime
                then o.Invocations + 1 else o.Invocations)
      ∧ (∀ (o : Observed) (Destination NavLocation : FVector),
          (Observed.MoveToLocation Destination (some NavLocation) o).Character
              = MoveToLocation Destination (some NavLocation) o.Character
            ∧ (Observed.MoveToLocation Destination (some NavLocation) o).Invocations
              = o.Invocations + 1
            ∧ (MoveToLocation Destination (some NavLocation)
                o.Character).TimeSinceLastFlowFieldUpdate
              = o.Character.TimeSinceLastFlowFieldUpdate
            ∧ (∀ f, o.Character.FlowFieldSystem = some f →
                (MoveToLocation Destination (some NavLocation) o.Character).FlowFieldSystem
                  = some (f.UpdateFlowField NavLocation)))
      ∧ (∀ (o : Observed) (Destination : FVector),
          Observed.MoveToLocation Destination none o = o) := by
  refine ⟨?_, ?_, ?_, ?_⟩
  · exact Observed.TickGaps_spacing E G calls ⟨c, n⟩ none hdt (by intro t ht; simp at ht)
  · intro o DeltaTime
    exact ⟨Observed.Tick_Character E G DeltaTime o, Observed.Tick_Invocations E G DeltaTime o⟩
  · intro o Destination NavLocation
    refine ⟨Observed.MoveToLocation_Character _ _ o, rfl,
      (MoveToLocation_fields Destination (some NavLocation) o.Character).2, ?_⟩
    intro f hf
    simp [MoveToLocation, UpdateFlowField, hf]
  · intro o Destination
    rfl

theorem TickGaps_interval_witness :
    Observed.TickGaps sampleEngine sampleFlowDirection
        ⟨{ sampleCharacter with FlowFieldSystem := none }, 0⟩ none
        [Call.MoveToLocation ⟨500, 0, 0⟩ (some ⟨500, 0, 0⟩), Call.Tick (3 / 10),
          Call.Tick (3 / 10), Call.MoveToLocation ⟨400, 0, 0⟩ (some ⟨400, 0, 0⟩),
          Call.Tick (3 / 10), Call.Tick (3 / 10)] = [3 / 5]
      ∧ ({ sampleCharacter with FlowFieldSystem := none }
          : Aprototype1Character).FlowFieldUpdateInterval ≤ 3 / 5 :=
  ⟨by decide!,
    (TickGaps_interval sampleEngine sampleFlowDirection
      { sampleCharacter with FlowFieldSystem := none } 0
      [Call.MoveToLocation ⟨500, 0, 0⟩ (some ⟨500, 0, 0⟩), Call.Tick (3 / 10),
        Call.Tick (3 / 10), Call.MoveToLocation ⟨400, 0, 0⟩ (some ⟨400, 0, 0⟩),
        Call.Tick (3 / 10), Call.Tick (3 / 10)]
      (by
        intro dt h
        simp only [List.mem_cons, Call.Tick.injEq, List.not_mem_nil, reduceCtorEq,
          false_or, or_false, or_self] at h
        rw [h]
        norm_num)).1
      (3 / 5) (by decide!)⟩

end Aprototype1Character

/-! ## Unit movement over a field with square roots: theorems -/

namespace Exact

namespace AUnit

end AUnit

end Exact

namespace Exact

namespace AUnit

end AUnit

end Exact

namespace Exact

namespace AUnit

end AUnit

end Exact

namespace Exact

namespace AUnit

end AUnit

end Exact
/-! ## The field model over the rationals: theorems

Over the field of rationals, with the engine's square root, the field model
computes what the rational model computes. -/

theorem toExact_SizeSquared (a : FVector) :
    Exact.FVector.SizeSquared a.toExact = FVector.SizeSquared a := rfl

theorem toExact_sub (a b : FVector) :
    Exact.FVector.sub a.toExact b.toExact = (FVector.sub a b).toExact := rfl

theorem toExact_add (a b : FVector) :
    Exact.FVector.add a.toExact b.toExact = (FVector.add a b).toExact := rfl

theorem toExact_scale (a : FVector) (k : ℚ) :
    Exact.FVector.scale a.toExact k = (FVector.scale a k).toExact := rfl

theorem toExact_Distance (E : Engine) (a b : FVector) :
    Exact.FVector.Distance E.Sqrt a.toExact b.toExact = FVector.Distance E a b := rfl

theorem toExact_SMALL_NUMBER :
    (Exact.FVector.SMALL_NUMBER : ℚ) = FVector.SMALL_NUMBER := rfl

theorem toExact_GetSafeNormal (E : Engine) (a : FVector) :
    Exact.FVector.GetSafeNormal E.Sqrt a.toExact = (FVector.GetSafeNormal E a).toExact := by
  unfold Exact.FVector.GetSafeNormal FVector.GetSafeNormal
  simp only [toExact_SizeSquared, toExact_SMALL_NUMBER]
  split_ifs <;> rfl

theorem toExact_Normalize (E : Engine) (a : FVector) :
    Exact.FVector.Normalize E.Sqrt a.toExact = (FVector.Normalize E a).toExact := by
  unfold Exact.FVector.Normalize FVector.Normalize
  simp only [toExact_SizeSquared, toExact_SMALL_NUMBER]
  split_ifs <;> rfl

theorem toExact_StuckCheck (E : Engine) (u : AUnit) (DeltaTime RandX RandY : ℚ)
    (DirectionToTarget : FVector) :
    Exact.AUnit.StuckCheck E.Sqrt u.toExact DeltaTime RandX RandY DirectionToTarget.toExact
      = ((AUnit.StuckCheck E u DeltaTime RandX RandY DirectionToTarget).1.toExact,
          (AUnit.StuckCheck E u DeltaTime RandX RandY DirectionToTarget).2) := by
  have hn := toExact_Normalize E (FVector.add DirectionToTarget ⟨RandX, RandY, 0⟩)
  unfold Exact.AUnit.StuckCheck AUnit.StuckCheck
  simp only [AUnit.toExact, toExact_Distance]
  split_ifs
  · exact congrArg (fun v => (v, (0 : ℚ))) hn
  · rfl
  · rfl

theorem toExact_AvoidanceLoop (E : Engine) (self : AUnit) (loc : FVector) (L : List AUnit) :
    ∀ (a : FVector) (n : Nat),
      Exact.AUnit.AvoidanceLoop E.Sqrt self.toExact loc.toExact (L.map AUnit.toExact)
          (a.toExact, n)
        = ((AUnit.AvoidanceLoop E self loc L (a, n)).1.toExact,
            (AUnit.AvoidanceLoop E self loc L (a, n)).2) := by
  induction L with
  | nil => intro a n; rfl
  | cons v rest ih =>
    intro a n
    have hd : Exact.FVector.Distance E.Sqrt loc.toExact v.toExact.Location
        = FVector.Distance E loc v.Location := rfl
    have hg : Exact.FVector.GetSafeNormal E.Sqrt (Exact.FVector.sub loc.toExact v.toExact.Location)
        = (FVector.GetSafeNormal E (FVector.sub loc v.Location)).toExact :=
      toExact_GetSafeNormal E (FVector.sub loc v.Location)
    have hid : v.toExact.Id = v.Id := rfl
    have hsid : self.toExact.Id = self.Id := rfl
    have hR : self.toExact.AvoidanceRadius = self.AvoidanceRadius := rfl
    simp only [List.map_cons, Exact.AUnit.AvoidanceLoop, AUnit.AvoidanceLoop, hd, hg, hid, hsid,
      hR]
    split_ifs
    · exact ih (FVector.add a (FVector.scale (FVector.GetSafeNormal E (FVector.sub loc v.Location))
        (Square (1 - FVector.Distance E loc v.Location / self.AvoidanceRadius)))) (n + 1)
    · exact ih a n
    · exact ih a n

theorem toExact_BlendFactor (E : Engine) (self : AUnit) (L : List AUnit) :
    Exact.AUnit.BlendFactor E.Sqrt self.toExact (L.map AUnit.toExact)
      = AUnit.BlendFactor E self L := by
  have h := toExact_AvoidanceLoop E self self.Location L FVector.ZeroVector 0
  unfold Exact.AUnit.BlendFactor Exact.AUnit.AveragedAvoidance AUnit.BlendFactor
    AUnit.AveragedAvoidance
  have hl : self.toExact.Location = self.Location.toExact := rfl
  have hz : (Exact.FVector.ZeroVector : Exact.FVector ℚ) = FVector.ZeroVector.toExact := rfl
  rw [hl, hz, h]
  rfl

end RTS
